import Mathlib

/-!
Verification development for the core of the trading engine:
the Balance Reservation Manager (`src/core/balances/balance_reservation_manager.rs`)
and the Exchange Blocker (`src/core/exchanges/exchange_blocker.rs`).

Rust `Decimal` (arbitrary-precision fixed point) is modelled by `ℚ`.
Interned identifier types (currency codes, pairs, exchange account ids,
configuration descriptors, order ids, reservation ids) are modelled by `ℕ`:
the code only compares them for equality and uses them as map keys.

Fallible Rust code is modelled with `Option`: a function that can return
`Err(..)` or can panic (`expect`/`panic!` in the source) returns `none` in
those cases.  Where the source mutates `&mut self` and *then* bails, the
model discards the partial mutation together with the error; the theorems
below only ever rely on the behaviour of calls that return `Ok`.
-/

abbrev Decimal := ℚ
abbrev Amount := Decimal
abbrev Price := Decimal
abbrev CurrencyCode := ℕ
abbrev CurrencyPair := ℕ
abbrev ExchangeAccountId := ℕ
abbrev ConfigurationDescriptor := ℕ
abbrev ClientOrderId := ℕ
abbrev ClientOrderFillId := ℕ
abbrev ReservationId := ℕ
abbrev DateTime := ℕ

inductive OrderSide where
  | Buy
  | Sell
deriving DecidableEq, Repr

/-- Association-list lookup with decidable keys (model of `HashMap::get`). -/
def alist_lookup {κ α : Type} [DecidableEq κ] : List (κ × α) → κ → Option α
  | [], _ => none
  | (k, a) :: t, k' => if k = k' then some a else alist_lookup t k'

/-- Update the value stored under a key, leaving other entries unchanged
(model of mutation through `HashMap::get_mut`). -/
def alist_update {κ α : Type} [DecidableEq κ] (l : List (κ × α)) (k : κ) (f : α → α) :
    List (κ × α) :=
  l.map (fun p => if p.1 = k then (p.1, f p.2) else p)

/-- Remove all entries stored under a key (model of `HashMap::remove`). -/
def alist_remove {κ α : Type} [DecidableEq κ] (l : List (κ × α)) (k : κ) : List (κ × α) :=
  l.filter (fun p => p.1 ≠ k)

def alist_keys {κ α : Type} (l : List (κ × α)) : List κ := l.map Prod.fst

/-- Modelled from the spec: `CurrencyPairMetadata` (the immutable symbol
descriptor of §3 of the spec; its source file is not part of the provided
sources).  `amount_precision_step` is the symbol amount-precision grid step;
it also plays the role of the symbol margin error ε of the spec. -/
structure CurrencyPairMetadata where
  is_derivative : Bool
  base_currency_code : CurrencyCode
  quote_currency_code_v : CurrencyCode
  currency_pair_v : CurrencyPair
  balance_currency_code : Option CurrencyCode
  amount_currency_code : CurrencyCode
  amount_multiplier : Decimal
  amount_precision_step : Decimal
deriving DecidableEq, Repr

def CurrencyPairMetadata.currency_pair (m : CurrencyPairMetadata) : CurrencyPair :=
  m.currency_pair_v

def CurrencyPairMetadata.quote_currency_code (m : CurrencyPairMetadata) : CurrencyCode :=
  m.quote_currency_code_v

def CurrencyPairMetadata.base_currency_code_fn (m : CurrencyPairMetadata) : CurrencyCode :=
  m.base_currency_code

/-- Modelled from the spec: `get_trade_code(side, Before)` — base for sell,
quote for buy.  Only the `BeforeAfter::Before` variant is ever used by the
code under verification, so the parameter is dropped. -/
def CurrencyPairMetadata.get_trade_code (m : CurrencyPairMetadata) (side : OrderSide) :
    CurrencyCode :=
  match side with
  | OrderSide.Buy => m.quote_currency_code_v
  | OrderSide.Sell => m.base_currency_code

/-- Modelled from the spec: the linear factor translating one unit of amount
currency into `code` at price `p` (conversion helpers of §3). -/
def CurrencyPairMetadata.conversion_factor (m : CurrencyPairMetadata) (code : CurrencyCode)
    (price : Price) : Decimal :=
  if code = m.amount_currency_code then 1
  else if m.amount_currency_code = m.base_currency_code then price
  else 1 / price

/-- Modelled from the spec: `from_amount_currency(code, amount, price)`. -/
def CurrencyPairMetadata.convert_amount_from_amount_currency_code
    (m : CurrencyPairMetadata) (code : CurrencyCode) (amount : Amount) (price : Price) :
    Amount :=
  amount * m.conversion_factor code price

/-- Modelled from the spec: `to_amount_currency(code, amount, price)`. -/
def CurrencyPairMetadata.convert_amount_into_amount_currency_code
    (m : CurrencyPairMetadata) (code : CurrencyCode) (amount : Amount) (price : Price) :
    Amount :=
  amount / m.conversion_factor code price

/-- Modelled from the spec: rounding an amount to the symbol precision grid
(round to nearest); the source returns `Result` but can only fail on
pathological precision configuration, so the model is total. -/
def CurrencyPairMetadata.round_to_remove_amount_precision_error
    (m : CurrencyPairMetadata) (amount : Amount) : Amount :=
  if m.amount_precision_step = 0 then amount
  else (round (amount / m.amount_precision_step) : ℤ) * m.amount_precision_step

/-- Modelled from the spec: two values within one symbol margin error are
considered equal (glossary entry for ε). -/
def CurrencyPairMetadata.is_amount_within_symbol_margin_error
    (m : CurrencyPairMetadata) (amount : Amount) : Bool :=
  |amount| ≤ m.amount_precision_step

/-- `BalanceRequest` — the canonical key for all balance-indexed maps. -/
structure BalanceRequest where
  configuration_descriptor : ConfigurationDescriptor
  exchange_account_id : ExchangeAccountId
  currency_pair : CurrencyPair
  currency_code : CurrencyCode
deriving DecidableEq, Repr

def BalanceRequest.new (cfg : ConfigurationDescriptor) (eai : ExchangeAccountId)
    (pair : CurrencyPair) (code : CurrencyCode) : BalanceRequest :=
  ⟨cfg, eai, pair, code⟩

/-- Modelled from the spec: `ServiceValueTree`, a mapping
`BalanceRequest → Decimal` (§4.1); its source file is not part of the
provided sources. -/
def ServiceValueTree := BalanceRequest → Option Decimal

def ServiceValueTree.new : ServiceValueTree := fun _ => none

def ServiceValueTree.get_by_balance_request (t : ServiceValueTree) (r : BalanceRequest) :
    Option Decimal :=
  t r

def ServiceValueTree.set_by_balance_request (t : ServiceValueTree) (r : BalanceRequest)
    (v : Decimal) : ServiceValueTree :=
  fun r' => if r' = r then some v else t r'

def ServiceValueTree.add_by_request (t : ServiceValueTree) (r : BalanceRequest)
    (d : Decimal) : ServiceValueTree :=
  fun r' => if r' = r then some ((t r).getD 0 + d) else t r'

/-- `ApprovedPart` — a slice of a reservation bound to a client order id. -/
structure ApprovedPart where
  date_time : DateTime
  client_order_id : ClientOrderId
  amount : Amount
  unreserved_amount : Amount
  is_canceled : Bool
deriving DecidableEq, Repr

/-- Modelled from the spec (§4.5.5): a fresh approved part starts with
`unreserved_amount = amount` and `is_canceled = false`. -/
def ApprovedPart.new (date_time : DateTime) (client_order_id : ClientOrderId)
    (amount : Amount) : ApprovedPart :=
  ⟨date_time, client_order_id, amount, amount, false⟩

structure BalanceReservation where
  configuration_descriptor : ConfigurationDescriptor
  exchange_account_id : ExchangeAccountId
  currency_pair_metadata : CurrencyPairMetadata
  order_side : OrderSide
  price : Price
  amount : Amount
  taken_free_amount : Amount
  cost : Amount
  reservation_currency_code : CurrencyCode
  unreserved_amount : Amount
  not_approved_amount : Amount
  approved_parts : List (ClientOrderId × ApprovedPart)
deriving DecidableEq, Repr

/-- Modelled from the spec: a fresh reservation starts with
`unreserved_amount = 0` (it is raised by the `add_reserved_amount` call that
immediately follows in `try_reserve`) and `not_approved_amount = amount`,
which is what invariant 1 of §8 and scenario S2 of the spec require. -/
def BalanceReservation.new (cfg : ConfigurationDescriptor) (eai : ExchangeAccountId)
    (metadata : CurrencyPairMetadata) (side : OrderSide) (price : Price) (amount : Amount)
    (taken_free_amount : Amount) (cost : Amount) (reservation_currency_code : CurrencyCode) :
    BalanceReservation :=
  ⟨cfg, eai, metadata, side, price, amount, taken_free_amount, cost,
    reservation_currency_code, 0, amount, []⟩

/-- Modelled from the spec (§4.5.4, §4.5.6): the cost proportional to an
amount diff; fails (division by zero in the source) when the reservation
amount is zero. -/
def BalanceReservation.get_proportional_cost_amount (r : BalanceReservation)
    (amount_diff : Amount) : Option Amount :=
  if r.amount = 0 then none else some (r.cost * amount_diff / r.amount)

def BalanceReservation.convert_in_reservation_currency (r : BalanceReservation)
    (amount : Amount) : Amount :=
  r.currency_pair_metadata.convert_amount_from_amount_currency_code
    r.reservation_currency_code amount r.price

def BalanceReservation.is_amount_within_symbol_margin_error (r : BalanceReservation)
    (amount : Amount) : Bool :=
  r.currency_pair_metadata.is_amount_within_symbol_margin_error amount

def BalanceRequest.from_reservation (r : BalanceReservation) : BalanceRequest :=
  BalanceRequest.new r.configuration_descriptor r.exchange_account_id
    (r.currency_pair_metadata.currency_pair) r.reservation_currency_code

/-- Modelled from the spec (§6): an exchange collaborator exposes
`leverage_by_currency_pair`. -/
structure Exchange where
  leverage_by_currency_pair : CurrencyPair → Option Decimal

/-- Modelled from the spec (§4.2): `VirtualBalanceHolder` keeps raw exchange
balances and a ledger of virtual diffs keyed by `BalanceRequest`. -/
structure VirtualBalanceHolder where
  raw_exchange_balances : ExchangeAccountId × CurrencyCode → Option Decimal
  balance_diffs : ServiceValueTree

def VirtualBalanceHolder.add_balance (h : VirtualBalanceHolder) (req : BalanceRequest)
    (diff : Decimal) : VirtualBalanceHolder :=
  { h with balance_diffs := h.balance_diffs.add_by_request req diff }

/-- Modelled from the spec (§4.2): raw balance plus virtual diffs, converted
through the metadata helpers for a derivative market whose balance currency
differs from the requested currency; `none` when the raw balance is missing
or a required conversion has no price. -/
def VirtualBalanceHolder.get_virtual_balance (h : VirtualBalanceHolder)
    (req : BalanceRequest) (m : CurrencyPairMetadata) (price : Option Price) :
    Option Decimal :=
  match h.raw_exchange_balances (req.exchange_account_id, req.currency_code) with
  | none => none
  | some raw =>
    let balance := raw + (h.balance_diffs req).getD 0
    if m.is_derivative ∧ m.balance_currency_code ≠ some req.currency_code then
      match m.balance_currency_code, price with
      | some bc, some p =>
        some (m.convert_amount_from_amount_currency_code req.currency_code
          (m.convert_amount_into_amount_currency_code bc balance p) p)
      | _, _ => none
    else some balance

/-- `PositionChange` history entry. -/
structure PositionChange where
  client_order_fill_id : Option ClientOrderFillId
  change_time : DateTime
deriving DecidableEq, Repr

/-- Modelled from the spec (§4.4): derivative position by (exchange, pair)
with append-only history. -/
structure BalancePositionByFillAmount where
  position : ExchangeAccountId × CurrencyPair → Option Decimal
  history : List ((ExchangeAccountId × CurrencyPair) × PositionChange)

def BalancePositionByFillAmount.get (t : BalancePositionByFillAmount)
    (eai : ExchangeAccountId) (pair : CurrencyPair) : Option Decimal :=
  t.position (eai, pair)

/-- Modelled from the spec (§4.4): `add` appends history and accumulates the
current position. -/
def BalancePositionByFillAmount.add (t : BalancePositionByFillAmount)
    (eai : ExchangeAccountId) (pair : CurrencyPair) (d : Decimal)
    (fill_id : Option ClientOrderFillId) (now : DateTime) : BalancePositionByFillAmount :=
  { position := fun k =>
      if k = (eai, pair) then some ((t.position k).getD 0 + d) else t.position k,
    history := ((eai, pair), ⟨fill_id, now⟩) :: t.history }

/-- Preset computed by `get_currency_code_and_reservation_amount`; modelled
after `balance_reservation_preset.rs` (not among the provided sources) from
its uses in `balance_reservation_manager.rs`. -/
structure BalanceReservationPreset where
  reservation_currency_code : CurrencyCode
  amount_in_reservation_currency_code : Amount
  taken_free_amount_in_amount_currency_code : Amount
  cost_in_reservation_currency_code : Amount
  cost_in_amount_currency_code : Amount
deriving DecidableEq, Repr

/-- `ReserveParameters` (modelled after `reserve_parameters.rs`, not among
the provided sources, from its uses in `balance_reservation_manager.rs`). -/
structure ReserveParameters where
  configuration_descriptor : ConfigurationDescriptor
  exchange_account_id : ExchangeAccountId
  currency_pair_metadata : CurrencyPairMetadata
  order_side : OrderSide
  price : Price
  amount : Amount
deriving DecidableEq, Repr

/-- State of `BalanceReservationManager`.  The reservation store
(`balance_reservation_storage`) is an association list `ReservationId ↦
BalanceReservation`; `date_time_service_now` is the injected clock value and
`reservation_id` the last generated reservation id (`ReservationId::generate`
is modelled as incrementing it). -/
structure BalanceReservationManager where
  exchanges_by_id : ExchangeAccountId → Option Exchange
  currency_pair_to_metadata_converter :
    ExchangeAccountId × CurrencyPair → Option CurrencyPairMetadata
  reserved_amount_in_amount_currency : ServiceValueTree
  amount_limits_in_amount_currency : ServiceValueTree
  position_by_fill_amount_in_amount_currency : BalancePositionByFillAmount
  reservation_id : ReservationId
  virtual_balance_holder : VirtualBalanceHolder
  balance_reservation_storage : List (ReservationId × BalanceReservation)
  is_call_from_clone : Bool
  date_time_service_now : DateTime

namespace BalanceReservationManager

def get_reservation (m : BalanceReservationManager) (id : ReservationId) :
    Option BalanceReservation :=
  alist_lookup m.balance_reservation_storage id

def storage_add (m : BalanceReservationManager) (id : ReservationId)
    (r : BalanceReservation) : BalanceReservationManager :=
  { m with balance_reservation_storage :=
      (id, r) :: alist_remove m.balance_reservation_storage id }

def storage_set (m : BalanceReservationManager) (id : ReservationId)
    (r : BalanceReservation) : BalanceReservationManager :=
  { m with balance_reservation_storage :=
      alist_update m.balance_reservation_storage id (fun _ => r) }

def storage_remove (m : BalanceReservationManager) (id : ReservationId) :
    BalanceReservationManager :=
  { m with balance_reservation_storage := alist_remove m.balance_reservation_storage id }

def try_get_leverage (m : BalanceReservationManager) (eai : ExchangeAccountId)
    (pair : CurrencyPair) : Option Decimal :=
  match m.exchanges_by_id eai with
  | none => none
  | some exchange => exchange.leverage_by_currency_pair pair

def get_position_in_amount_currency_code (m : BalanceReservationManager)
    (eai : ExchangeAccountId) (metadata : CurrencyPairMetadata) (side : OrderSide) :
    Decimal :=
  if !metadata.is_derivative then 0
  else
    let current_position :=
      (m.position_by_fill_amount_in_amount_currency.get eai metadata.currency_pair).getD 0
    match side with
    | OrderSide.Buy => max 0 (-current_position)
    | OrderSide.Sell => max 0 current_position

def get_unreserved_position_in_amount_currency_code (m : BalanceReservationManager)
    (eai : ExchangeAccountId) (metadata : CurrencyPairMetadata) (side : OrderSide) :
    Decimal :=
  let position := m.get_position_in_amount_currency_code eai metadata side
  let taken_amount :=
    (m.balance_reservation_storage.map (fun p =>
      if p.2.order_side = side then p.2.taken_free_amount else 0)).sum
  max 0 (position - taken_amount)

def get_position (m : BalanceReservationManager) (eai : ExchangeAccountId)
    (pair : CurrencyPair) (side : OrderSide) : Option Decimal :=
  match m.currency_pair_to_metadata_converter (eai, pair) with
  | none => none
  | some metadata =>
    let currency_code := metadata.get_trade_code side
    let position :=
      (m.position_by_fill_amount_in_amount_currency.get eai pair).getD 0
    if currency_code = metadata.base_currency_code then some (position * (-1))
    else some position

structure BalancePositionModel where
  position : Decimal
  limit : Option Decimal
deriving DecidableEq, Repr

def get_position_values (m : BalanceReservationManager)
    (cfg : ConfigurationDescriptor) (eai : ExchangeAccountId)
    (metadata : CurrencyPairMetadata) (side : OrderSide) : Option BalancePositionModel :=
  let currency_code := metadata.get_trade_code side
  let request := BalanceRequest.new cfg eai metadata.currency_pair currency_code
  let total_amount_limit :=
    m.amount_limits_in_amount_currency.get_by_balance_request request
  match m.get_position eai metadata.currency_pair side with
  | none => none
  | some position => some ⟨position, total_amount_limit⟩

def get_untouchable_amount (metadata : CurrencyPairMetadata) (amount : Amount) : Amount :=
  if metadata.is_derivative then amount * (5 / 100) else 0

def get_balance_with_applied_limits (m : BalanceReservationManager)
    (request : BalanceRequest) (metadata : CurrencyPairMetadata) (side : OrderSide)
    (balance_in_currency_code : Amount) (price : Price) (leverage : Decimal) :
    Option Amount :=
  match m.get_position_values request.configuration_descriptor
      request.exchange_account_id metadata side with
  | none => none
  | some position =>
    let position_amount_in_amount_currency := position.position
    let reserved_amount_in_amount_currency :=
      (m.reserved_amount_in_amount_currency.get_by_balance_request request).getD 0
    let reservation_with_fills_in_amount_currency :=
      reserved_amount_in_amount_currency + position_amount_in_amount_currency
    let total_amount_limit_in_amount_currency := position.limit.getD 0
    let limit_left_in_amount_currency :=
      total_amount_limit_in_amount_currency - reservation_with_fills_in_amount_currency
    let balance_in_currency_code := balance_in_currency_code * leverage
    let balance_in_currency_code := balance_in_currency_code / metadata.amount_multiplier
    let balance_in_amount_currency :=
      metadata.convert_amount_into_amount_currency_code request.currency_code
        balance_in_currency_code price
    let limited_balance_in_amount_currency :=
      min balance_in_amount_currency limit_left_in_amount_currency
    let limited_balance_in_currency_code :=
      metadata.convert_amount_from_amount_currency_code request.currency_code
        limited_balance_in_amount_currency price
    let limited_balance_in_currency_code := limited_balance_in_currency_code / leverage
    let limited_balance_in_currency_code :=
      limited_balance_in_currency_code * metadata.amount_multiplier
    some (max 0 limited_balance_in_currency_code)

def try_get_available_balance (m : BalanceReservationManager)
    (cfg : ConfigurationDescriptor) (eai : ExchangeAccountId)
    (metadata : CurrencyPairMetadata) (side : OrderSide) (price : Price)
    (include_free_amount : Bool) (is_leveraged : Bool) : Option Amount :=
  let currency_code := metadata.get_trade_code side
  let request := BalanceRequest.new cfg eai metadata.currency_pair currency_code
  match m.virtual_balance_holder.get_virtual_balance request metadata (some price) with
  | none => none
  | some balance_in_currency_code =>
    match m.try_get_leverage eai metadata.currency_pair with
    | none => none
    | some leverage =>
      let balance_in_currency_code :=
        if metadata.is_derivative then
          let balance_in_currency_code :=
            if include_free_amount then
              let free_amount_in_amount_currency_code :=
                m.get_unreserved_position_in_amount_currency_code eai metadata side
              let free_amount_in_currency_code :=
                metadata.convert_amount_from_amount_currency_code currency_code
                  free_amount_in_amount_currency_code price
              let free_amount_in_currency_code := free_amount_in_currency_code / leverage
              let free_amount_in_currency_code :=
                free_amount_in_currency_code * metadata.amount_multiplier
              balance_in_currency_code + free_amount_in_currency_code
            else balance_in_currency_code
          balance_in_currency_code -
            get_untouchable_amount metadata balance_in_currency_code
        else balance_in_currency_code
      match m.amount_limits_in_amount_currency.get_by_balance_request request with
      | some _ =>
        match m.get_balance_with_applied_limits request metadata side
            balance_in_currency_code price leverage with
        | none => none
        | some limited =>
          if is_leveraged then some (limited * leverage / metadata.amount_multiplier)
          else some limited
      | none =>
        if is_leveraged then
          some (balance_in_currency_code * leverage / metadata.amount_multiplier)
        else some balance_in_currency_code

def get_available_balance (m : BalanceReservationManager) (p : ReserveParameters)
    (include_free_amount : Bool) : Amount :=
  (m.try_get_available_balance p.configuration_descriptor p.exchange_account_id
    p.currency_pair_metadata p.order_side p.price include_free_amount false).getD 0

end BalanceReservationManager

namespace BalanceReservationManager

/-- `add_virtual_balance` / `add_virtual_balance_by_currency_pair_metadata`:
apply an amount-currency diff to the virtual balance, converted into the
request currency (spot) or into the configured balance currency
(derivative); fails when a derivative has no balance currency. -/
def add_virtual_balance_by_currency_pair_metadata (m : BalanceReservationManager)
    (request : BalanceRequest) (metadata : CurrencyPairMetadata)
    (diff_in_amount_currency : Amount) (price : Price) :
    Option BalanceReservationManager :=
  if !metadata.is_derivative then
    let diff_in_request_currency :=
      metadata.convert_amount_from_amount_currency_code request.currency_code
        diff_in_amount_currency price
    some { m with virtual_balance_holder :=
      m.virtual_balance_holder.add_balance request diff_in_request_currency }
  else
    match metadata.balance_currency_code with
    | none => none
    | some balance_currency_code =>
      let balance_currency_code_request :=
        BalanceRequest.new request.configuration_descriptor request.exchange_account_id
          request.currency_pair balance_currency_code
      let diff_in_balance_currency_code :=
        metadata.convert_amount_from_amount_currency_code balance_currency_code
          diff_in_amount_currency price
      some { m with virtual_balance_holder :=
        (m.virtual_balance_holder.add_balance balance_currency_code_request
          diff_in_balance_currency_code) }

/-- `add_reserved_amount`: optionally move the proportional cost out of the
virtual balance, then raise `unreserved_amount` of the stored reservation
and the reserved-amount tree entry by the diff. -/
def add_reserved_amount (m : BalanceReservationManager) (request : BalanceRequest)
    (reservation_id : ReservationId) (amount_diff_in_amount_currency : Amount)
    (update_balance : Bool) : Option BalanceReservationManager :=
  match m.get_reservation reservation_id with
  | none => none
  | some r =>
    let after_balance : Option BalanceReservationManager :=
      if update_balance then
        match r.get_proportional_cost_amount amount_diff_in_amount_currency with
        | none => none
        | some cost =>
          m.add_virtual_balance_by_currency_pair_metadata request
            r.currency_pair_metadata (-cost) r.price
      else some m
    match after_balance with
    | none => none
    | some m1 =>
      let m2 := m1.storage_set reservation_id
        { r with unreserved_amount := r.unreserved_amount + amount_diff_in_amount_currency }
      let res_amount_request := BalanceRequest.new request.configuration_descriptor
        request.exchange_account_id request.currency_pair r.reservation_currency_code
      some { m2 with reserved_amount_in_amount_currency :=
        (m2.reserved_amount_in_amount_currency.add_by_request res_amount_request
          amount_diff_in_amount_currency) }

/-- `add_reserved_amount_by_reservation`: the variant used on a reservation
already removed from the store (the compensation path of `unreserve`); it
only touches the virtual balance and the reserved-amount tree — the
`unreserved_amount` update of the source lands on a local clone. -/
def add_reserved_amount_by_reservation (m : BalanceReservationManager)
    (request : BalanceRequest) (r : BalanceReservation)
    (amount_diff_in_amount_currency : Amount) (update_balance : Bool) :
    Option BalanceReservationManager :=
  let after_balance : Option BalanceReservationManager :=
    if update_balance then
      match r.get_proportional_cost_amount amount_diff_in_amount_currency with
      | none => none
      | some cost =>
        m.add_virtual_balance_by_currency_pair_metadata request
          r.currency_pair_metadata (-cost) r.price
    else some m
  match after_balance with
  | none => none
  | some m1 =>
    let res_amount_request := BalanceRequest.new request.configuration_descriptor
      request.exchange_account_id request.currency_pair r.reservation_currency_code
    some { m1 with reserved_amount_in_amount_currency :=
      (m1.reserved_amount_in_amount_currency.add_by_request res_amount_request
        amount_diff_in_amount_currency) }

/-- `unreserve_not_approved_part`, expressed on the reservation it mutates.
`none` models the `bail!` paths; the source applies its decrement before
bailing, but the partially mutated state is never used by a caller that
receives the error. -/
def unreserve_not_approved_part (r : BalanceReservation)
    (client_order_id : Option ClientOrderId) (amount_to_unreserve : Amount) :
    Option BalanceReservation :=
  match client_order_id with
  | none =>
    let r1 := { r with not_approved_amount := r.not_approved_amount - amount_to_unreserve }
    if r1.not_approved_amount < 0 ∧ r.unreserved_amount > amount_to_unreserve then none
    else some r1
  | some cl =>
    match alist_lookup r.approved_parts cl with
    | none =>
      some { r with not_approved_amount := r.not_approved_amount - amount_to_unreserve }
    | some approved_part =>
      let new_unreserved_amount_for_approved_part :=
        approved_part.unreserved_amount - amount_to_unreserve
      if new_unreserved_amount_for_approved_part < 0 then none
      else some { r with approved_parts := (alist_update r.approved_parts cl
        (fun p => { p with unreserved_amount := new_unreserved_amount_for_approved_part })) }

/-- `unreserve(reservation_id, amount, client_order_id)`.  `some m'` models
`Ok(())` with final state `m'`; `none` models the `bail!` error paths (the
function has no panicking path). -/
def unreserve (m : BalanceReservationManager) (reservation_id : ReservationId)
    (amount : Amount) (client_or_order_id : Option ClientOrderId) :
    Option BalanceReservationManager :=
  match m.get_reservation reservation_id with
  | none =>
    if m.is_call_from_clone ∨ amount = 0 then some m else none
  | some reservation =>
    let amount_to_unreserve :=
      reservation.currency_pair_metadata.round_to_remove_amount_precision_error amount
    if amount_to_unreserve = 0 ∧ reservation.amount ≠ 0 then some m
    else if (m.exchanges_by_id reservation.exchange_account_id).isNone then some m
    else
      match unreserve_not_approved_part reservation client_or_order_id
          amount_to_unreserve with
      | none => none
      | some r1 =>
        let m1 := m.storage_set reservation_id r1
        let balance_request := BalanceRequest.from_reservation r1
        match m1.add_reserved_amount balance_request reservation_id
            (-amount_to_unreserve) true with
        | none => none
        | some m2 =>
          match m2.get_reservation reservation_id with
          | none => none
          | some r2 =>
            if r2.unreserved_amount < 0
                ∨ r2.is_amount_within_symbol_margin_error r2.unreserved_amount then
              let m3 := m2.storage_remove reservation_id
              if r2.unreserved_amount ≠ 0 then
                m3.add_reserved_amount_by_reservation balance_request r2
                  (-r2.unreserved_amount) true
              else some m3
            else some m2

/-- `approve_reservation(reservation_id, client_order_id, amount)`.  `some`
models `Ok(())` (including the tolerated missing-reservation and duplicate
cases); `none` models the `bail!` when `not_approved_amount` would fall
below −ε. -/
def approve_reservation (m : BalanceReservationManager) (reservation_id : ReservationId)
    (client_order_id : ClientOrderId) (amount : Amount) :
    Option BalanceReservationManager :=
  let date_time := m.date_time_service_now
  match m.get_reservation reservation_id with
  | none => some m
  | some r =>
    if (alist_lookup r.approved_parts client_order_id).isSome then some m
    else
      let not_approved_amount := r.not_approved_amount - amount
      if not_approved_amount < 0
          ∧ ¬r.is_amount_within_symbol_margin_error not_approved_amount then none
      else
        some (m.storage_set reservation_id
          { r with
            not_approved_amount := not_approved_amount,
            approved_parts :=
              (client_order_id, ApprovedPart.new date_time client_order_id amount)
                :: r.approved_parts })

/-- `cancel_approved_reservation(reservation_id, client_order_id)`.  Missing
reservation or missing part are tolerated (`some m`); cancelling twice is
the `bail!` path (`none`). -/
def cancel_approved_reservation (m : BalanceReservationManager)
    (reservation_id : ReservationId) (client_order_id : ClientOrderId) :
    Option BalanceReservationManager :=
  match m.get_reservation reservation_id with
  | none => some m
  | some r =>
    match alist_lookup r.approved_parts client_order_id with
    | none => some m
    | some approved_part =>
      if approved_part.is_canceled then none
      else
        some (m.storage_set reservation_id
          { r with
            not_approved_amount := r.not_approved_amount + approved_part.unreserved_amount,
            approved_parts := alist_update r.approved_parts client_order_id
              (fun p => { p with is_canceled := true }) })

end BalanceReservationManager

namespace BalanceReservationManager

/-- `can_reserve_with_limit`: the amount-limit check of `try_reserve`.
Returns the verdict together with the `potential_position` out-parameter
(`none` when no limit is configured). -/
def can_reserve_with_limit (m : BalanceReservationManager) (p : ReserveParameters) :
    Bool × Option Decimal :=
  let reservation_currency_code := p.currency_pair_metadata.get_trade_code p.order_side
  let request := BalanceRequest.new p.configuration_descriptor p.exchange_account_id
    p.currency_pair_metadata.currency_pair reservation_currency_code
  match m.amount_limits_in_amount_currency.get_by_balance_request request with
  | none => (true, none)
  | some limit =>
    let reserved_amount :=
      (m.reserved_amount_in_amount_currency.get_by_balance_request request).getD 0
    let new_reserved_amount := reserved_amount + p.amount
    let position :=
      (m.position_by_fill_amount_in_amount_currency.get request.exchange_account_id
        request.currency_pair).getD 0
    let potential_position :=
      match p.order_side with
      | OrderSide.Buy => position + new_reserved_amount
      | OrderSide.Sell => position - new_reserved_amount
    let potential_position_abs := |potential_position|
    if potential_position_abs ≤ limit then (true, some potential_position)
    else (decide (potential_position_abs < |position|), some potential_position)

/-- `calculate_reservation_cost`: `(cost_in_amount_currency_code,
taken_free_amount)`; `none` models the `expect` panic when a derivative has
no configured leverage. -/
def calculate_reservation_cost (m : BalanceReservationManager) (p : ReserveParameters) :
    Option (Amount × Amount) :=
  if !p.currency_pair_metadata.is_derivative then some (p.amount, 0)
  else
    let free_amount := m.get_unreserved_position_in_amount_currency_code
      p.exchange_account_id p.currency_pair_metadata p.order_side
    let amount_to_pay_for := max 0 (p.amount - free_amount)
    let taken_free_amount := p.amount - amount_to_pay_for
    match m.try_get_leverage p.exchange_account_id
        p.currency_pair_metadata.currency_pair with
    | none => none
    | some leverage =>
      some (amount_to_pay_for * p.currency_pair_metadata.amount_multiplier / leverage,
        taken_free_amount)

def get_currency_code_and_reservation_amount (m : BalanceReservationManager)
    (p : ReserveParameters) : Option BalanceReservationPreset :=
  let price := p.price
  let amount := p.amount
  let metadata := p.currency_pair_metadata
  let reservation_currency_code := metadata.get_trade_code p.order_side
  let amount_in_reservation_currency_code :=
    metadata.convert_amount_from_amount_currency_code reservation_currency_code
      amount price
  match m.calculate_reservation_cost p with
  | none => none
  | some (cost_in_amount_currency_code, taken_free_amount) =>
    let cost_in_reservation_currency_code :=
      metadata.convert_amount_from_amount_currency_code reservation_currency_code
        cost_in_amount_currency_code price
    some ⟨reservation_currency_code, amount_in_reservation_currency_code,
      taken_free_amount, cost_in_reservation_currency_code,
      cost_in_amount_currency_code⟩

/-- `can_reserve_core`: verdict plus the preset (the source communicates the
preset through an out-parameter).  `none` models the panics (missing
leverage for a derivative). -/
def can_reserve_core (m : BalanceReservationManager) (p : ReserveParameters) :
    Option (Bool × BalanceReservationPreset) :=
  match m.get_currency_code_and_reservation_amount p with
  | none => none
  | some preset =>
    let old_balance := m.get_available_balance p false
    let preset_cost := preset.cost_in_reservation_currency_code
    let new_balance := old_balance - preset_cost
    if !(m.can_reserve_with_limit p).1 then some (false, preset)
    else
      some (decide (0 ≤ p.currency_pair_metadata.round_to_remove_amount_precision_error
        new_balance), preset)

/-- `try_reserve(reserve_parameters, &mut reservation_id)`: the returned
triple is (success, final state, reservation id out-parameter);
`ReservationId::default()` is 0 and `ReservationId::generate()` is modelled
by incrementing the manager's counter.  `none` models the panics
(`expect` on missing leverage or on `add_reserved_amount` failure). -/
def try_reserve (m : BalanceReservationManager) (p : ReserveParameters) :
    Option (Bool × BalanceReservationManager × ReservationId) :=
  match m.can_reserve_core p with
  | none => none
  | some (false, _) => some (false, m, 0)
  | some (true, preset) =>
    let request := BalanceRequest.new p.configuration_descriptor p.exchange_account_id
      p.currency_pair_metadata.currency_pair preset.reservation_currency_code
    let reservation := BalanceReservation.new p.configuration_descriptor
      p.exchange_account_id p.currency_pair_metadata p.order_side p.price p.amount
      preset.taken_free_amount_in_amount_currency_code
      preset.cost_in_amount_currency_code preset.reservation_currency_code
    let new_id := m.reservation_id + 1
    let m1 := { m with reservation_id := new_id }
    let m2 := m1.storage_add new_id reservation
    match m2.add_reserved_amount request new_id p.amount true with
    | none => none
    | some m3 => some (true, m3, new_id)

end BalanceReservationManager

namespace BalanceReservationManager

/-- Tail of `update_unreserved_amount_for_transfer`, from the point where the
approved-part/not-approved bucket has been moved into `r1` (the bucket update
leaves `unreserved_amount`, identification fields, `amount` and `cost`
untouched): store the bucket update, raise the reserved amount, move the cost
diff out of the virtual balance, adjust `cost` and `amount`, and remove the
reservation when the new unreserved amount is within the symbol margin. -/
def update_unreserved_tail (m : BalanceReservationManager)
    (reservation_id : ReservationId) (new_unreserved_amount : Amount)
    (reservation_amount_diff : Amount) (is_src_request : Bool)
    (target_cost_diff : Decimal) (r1 : BalanceReservation) :
    Option (BalanceReservationManager × Decimal) :=
  let m1 := m.storage_set reservation_id r1
  let balance_request := BalanceRequest.from_reservation r1
  (m1.add_reserved_amount balance_request reservation_id
      reservation_amount_diff false).bind (fun m2 =>
    (m2.get_reservation reservation_id).bind (fun r2 =>
      (if is_src_request then
        r2.get_proportional_cost_amount reservation_amount_diff
      else some target_cost_diff).bind (fun cost_diff =>
        (m2.add_virtual_balance_by_currency_pair_metadata balance_request
            r2.currency_pair_metadata (-cost_diff) r2.price).bind (fun m3 =>
          (m3.get_reservation reservation_id).bind (fun r3 =>
            let r4 := { r3 with
              cost := r3.cost + cost_diff,
              amount := r3.amount + reservation_amount_diff }
            let m4 := m3.storage_set reservation_id r4
            let m5 :=
              if r4.is_amount_within_symbol_margin_error new_unreserved_amount then
                m4.storage_remove reservation_id
              else m4
            some (m5, cost_diff))))))

/-- `update_unreserved_amount_for_transfer`: one side of a transfer; returns
the new state together with the `cost_diff` out-parameter.  `none` models
both the `bail!` paths and the `expect` panics of the enclosing
`transfer_amount`. -/
def update_unreserved_amount_for_transfer (m : BalanceReservationManager)
    (reservation_id : ReservationId) (new_unreserved_amount : Amount)
    (client_order_id : Option ClientOrderId) (is_src_request : Bool)
    (target_cost_diff : Decimal) : Option (BalanceReservationManager × Decimal) :=
  let date_time := m.date_time_service_now
  match m.get_reservation reservation_id with
  | none => none
  | some r =>
    if new_unreserved_amount < 0
        ∧ ¬r.is_amount_within_symbol_margin_error new_unreserved_amount then none
    else
      let reservation_amount_diff := new_unreserved_amount - r.unreserved_amount
      let bucket_updated : Option BalanceReservation :=
        match client_order_id with
        | some cl =>
          match alist_lookup r.approved_parts cl with
          | some approved_part =>
            let new_amount := approved_part.unreserved_amount + reservation_amount_diff
            if r.is_amount_within_symbol_margin_error new_amount then
              some { r with approved_parts := alist_remove r.approved_parts cl }
            else if new_amount < 0 then none
            else some { r with approved_parts := (alist_update r.approved_parts cl
              (fun p => { p with
                unreserved_amount := new_amount,
                amount := p.amount + reservation_amount_diff })) }
          | none =>
            if is_src_request then none
            else some { r with approved_parts :=
              ((cl, ApprovedPart.new date_time cl reservation_amount_diff)
                :: r.approved_parts) }
        | none =>
          some { r with not_approved_amount :=
            r.not_approved_amount + reservation_amount_diff }
      match bucket_updated with
      | none => none
      | some r1 =>
        m.update_unreserved_tail reservation_id new_unreserved_amount
          reservation_amount_diff is_src_request target_cost_diff r1

/-- `transfer_amount`: move an already-validated amount from the source to
the destination reservation. -/
def transfer_amount (m : BalanceReservationManager) (src_reservation_id : ReservationId)
    (dst_reservation_id : ReservationId) (amount_to_move : Amount)
    (client_order_id : Option ClientOrderId) : Option BalanceReservationManager :=
  (m.get_reservation src_reservation_id).bind (fun src_reservation =>
    (m.update_unreserved_amount_for_transfer src_reservation_id
        (src_reservation.unreserved_amount - amount_to_move) client_order_id true
        0).bind (fun step1 =>
      (step1.1.get_reservation dst_reservation_id).bind (fun dst_reservation =>
        (step1.1.update_unreserved_amount_for_transfer dst_reservation_id
            (dst_reservation.unreserved_amount + amount_to_move) client_order_id false
            (-step1.2)).bind (fun step2 => some step2.1))))

/-- `try_transfer_reservation(src, dst, amount, client_order_id)`: the bool
of the source is returned with the final state; `none` models the panics
(missing reservations, mismatched sources, failures inside
`transfer_amount`). -/
def try_transfer_reservation (m : BalanceReservationManager)
    (src_reservation_id : ReservationId) (dst_reservation_id : ReservationId)
    (amount : Amount) (client_order_id : Option ClientOrderId) :
    Option (Bool × BalanceReservationManager) :=
  (m.get_reservation src_reservation_id).bind (fun src_reservation =>
    (m.get_reservation dst_reservation_id).bind (fun dst_reservation =>
      if src_reservation.configuration_descriptor
            ≠ dst_reservation.configuration_descriptor
          ∨ src_reservation.exchange_account_id ≠ dst_reservation.exchange_account_id
          ∨ src_reservation.currency_pair_metadata
            ≠ dst_reservation.currency_pair_metadata
          ∨ src_reservation.order_side ≠ dst_reservation.order_side then none
      else
        let amount_to_move :=
          src_reservation.currency_pair_metadata.round_to_remove_amount_precision_error
            amount
        if amount_to_move = 0 then some (false, m)
        else if src_reservation.price ≠ dst_reservation.price
            ∧ src_reservation.currency_pair_metadata.is_derivative then
          let add_amount := src_reservation.convert_in_reservation_currency amount_to_move
          let sub_amount := dst_reservation.convert_in_reservation_currency amount_to_move
          let balance_diff_amount := add_amount - sub_amount
          (m.try_get_available_balance dst_reservation.configuration_descriptor
              dst_reservation.exchange_account_id dst_reservation.currency_pair_metadata
              dst_reservation.order_side dst_reservation.price true false).bind
            (fun available_balance =>
              if available_balance + balance_diff_amount < 0 then some (false, m)
              else
                (m.transfer_amount src_reservation_id dst_reservation_id amount_to_move
                    client_order_id).bind (fun m1 => some (true, m1)))
        else
          (m.transfer_amount src_reservation_id dst_reservation_id amount_to_move
              client_order_id).bind (fun m1 => some (true, m1))))

end BalanceReservationManager

namespace BalanceReservationManager

def get_fill_amount_position_percent (m : BalanceReservationManager)
    (cfg : ConfigurationDescriptor) (eai : ExchangeAccountId)
    (metadata : CurrencyPairMetadata) (side : OrderSide) : Option Decimal :=
  match m.get_position_values cfg eai metadata side with
  | none => none
  | some position =>
    match position.limit with
    | none => none
    | some limit => some (min 1 (max 0 (position.position / limit)))

/-- `handle_position_fill_amount_change`: returns the final state and the
`change_amount_in_currency` out-parameter (modelled as starting at 0).
`none` models the `bail!` on missing leverage and the failure paths of the
virtual-balance update.  `validate_position_and_limits` only logs, so it has
no footprint in the model. -/
def handle_position_fill_amount_change (m : BalanceReservationManager)
    (trade_side : OrderSide) (client_order_fill_id : Option ClientOrderFillId)
    (fill_amount : Amount) (price : Price) (cfg : ConfigurationDescriptor)
    (eai : ExchangeAccountId) (metadata : CurrencyPairMetadata)
    (currency_code : CurrencyCode) : Option (BalanceReservationManager × Amount) :=
  let request := BalanceRequest.new cfg eai metadata.currency_pair currency_code
  let first_step : Option (BalanceReservationManager × Amount) :=
    if !metadata.is_derivative then
      match m.add_virtual_balance_by_currency_pair_metadata request metadata
          (-fill_amount) price with
      | none => none
      | some m1 =>
        some (m1, metadata.convert_amount_from_amount_currency_code currency_code
          fill_amount price)
    else some (m, 0)
  match first_step with
  | none => none
  | some (m1, change_amount_in_currency) =>
    if metadata.amount_currency_code = currency_code then
      let position_change := fill_amount
      let second_step : Option (BalanceReservationManager × Amount × Amount) :=
        if metadata.is_derivative then
          let free_amount := m1.get_position_in_amount_currency_code eai metadata
            trade_side
          let move_amount := |fill_amount|
          let add_sub : Amount × Amount :=
            if free_amount - move_amount ≥ 0 then (move_amount, 0)
            else (free_amount, |free_amount - move_amount|)
          match m1.try_get_leverage eai metadata.currency_pair with
          | none => none
          | some leverage =>
            let diff_in_amount_currency :=
              (add_sub.1 - add_sub.2) / leverage * metadata.amount_multiplier
            match m1.add_virtual_balance_by_currency_pair_metadata request metadata
                diff_in_amount_currency price with
            | none => none
            | some m2 =>
              let change :=
                metadata.convert_amount_from_amount_currency_code currency_code
                  diff_in_amount_currency price
              let position_change :=
                if metadata.amount_currency_code = metadata.base_currency_code then
                  position_change * (-1)
                else position_change
              some (m2, change, position_change)
        else some (m1, change_amount_in_currency, position_change)
      match second_step with
      | none => none
      | some (m2, change2, position_change2) =>
        let now := m2.date_time_service_now
        let m3 := { m2 with position_by_fill_amount_in_amount_currency :=
          (m2.position_by_fill_amount_in_amount_currency.add request.exchange_account_id
            request.currency_pair position_change2 client_order_fill_id now) }
        some (m3, change2)
    else some (m1, change_amount_in_currency)

/-- `handle_position_fill_amount_change_commission`: `none` models the
`expect` panics (missing leverage, failing virtual-balance update). -/
def handle_position_fill_amount_change_commission (m : BalanceReservationManager)
    (commission_currency_code : CurrencyCode) (commission_amount : Amount)
    (converted_commission_currency_code : CurrencyCode)
    (converted_commission_amount : Amount) (price : Price)
    (cfg : ConfigurationDescriptor) (eai : ExchangeAccountId)
    (metadata : CurrencyPairMetadata) : Option BalanceReservationManager :=
  match m.try_get_leverage eai metadata.currency_pair with
  | none => none
  | some leverage =>
    if !metadata.is_derivative
        ∨ metadata.balance_currency_code = some commission_currency_code then
      let request := BalanceRequest.new cfg eai metadata.currency_pair
        commission_currency_code
      let res_commission_amount := commission_amount / leverage
      some { m with virtual_balance_holder :=
        m.virtual_balance_holder.add_balance request (-res_commission_amount) }
    else
      let request := BalanceRequest.new cfg eai metadata.currency_pair
        converted_commission_currency_code
      let commission_in_amount_currency :=
        metadata.convert_amount_into_amount_currency_code
          converted_commission_currency_code converted_commission_amount price
      let res_commission_amount_in_amount_currency :=
        commission_in_amount_currency / leverage
      m.add_virtual_balance_by_currency_pair_metadata request metadata
        (-res_commission_amount_in_amount_currency) price

end BalanceReservationManager

/-! ## Exchange blocker (`src/core/exchanges/exchange_blocker.rs`)

The pure state of a blocker is modelled directly; runtime artefacts are
replaced by data: `Instant` becomes `ℚ` (the current instant is passed in as
`now`), and a `JoinHandle` for a sleeping timer task becomes a numeric
token, a fresh one standing for the newly spawned timer of
`set_unblock_by_timer`.  Aborting the previous timer is reported as a
boolean alongside the new blocker state. -/

abbrev Instant := ℚ
abbrev BlockReason := ℕ
abbrev TimerHandle := ℕ

inductive BlockType where
  | Manual
  | Timed (duration : ℚ)
deriving DecidableEq, Repr

inductive EbTimeout where
  | ReadyUnblock
  | InProgress (end_time : Instant) (timer_handle : TimerHandle)
deriving DecidableEq, Repr

/-- `ProgressStatus` with the `Ord` derived by declaration order in the
source. -/
inductive ProgressStatus where
  | WaitBlockedMove
  | ProgressBlocked
  | WaitBeforeUnblockedMove
  | WaitUnblockedMove
deriving DecidableEq, Repr

def ProgressStatus.rank : ProgressStatus → ℕ
  | .WaitBlockedMove => 0
  | .ProgressBlocked => 1
  | .WaitBeforeUnblockedMove => 2
  | .WaitUnblockedMove => 3

instance : LE ProgressStatus := ⟨fun a b => a.rank ≤ b.rank⟩

instance : DecidableRel (fun a b : ProgressStatus => a ≤ b) :=
  fun a b => inferInstanceAs (Decidable (a.rank ≤ b.rank))

structure ProgressState where
  is_unblock_requested : Bool
  status : ProgressStatus
deriving DecidableEq, Repr

structure BlockerId where
  exchange_account_id : ExchangeAccountId
  reason : BlockReason
deriving DecidableEq, Repr

structure Blocker where
  id : BlockerId
  timeout : EbTimeout
  progress_state : ProgressState
deriving DecidableEq, Repr

/-- `Blocker::new`. -/
def Blocker.new (id : BlockerId) (timeout : EbTimeout) : Blocker :=
  ⟨id, timeout, ⟨false, ProgressStatus.WaitBlockedMove⟩⟩

inductive ExchangeBlockerEventType where
  | MoveToBlocked
  | UnblockRequested
  | MoveBlockedToBeforeUnblocked
  | MoveBeforeUnblockedToUnblocked
deriving DecidableEq, Repr

/-- The nested `rollback_to_blocked_progress` of `timeout_reset_if_exists`:
clear `is_unblock_requested` and cap the status at `ProgressBlocked`. -/
def rollback_to_blocked_progress (b : Blocker) : Blocker :=
  let progress_status := b.progress_state.status
  { b with progress_state :=
    ⟨false,
      if ProgressStatus.ProgressBlocked ≤ progress_status then
        ProgressStatus.ProgressBlocked
      else progress_status⟩ }

/-- `timeout_reset_if_exists(blocker, block_type)` at instant `now`;
`fresh_handle` stands for the timer task spawned by
`set_unblock_by_timer`.  The second component reports whether the existing
timer handle was aborted. -/
def timeout_reset_if_exists (b : Blocker) (block_type : BlockType) (now : Instant)
    (fresh_handle : TimerHandle) : Blocker × Bool :=
  match block_type with
  | BlockType.Timed duration =>
    let expected_end_time := now + duration
    match b.timeout with
    | EbTimeout.InProgress end_time _timer_handle =>
      if expected_end_time < end_time then (b, false)
      else
        let b1 := rollback_to_blocked_progress b
        ({ b1 with timeout := EbTimeout.InProgress expected_end_time fresh_handle }, true)
    | EbTimeout.ReadyUnblock =>
      let b1 := rollback_to_blocked_progress b
      ({ b1 with timeout := EbTimeout.InProgress expected_end_time fresh_handle }, false)
  | BlockType.Manual =>
    match b.timeout with
    | EbTimeout.ReadyUnblock => (rollback_to_blocked_progress b, false)
    | EbTimeout.InProgress _ _ => (b, false)

/-- `timeout_init(blocker_id, duration)` at instant `now`. -/
def timeout_init (duration : ℚ) (now : Instant) (fresh_handle : TimerHandle) : EbTimeout :=
  EbTimeout.InProgress (now + duration) fresh_handle

/-- `create_blocker(block_type, blocker_id)` at instant `now`. -/
def create_blocker (block_type : BlockType) (blocker_id : BlockerId) (now : Instant)
    (fresh_handle : TimerHandle) : Blocker :=
  let timeout :=
    match block_type with
    | BlockType.Manual => EbTimeout.ReadyUnblock
    | BlockType.Timed duration => timeout_init duration now fresh_handle
  Blocker.new blocker_id timeout

/-- `ExchangeBlocker::block` restricted to one (exchange, reason) slot: the
occupied case delegates to `timeout_reset_if_exists`, the vacant case
creates the blocker and emits `MoveToBlocked`.  The result carries the slot
contents, the abort flag and the emitted event, mirroring the map mutation
and the channel send of the source. -/
def eb_block (slot : Option Blocker) (blocker_id : BlockerId) (block_type : BlockType)
    (now : Instant) (fresh_handle : TimerHandle) :
    Blocker × Bool × Option ExchangeBlockerEventType :=
  match slot with
  | some blocker =>
    let reset := timeout_reset_if_exists blocker block_type now fresh_handle
    (reset.1, reset.2, none)
  | none =>
    (create_blocker block_type blocker_id now fresh_handle, false,
      some ExchangeBlockerEventType.MoveToBlocked)

/-! ## Theorems for the claims -/

@[simp]
theorem BalanceRequest.new_def (cfg : ConfigurationDescriptor) (eai : ExchangeAccountId)
    (pair : CurrencyPair) (code : CurrencyCode) :
    BalanceRequest.new cfg eai pair code = ⟨cfg, eai, pair, code⟩ := rfl

open BalanceReservationManager in
/-- C4: for a derivative market with configured leverage the reservation
preset computed during `try_reserve` satisfies
`amount_to_pay_for = max 0 (amount − free)` with `free` the unreserved
position in amount currency for the requested side,
`taken_free_amount = amount − amount_to_pay_for` and
`cost_in_amount_currency = amount_to_pay_for * amount_multiplier / leverage`;
for a non-derivative market the preset has
`cost_in_amount_currency = amount` and `taken_free_amount = 0`. -/
theorem c4_reservation_preset (m : BalanceReservationManager) (p : ReserveParameters) :
    (∀ leverage, p.currency_pair_metadata.is_derivative = true →
      m.try_get_leverage p.exchange_account_id
          p.currency_pair_metadata.currency_pair = some leverage →
      ∃ preset, m.get_currency_code_and_reservation_amount p = some preset
        ∧ preset.cost_in_amount_currency_code =
            max 0 (p.amount - m.get_unreserved_position_in_amount_currency_code
                p.exchange_account_id p.currency_pair_metadata p.order_side)
              * p.currency_pair_metadata.amount_multiplier / leverage
        ∧ preset.taken_free_amount_in_amount_currency_code =
            p.amount - max 0 (p.amount - m.get_unreserved_position_in_amount_currency_code
              p.exchange_account_id p.currency_pair_metadata p.order_side))
    ∧ (p.currency_pair_metadata.is_derivative = false →
      ∃ preset, m.get_currency_code_and_reservation_amount p = some preset
        ∧ preset.cost_in_amount_currency_code = p.amount
        ∧ preset.taken_free_amount_in_amount_currency_code = 0) := by
  constructor
  · intro leverage hder hlev
    simp [get_currency_code_and_reservation_amount, calculate_reservation_cost, hder, hlev]
  · intro hder
    simp [get_currency_code_and_reservation_amount, calculate_reservation_cost, hder]

open BalanceReservationManager in
/-- C5: with an amount limit configured for the canonical request, the limit
check of `try_reserve` accepts exactly when `|potential_position| ≤ limit`
or `|potential_position| < |current_position|`, where `potential_position`
is `current_position + (reserved + amount)` for a buy and
`current_position − (reserved + amount)` for a sell; with no configured
limit it always accepts. -/
theorem c5_limit_check (m : BalanceReservationManager) (p : ReserveParameters) :
    (m.amount_limits_in_amount_currency.get_by_balance_request
        (BalanceRequest.new p.configuration_descriptor p.exchange_account_id
          p.currency_pair_metadata.currency_pair
          (p.currency_pair_metadata.get_trade_code p.order_side)) = none →
      (m.can_reserve_with_limit p).1 = true)
    ∧ (∀ limit,
      m.amount_limits_in_amount_currency.get_by_balance_request
        (BalanceRequest.new p.configuration_descriptor p.exchange_account_id
          p.currency_pair_metadata.currency_pair
          (p.currency_pair_metadata.get_trade_code p.order_side)) = some limit →
      ((m.can_reserve_with_limit p).1 = true ↔
        (let request := BalanceRequest.new p.configuration_descriptor
          p.exchange_account_id p.currency_pair_metadata.currency_pair
          (p.currency_pair_metadata.get_trade_code p.order_side)
        let reserved := (m.reserved_amount_in_amount_currency.get_by_balance_request
          request).getD 0
        let current_position := (m.position_by_fill_amount_in_amount_currency.get
          p.exchange_account_id p.currency_pair_metadata.currency_pair).getD 0
        let potential_position :=
          match p.order_side with
          | OrderSide.Buy => current_position + (reserved + p.amount)
          | OrderSide.Sell => current_position - (reserved + p.amount)
        |potential_position| ≤ limit ∨ |potential_position| < |current_position|))) := by
  constructor
  · intro hnone
    simp only [BalanceRequest.new_def] at hnone
    simp [can_reserve_with_limit, hnone]
  · intro limit hlimit
    cases hside : p.order_side <;>
      · rw [hside] at hlimit
        simp only [BalanceRequest.new_def] at hlimit
        simp only [can_reserve_with_limit, BalanceRequest.new_def, hside, hlimit]
        split <;> rename_i hle
        · simp only [true_iff]
          exact Or.inl hle
        · simp only [decide_eq_true_eq]
          constructor
          · intro hlt
            exact Or.inr hlt
          · intro hor
            rcases hor with h | h
            · exact absurd h hle
            · exact h

open BalanceReservationManager in
/-- C6: for an (exchange, currency pair) without a configured leverage,
every available-balance query returns `None`, the fill handler on the
amount-currency side of a derivative fails, and the commission fill handler
fails. -/
theorem c6_missing_leverage
    (m : BalanceReservationManager) (cfg : ConfigurationDescriptor)
    (eai : ExchangeAccountId) (metadata : CurrencyPairMetadata) (side : OrderSide)
    (price : Price) (include_free_amount is_leveraged : Bool)
    (fill_id : Option ClientOrderFillId) (fill_amount : Amount)
    (currency_code commission_currency_code : CurrencyCode)
    (commission_amount : Amount) (converted_commission_currency_code : CurrencyCode)
    (converted_commission_amount : Amount)
    (hlev : m.try_get_leverage eai metadata.currency_pair = none) :
    m.try_get_available_balance cfg eai metadata side price include_free_amount
        is_leveraged = none
    ∧ (metadata.is_derivative = true → metadata.amount_currency_code = currency_code →
        m.handle_position_fill_amount_change side fill_id fill_amount price cfg eai
          metadata currency_code = none)
    ∧ m.handle_position_fill_amount_change_commission commission_currency_code
        commission_amount converted_commission_currency_code
        converted_commission_amount price cfg eai metadata = none := by
  refine ⟨?_, ?_, ?_⟩
  · cases hvb : m.virtual_balance_holder.get_virtual_balance
        ⟨cfg, eai, metadata.currency_pair, metadata.get_trade_code side⟩
        metadata (some price) <;>
      simp [try_get_available_balance, hvb, hlev]
  · intro hder hcc
    simp [handle_position_fill_amount_change, hder, hcc, hlev]
  · simp [handle_position_fill_amount_change_commission, hlev]

open BalanceReservationManager in
/-- C7: `unreserve` on a reservation id absent from the store returns `Ok`
without changing the state when the manager is a cloned snapshot or the
amount is zero, and fails in every other case. -/
theorem c7_unreserve_missing_reservation (m : BalanceReservationManager)
    (reservation_id : ReservationId) (amount : Amount)
    (client_order_id : Option ClientOrderId)
    (hmissing : m.get_reservation reservation_id = none) :
    (m.is_call_from_clone = true ∨ amount = 0 →
      m.unreserve reservation_id amount client_order_id = some m)
    ∧ (m.is_call_from_clone = false → amount ≠ 0 →
      m.unreserve reservation_id amount client_order_id = none) := by
  constructor
  · intro hcase
    rcases hcase with hclone | hzero
    · simp [unreserve, hmissing, hclone]
    · simp [unreserve, hmissing, hzero]
  · intro hclone hamount
    simp [unreserve, hmissing, hclone, hamount]

open BalanceReservationManager in
/-- C9: whenever `get_fill_amount_position_percent` returns `Some v`, the
value satisfies `0 ≤ v ≤ 1` (the position/limit ratio is clamped), and
`None` is returned whenever the position values or the limit are absent. -/
theorem c9_fill_position_percent (m : BalanceReservationManager)
    (cfg : ConfigurationDescriptor) (eai : ExchangeAccountId)
    (metadata : CurrencyPairMetadata) (side : OrderSide) :
    (∀ v, m.get_fill_amount_position_percent cfg eai metadata side = some v →
      0 ≤ v ∧ v ≤ 1)
    ∧ (m.get_position_values cfg eai metadata side = none →
        m.get_fill_amount_position_percent cfg eai metadata side = none)
    ∧ (∀ pv, m.get_position_values cfg eai metadata side = some pv → pv.limit = none →
        m.get_fill_amount_position_percent cfg eai metadata side = none) := by
  refine ⟨?_, ?_, ?_⟩
  · intro v hv
    cases hpv : m.get_position_values cfg eai metadata side with
    | none =>
      have hres : m.get_fill_amount_position_percent cfg eai metadata side = none := by
        simp [get_fill_amount_position_percent, hpv]
      rw [hres] at hv
      cases hv
    | some pv =>
      cases hl : pv.limit with
      | none =>
        have hres : m.get_fill_amount_position_percent cfg eai metadata side = none := by
          simp [get_fill_amount_position_percent, hpv, hl]
        rw [hres] at hv
        cases hv
      | some l =>
        have hres : m.get_fill_amount_position_percent cfg eai metadata side
            = some (min 1 (max 0 (pv.position / l))) := by
          simp [get_fill_amount_position_percent, hpv, hl]
        rw [hres] at hv
        have hveq : v = min 1 (max 0 (pv.position / l)) := (Option.some.inj hv).symm
        subst hveq
        exact ⟨le_min zero_le_one (le_max_left 0 _), min_le_left 1 _⟩
  · intro hnone
    simp [get_fill_amount_position_percent, hnone]
  · intro pv hpv hl
    simp [get_fill_amount_position_percent, hpv, hl]

theorem rollback_is_unblock_requested (b : Blocker) :
    (rollback_to_blocked_progress b).progress_state.is_unblock_requested = false := rfl

theorem rollback_status_le (b : Blocker) :
    (rollback_to_blocked_progress b).progress_state.status
      ≤ ProgressStatus.ProgressBlocked := by
  cases h : b.progress_state.status <;> simp [rollback_to_blocked_progress, h] <;> decide

/-- C10: whenever a repeated `block` call actually resets a blocker's
timeout — a `Timed` re-block whose new end time is not earlier than the
existing `InProgress` end time, or a `Manual` re-block over an existing
`ReadyUnblock` timeout — the blocker's `is_unblock_requested` flag is
cleared in addition to the status being rolled back to at most
`ProgressBlocked`, discarding a previously requested unblock. -/
theorem c10_reset_discards_unblock_request (b : Blocker) (new_d now : ℚ)
    (fresh : TimerHandle) :
    (∀ end_time th, b.timeout = EbTimeout.InProgress end_time th →
      now + new_d ≥ end_time →
      ((timeout_reset_if_exists b (BlockType.Timed new_d) now
          fresh).1.progress_state.is_unblock_requested = false
        ∧ (timeout_reset_if_exists b (BlockType.Timed new_d) now
            fresh).1.progress_state.status ≤ ProgressStatus.ProgressBlocked))
    ∧ (b.timeout = EbTimeout.ReadyUnblock →
      ((timeout_reset_if_exists b BlockType.Manual now
          fresh).1.progress_state.is_unblock_requested = false
        ∧ (timeout_reset_if_exists b BlockType.Manual now
            fresh).1.progress_state.status ≤ ProgressStatus.ProgressBlocked)) := by
  constructor
  · intro end_time th ht hge
    simp only [timeout_reset_if_exists, ht, if_neg (not_lt.mpr hge)]
    exact ⟨rollback_is_unblock_requested b, rollback_status_le b⟩
  · intro ht
    simp only [timeout_reset_if_exists, ht]
    exact ⟨rollback_is_unblock_requested b, rollback_status_le b⟩

def blockerC8 : Blocker :=
  ⟨⟨0, 0⟩, EbTimeout.InProgress 5 7, ⟨true, ProgressStatus.WaitUnblockedMove⟩⟩

/-- C8 counterexample: a blocker whose timed timeout ends exactly at
`now + new_d` (so `end_time ≥ now + new_d` holds) is nevertheless changed by
the repeated `block(Timed(new_d))`: the source keeps the blocker only when
`now + new_d < end_time` (strict), and here the reset clears the requested
unblock and rolls the status back. -/
theorem c8_counterexample :
    blockerC8.timeout = EbTimeout.InProgress 5 7
    ∧ (5 : ℚ) ≥ 0 + 5
    ∧ (timeout_reset_if_exists blockerC8 (BlockType.Timed 5) 0 9).1 ≠ blockerC8 := by
  refine ⟨rfl, by norm_num, ?_⟩
  have hreset : (timeout_reset_if_exists blockerC8 (BlockType.Timed 5) 0 9).1
      = { blockerC8 with
          timeout := EbTimeout.InProgress (0 + 5) 9,
          progress_state := ⟨false, ProgressStatus.ProgressBlocked⟩ } := by
    simp only [timeout_reset_if_exists, blockerC8]
    rw [if_neg (by norm_num : ¬((0 : ℚ) + 5 < 5))]
    simp [rollback_to_blocked_progress]
    decide
  rw [hreset]
  intro hcontra
  have hfield := congrArg (fun b => b.progress_state.is_unblock_requested) hcontra
  simp [blockerC8] at hfield

/-- C8 (amended): a repeated `block(Timed(new_d))` over an `InProgress`
timeout leaves the blocker entirely unchanged exactly when
`end_time > now + new_d` (strictly later); when `end_time ≤ now + new_d` it
aborts the existing timer, rolls the progress status back to at most
`ProgressBlocked`, and reschedules the timeout to end at `now + new_d`. -/
theorem c8_timed_reset (b : Blocker) (new_d now : ℚ) (fresh : TimerHandle)
    (end_time : Instant) (th : TimerHandle)
    (ht : b.timeout = EbTimeout.InProgress end_time th) :
    (end_time > now + new_d →
      timeout_reset_if_exists b (BlockType.Timed new_d) now fresh = (b, false))
    ∧ (end_time ≤ now + new_d →
      timeout_reset_if_exists b (BlockType.Timed new_d) now fresh =
        ({ rollback_to_blocked_progress b with
            timeout := EbTimeout.InProgress (now + new_d) fresh }, true)
      ∧ (timeout_reset_if_exists b (BlockType.Timed new_d) now
          fresh).1.progress_state.status ≤ ProgressStatus.ProgressBlocked) := by
  constructor
  · intro hgt
    simp only [timeout_reset_if_exists, ht, if_pos hgt]
  · intro hle
    simp only [timeout_reset_if_exists, ht, if_neg (not_lt.mpr hle)]
    exact ⟨trivial, rollback_status_le b⟩

/-! ## Helper lemmas -/

theorem alist_lookup_cons {κ α : Type} [DecidableEq κ] (k0 : κ) (a0 : α)
    (tl : List (κ × α)) (k' : κ) :
    alist_lookup ((k0, a0) :: tl) k' = if k0 = k' then some a0 else alist_lookup tl k' :=
  rfl

theorem alist_lookup_cons_self {κ α : Type} [DecidableEq κ] (l : List (κ × α)) (k : κ)
    (a : α) : alist_lookup ((k, a) :: l) k = some a := by
  rw [alist_lookup_cons, if_pos rfl]

theorem alist_update_cons {κ α : Type} [DecidableEq κ] (k0 : κ) (a0 : α)
    (tl : List (κ × α)) (k : κ) (f : α → α) :
    alist_update ((k0, a0) :: tl) k f
      = (if k0 = k then (k0, f a0) else (k0, a0)) :: alist_update tl k f :=
  rfl

theorem alist_remove_cons {κ α : Type} [DecidableEq κ] (k0 : κ) (a0 : α)
    (tl : List (κ × α)) (k : κ) :
    alist_remove ((k0, a0) :: tl) k
      = if k0 = k then alist_remove tl k else (k0, a0) :: alist_remove tl k := by
  by_cases h : k0 = k
  · simp [alist_remove, List.filter_cons, h]
  · simp [alist_remove, List.filter_cons, h]

theorem alist_lookup_update_self {κ α : Type} [DecidableEq κ] (l : List (κ × α)) (k : κ)
    (f : α → α) (a : α) (h : alist_lookup l k = some a) :
    alist_lookup (alist_update l k f) k = some (f a) := by
  induction l with
  | nil => cases h
  | cons hd tl ih =>
    obtain ⟨k0, a0⟩ := hd
    rw [alist_lookup_cons] at h
    rw [alist_update_cons]
    by_cases hk : k0 = k
    · rw [if_pos hk] at h
      obtain rfl : a0 = a := Option.some.inj h
      rw [if_pos hk, alist_lookup_cons, if_pos hk]
    · rw [if_neg hk] at h
      rw [if_neg hk, alist_lookup_cons, if_neg hk]
      exact ih h

theorem alist_lookup_update_ne {κ α : Type} [DecidableEq κ] (l : List (κ × α)) (k k' : κ)
    (f : α → α) (h : k' ≠ k) :
    alist_lookup (alist_update l k f) k' = alist_lookup l k' := by
  induction l with
  | nil => rfl
  | cons hd tl ih =>
    obtain ⟨k0, a0⟩ := hd
    rw [alist_update_cons]
    by_cases hk : k0 = k
    · have hk0 : ¬k0 = k' := fun he => h (he ▸ hk ▸ rfl)
      rw [if_pos hk, alist_lookup_cons, alist_lookup_cons,
        if_neg (hk ▸ fun he => h he.symm), if_neg hk0]
      exact ih
    · rw [if_neg hk, alist_lookup_cons, alist_lookup_cons]
      by_cases hk' : k0 = k'
      · rw [if_pos hk', if_pos hk']
      · rw [if_neg hk', if_neg hk']
        exact ih

theorem alist_lookup_remove_self {κ α : Type} [DecidableEq κ] (l : List (κ × α)) (k : κ) :
    alist_lookup (alist_remove l k) k = none := by
  induction l with
  | nil => rfl
  | cons hd tl ih =>
    obtain ⟨k0, a0⟩ := hd
    rw [alist_remove_cons]
    by_cases hk : k0 = k
    · rw [if_pos hk]
      exact ih
    · rw [if_neg hk, alist_lookup_cons, if_neg hk]
      exact ih

theorem alist_lookup_remove_ne {κ α : Type} [DecidableEq κ] (l : List (κ × α)) (k k' : κ)
    (h : k' ≠ k) : alist_lookup (alist_remove l k) k' = alist_lookup l k' := by
  induction l with
  | nil => rfl
  | cons hd tl ih =>
    obtain ⟨k0, a0⟩ := hd
    rw [alist_remove_cons]
    by_cases hk : k0 = k
    · rw [if_pos hk, alist_lookup_cons, if_neg (hk ▸ fun he => h he.symm)]
      exact ih
    · rw [if_neg hk, alist_lookup_cons, alist_lookup_cons]
      by_cases hk' : k0 = k'
      · rw [if_pos hk', if_pos hk']
      · rw [if_neg hk', if_neg hk']
        exact ih

theorem ServiceValueTree.add_by_request_getD (t : ServiceValueTree) (req : BalanceRequest)
    (d : Decimal) (req' : BalanceRequest) :
    ((t.add_by_request req d) req').getD 0
      = (t req').getD 0 + (if req' = req then d else 0) := by
  unfold ServiceValueTree.add_by_request
  by_cases h : req' = req
  · rw [if_pos h, if_pos h, h]
    simp
  · rw [if_neg h, if_neg h]
    simp

theorem round_prec_error (md : CurrencyPairMetadata)
    (h : 0 < md.amount_precision_step) (x : ℚ) :
    |x - md.round_to_remove_amount_precision_error x| ≤ md.amount_precision_step / 2 := by
  unfold CurrencyPairMetadata.round_to_remove_amount_precision_error
  rw [if_neg h.ne']
  have hs : md.amount_precision_step ≠ 0 := ne_of_gt h
  have h1 : x - (round (x / md.amount_precision_step) : ℤ) * md.amount_precision_step
      = (x / md.amount_precision_step - round (x / md.amount_precision_step))
        * md.amount_precision_step := by
    field_simp
    ring
  rw [h1, abs_mul, abs_of_pos h]
  have h2 : |x / md.amount_precision_step
      - (round (x / md.amount_precision_step) : ℤ)| ≤ 1 / 2 :=
    abs_sub_round (x / md.amount_precision_step)
  calc |x / md.amount_precision_step - (round (x / md.amount_precision_step) : ℤ)|
        * md.amount_precision_step
      ≤ 1 / 2 * md.amount_precision_step :=
        mul_le_mul_of_nonneg_right h2 (le_of_lt h)
    _ = md.amount_precision_step / 2 := by ring

theorem round_prec_within_margin (md : CurrencyPairMetadata)
    (h : 0 < md.amount_precision_step) (x : ℚ) :
    md.is_amount_within_symbol_margin_error
      (x - md.round_to_remove_amount_precision_error x) = true := by
  unfold CurrencyPairMetadata.is_amount_within_symbol_margin_error
  simp only [decide_eq_true_eq]
  calc |x - md.round_to_remove_amount_precision_error x|
      ≤ md.amount_precision_step / 2 := round_prec_error md h x
    _ ≤ md.amount_precision_step := by linarith

theorem add_balance_getD (h : VirtualBalanceHolder) (q : BalanceRequest) (v : Decimal)
    (req : BalanceRequest) :
    ((h.add_balance q v).balance_diffs req).getD 0
      = (h.balance_diffs req).getD 0 + (if req = q then v else 0) :=
  ServiceValueTree.add_by_request_getD h.balance_diffs q v req

namespace BalanceReservationManager

theorem get_reservation_storage_set_self (m : BalanceReservationManager)
    (id : ReservationId) (r r0 : BalanceReservation)
    (h : m.get_reservation id = some r0) :
    (m.storage_set id r).get_reservation id = some r := by
  unfold get_reservation at h
  unfold get_reservation storage_set
  simpa using alist_lookup_update_self m.balance_reservation_storage id (fun _ => r) r0 h

theorem get_reservation_storage_set_ne (m : BalanceReservationManager)
    (id id' : ReservationId) (r : BalanceReservation) (h : id' ≠ id) :
    (m.storage_set id r).get_reservation id' = m.get_reservation id' := by
  unfold get_reservation storage_set
  exact alist_lookup_update_ne m.balance_reservation_storage id id' (fun _ => r) h

theorem get_reservation_storage_add_self (m : BalanceReservationManager)
    (id : ReservationId) (r : BalanceReservation) :
    (m.storage_add id r).get_reservation id = some r := by
  unfold get_reservation storage_add
  exact alist_lookup_cons_self _ id r

theorem get_reservation_storage_add_ne (m : BalanceReservationManager)
    (id id' : ReservationId) (r : BalanceReservation) (h : id' ≠ id) :
    (m.storage_add id r).get_reservation id' = m.get_reservation id' := by
  unfold get_reservation storage_add
  rw [alist_lookup_cons, if_neg (fun he => h he.symm)]
  exact alist_lookup_remove_ne m.balance_reservation_storage id id' h

theorem get_reservation_storage_remove_self (m : BalanceReservationManager)
    (id : ReservationId) :
    (m.storage_remove id).get_reservation id = none := by
  unfold get_reservation storage_remove
  exact alist_lookup_remove_self m.balance_reservation_storage id

theorem get_reservation_storage_remove_ne (m : BalanceReservationManager)
    (id id' : ReservationId) (h : id' ≠ id) :
    (m.storage_remove id).get_reservation id' = m.get_reservation id' := by
  unfold get_reservation storage_remove
  exact alist_lookup_remove_ne m.balance_reservation_storage id id' h

theorem add_virtual_balance_linear (m : BalanceReservationManager)
    (request : BalanceRequest) (metadata : CurrencyPairMetadata) (diff : Amount)
    (price : Price) (m' : BalanceReservationManager)
    (h : m.add_virtual_balance_by_currency_pair_metadata request metadata diff price
      = some m') :
    ∃ q k, m' = { m with virtual_balance_holder :=
        m.virtual_balance_holder.add_balance q (diff * k) }
      ∧ ∀ (m2 : BalanceReservationManager) (d2 : Amount),
        m2.add_virtual_balance_by_currency_pair_metadata request metadata d2 price
          = some { m2 with virtual_balance_holder :=
              m2.virtual_balance_holder.add_balance q (d2 * k) } := by
  unfold add_virtual_balance_by_currency_pair_metadata at h ⊢
  cases hder : metadata.is_derivative with
  | false =>
    simp only [hder, Bool.not_false, if_true] at h ⊢
    refine ⟨request, metadata.conversion_factor request.currency_code price, ?_, ?_⟩
    · exact (Option.some.inj h).symm
    · intro m2 d2
      rfl
  | true =>
    simp only [hder, Bool.not_true, if_false] at h ⊢
    cases hbc : metadata.balance_currency_code with
    | none => rw [hbc] at h; cases h
    | some bc =>
      rw [hbc] at h
      refine ⟨⟨request.configuration_descriptor, request.exchange_account_id,
        request.currency_pair, bc⟩, metadata.conversion_factor bc price, ?_, ?_⟩
      · exact (Option.some.inj h).symm
      · intro m2 d2
        rfl

end BalanceReservationManager

namespace BalanceReservationManager

theorem add_reserved_amount_false_eq (m : BalanceReservationManager)
    (request : BalanceRequest) (id : ReservationId) (diff : Amount)
    (r : BalanceReservation) (hr : m.get_reservation id = some r) :
    m.add_reserved_amount request id diff false
      = some { (m.storage_set id
            { r with unreserved_amount := r.unreserved_amount + diff }) with
          reserved_amount_in_amount_currency :=
            (m.reserved_amount_in_amount_currency.add_by_request
              ⟨request.configuration_descriptor, request.exchange_account_id,
                request.currency_pair, r.reservation_currency_code⟩ diff) } := by
  unfold add_reserved_amount
  rw [hr]
  rfl

end BalanceReservationManager

theorem BalanceReservation.is_margin_def (r : BalanceReservation) (a : Amount) :
    r.is_amount_within_symbol_margin_error a
      = r.currency_pair_metadata.is_amount_within_symbol_margin_error a := rfl

namespace BalanceReservationManager

theorem storage_set_reserved (m : BalanceReservationManager) (id : ReservationId)
    (r : BalanceReservation) :
    (m.storage_set id r).reserved_amount_in_amount_currency
      = m.reserved_amount_in_amount_currency := rfl

theorem storage_remove_reserved (m : BalanceReservationManager) (id : ReservationId) :
    (m.storage_remove id).reserved_amount_in_amount_currency
      = m.reserved_amount_in_amount_currency := rfl

theorem update_unreserved_tail_inv (m : BalanceReservationManager)
    (id : ReservationId) (new_u diff : Amount) (is_src : Bool) (tcd : Decimal)
    (r r1 : BalanceReservation) (m' : BalanceReservationManager) (cd : Decimal)
    (hr : m.get_reservation id = some r)
    (h : m.update_unreserved_tail id new_u diff is_src tcd r1 = some (m', cd)) :
    (∀ id', id' ≠ id → m'.get_reservation id' = m.get_reservation id')
    ∧ (∀ req, (m'.reserved_amount_in_amount_currency req).getD 0
        = (m.reserved_amount_in_amount_currency req).getD 0
          + (if req = ⟨r1.configuration_descriptor, r1.exchange_account_id,
              r1.currency_pair_metadata.currency_pair, r1.reservation_currency_code⟩
            then diff else 0))
    ∧ ((r1.currency_pair_metadata.is_amount_within_symbol_margin_error new_u = true
          ∧ m'.get_reservation id = none)
        ∨ (r1.currency_pair_metadata.is_amount_within_symbol_margin_error new_u = false
          ∧ ∃ r2, m'.get_reservation id = some r2
              ∧ r2.unreserved_amount = r1.unreserved_amount + diff
              ∧ r2.not_approved_amount = r1.not_approved_amount
              ∧ r2.approved_parts = r1.approved_parts)) := by
  have hget1 : (m.storage_set id r1).get_reservation id = some r1 :=
    get_reservation_storage_set_self m id r1 r hr
  have hget2 := get_reservation_storage_set_self (m.storage_set id r1) id
    { r1 with unreserved_amount := r1.unreserved_amount + diff } r1 hget1
  simp only [update_unreserved_tail, Option.bind_eq_some] at h
  obtain ⟨m2v, hm2, h⟩ := h
  have e2 : _ = m2v := Option.some.inj ((add_reserved_amount_false_eq (m.storage_set id r1)
    (BalanceRequest.from_reservation r1) id diff r1 hget1).symm.trans hm2)
  have hget2v : m2v.get_reservation id
      = some ({ r1 with unreserved_amount := r1.unreserved_amount + diff }) := by
    rw [← e2]
    exact hget2
  have hst2 : ∀ id'', id'' ≠ id → m2v.get_reservation id'' = m.get_reservation id'' := by
    intro id'' hne
    rw [← e2]
    show ((m.storage_set id r1).storage_set id
        { r1 with unreserved_amount := r1.unreserved_amount + diff }).get_reservation id''
      = m.get_reservation id''
    rw [get_reservation_storage_set_ne _ _ _ _ hne,
      get_reservation_storage_set_ne _ _ _ _ hne]
  have htree2 : ∀ req, (m2v.reserved_amount_in_amount_currency req).getD 0
      = (m.reserved_amount_in_amount_currency req).getD 0
        + (if req = ⟨r1.configuration_descriptor, r1.exchange_account_id,
            r1.currency_pair_metadata.currency_pair, r1.reservation_currency_code⟩
          then diff else 0) := by
    intro req
    rw [← e2]
    show ((m.reserved_amount_in_amount_currency.add_by_request
        ⟨r1.configuration_descriptor, r1.exchange_account_id,
          r1.currency_pair_metadata.currency_pair, r1.reservation_currency_code⟩
        diff) req).getD 0 = _
    exact ServiceValueTree.add_by_request_getD _ _ _ _
  obtain ⟨r2v, hr2, h⟩ := h
  obtain rfl : r2v = { r1 with unreserved_amount := r1.unreserved_amount + diff } :=
    Option.some.inj (hr2.symm.trans hget2v)
  obtain ⟨cdv, hcd, h⟩ := h
  obtain ⟨m3v, hm3, h⟩ := h
  obtain ⟨q, k, hm3eq, _⟩ := add_virtual_balance_linear _ _ _ _ _ _ hm3
  have hst3 : ∀ id'', m3v.get_reservation id'' = m2v.get_reservation id'' := by
    intro id''
    rw [hm3eq]
    rfl
  have htree3 : m3v.reserved_amount_in_amount_currency
      = m2v.reserved_amount_in_amount_currency := by
    rw [hm3eq]
  obtain ⟨r3v, hr3, h⟩ := h
  obtain rfl : r3v = { r1 with unreserved_amount := r1.unreserved_amount + diff } :=
    Option.some.inj (hr3.symm.trans ((hst3 id).trans hget2v))
  have hpair := Option.some.inj h
  rw [Prod.mk.injEq] at hpair
  obtain ⟨rfl, rfl⟩ := hpair
  have hget3v : m3v.get_reservation id
      = some ({ r1 with unreserved_amount := r1.unreserved_amount + diff }) :=
    (hst3 id).trans hget2v
  refine ⟨?_, ?_, ?_⟩
  · intro id' hne
    simp only [BalanceReservation.is_margin_def]
    split
    · rw [get_reservation_storage_remove_ne _ _ _ hne,
        get_reservation_storage_set_ne _ _ _ _ hne, hst3, hst2 _ hne]
    · rw [get_reservation_storage_set_ne _ _ _ _ hne, hst3, hst2 _ hne]
  · intro req
    simp only [BalanceReservation.is_margin_def]
    split
    · rw [storage_remove_reserved, storage_set_reserved, htree3, htree2]
    · rw [storage_set_reserved, htree3, htree2]
  · split
    · rename_i hcond
      left
      refine ⟨hcond, ?_⟩
      exact get_reservation_storage_remove_self _ _
    · rename_i hcond
      right
      simp only [Bool.not_eq_true] at hcond
      refine ⟨hcond, ?_⟩
      refine ⟨_, get_reservation_storage_set_self m3v id _ _ hget3v, rfl, rfl, rfl⟩

end BalanceReservationManager

namespace BalanceReservationManager

/-- Successful `update_unreserved_amount_for_transfer` factors through
`update_unreserved_tail` with a bucket-updated reservation that agrees with
the stored one on the identification fields and the unreserved amount. -/
theorem update_unreserved_amount_for_transfer_inv (m : BalanceReservationManager)
    (id : ReservationId) (new_u : Amount) (cl : Option ClientOrderId) (is_src : Bool)
    (tcd : Decimal) (m' : BalanceReservationManager) (cd : Decimal)
    (r : BalanceReservation) (hr : m.get_reservation id = some r)
    (h : m.update_unreserved_amount_for_transfer id new_u cl is_src tcd
      = some (m', cd)) :
    ∃ r1, r1.configuration_descriptor = r.configuration_descriptor
      ∧ r1.exchange_account_id = r.exchange_account_id
      ∧ r1.currency_pair_metadata = r.currency_pair_metadata
      ∧ r1.reservation_currency_code = r.reservation_currency_code
      ∧ r1.unreserved_amount = r.unreserved_amount
      ∧ m.update_unreserved_tail id new_u (new_u - r.unreserved_amount) is_src tcd r1
          = some (m', cd) := by
  simp only [update_unreserved_amount_for_transfer, hr] at h
  split at h
  · cases h
  · cases cl with
    | none =>
      simp only [] at h
      refine ⟨_, ?_, ?_, ?_, ?_, ?_, h⟩ <;> rfl
    | some cl =>
      simp only [] at h
      cases hpart : alist_lookup r.approved_parts cl with
      | none =>
        rw [hpart] at h
        simp only [] at h
        split at h
        · cases h
        · rename_i r1v heq
          split at heq
          · cases heq
          · obtain rfl := Option.some.inj heq
            refine ⟨_, ?_, ?_, ?_, ?_, ?_, h⟩ <;> rfl
      | some approved_part =>
        rw [hpart] at h
        simp only [] at h
        split at h
        · cases h
        · rename_i r1v heq
          split at heq
          · obtain rfl := Option.some.inj heq
            refine ⟨_, ?_, ?_, ?_, ?_, ?_, h⟩ <;> rfl
          · split at heq
            · cases heq
            · obtain rfl := Option.some.inj heq
              refine ⟨_, ?_, ?_, ?_, ?_, ?_, h⟩ <;> rfl

end BalanceReservationManager

namespace BalanceReservationManager

/-- Effect of a successful `update_unreserved_amount_for_transfer` on the
store and the reserved-amount tree, phrased on the stored reservation. -/
theorem update_unreserved_for_transfer_effect (m : BalanceReservationManager)
    (id : ReservationId) (new_u : Amount) (cl : Option ClientOrderId) (is_src : Bool)
    (tcd : Decimal) (m' : BalanceReservationManager) (cd : Decimal)
    (r : BalanceReservation) (hr : m.get_reservation id = some r)
    (h : m.update_unreserved_amount_for_transfer id new_u cl is_src tcd
      = some (m', cd)) :
    (∀ id', id' ≠ id → m'.get_reservation id' = m.get_reservation id')
    ∧ (∀ req, (m'.reserved_amount_in_amount_currency req).getD 0
        = (m.reserved_amount_in_amount_currency req).getD 0
          + (if req = ⟨r.configuration_descriptor, r.exchange_account_id,
              r.currency_pair_metadata.currency_pair, r.reservation_currency_code⟩
            then new_u - r.unreserved_amount else 0))
    ∧ ((r.currency_pair_metadata.is_amount_within_symbol_margin_error new_u = true
          ∧ m'.get_reservation id = none)
        ∨ (r.currency_pair_metadata.is_amount_within_symbol_margin_error new_u = false
          ∧ ∃ r2, m'.get_reservation id = some r2
              ∧ r2.unreserved_amount = new_u)) := by
  obtain ⟨r1, hcfg, heai, hmeta, hcode, hunres, htail⟩ :=
    update_unreserved_amount_for_transfer_inv m id new_u cl is_src tcd m' cd r hr h
  obtain ⟨h1, h2, h3⟩ := update_unreserved_tail_inv m id new_u
    (new_u - r.unreserved_amount) is_src tcd r r1 m' cd hr htail
  refine ⟨h1, ?_, ?_⟩
  · intro req
    rw [h2 req, hcfg, heai, hmeta, hcode]
  · rcases h3 with ⟨ha, hb⟩ | ⟨ha, r2, hr2, hu, -, -⟩
    · left
      exact ⟨hmeta ▸ ha, hb⟩
    · right
      refine ⟨hmeta ▸ ha, r2, hr2, ?_⟩
      rw [hu, hunres]
      ring

end BalanceReservationManager

open BalanceReservationManager in
/-- C3 (amended): for reservations `src` and `dst` with equal configuration
descriptor, exchange account, metadata and side (and the reservation
currency code both reservations derive from them), a
`try_transfer_reservation(src, dst, x)` that returns `true` preserves every
reserved-amount tree entry exactly, and preserves the sum of the two
unreserved amounts up to one symbol margin error per reservation that the
transfer removed (a removed reservation counts as zero), i.e. up to `2ε`
rather than exactly. -/
theorem c3_transfer_conservation (m : BalanceReservationManager)
    (src_id dst_id : ReservationId) (x : Amount) (cl : Option ClientOrderId)
    (m' : BalanceReservationManager) (src dst : BalanceReservation)
    (hne : src_id ≠ dst_id)
    (hsrc : m.get_reservation src_id = some src)
    (hdst : m.get_reservation dst_id = some dst)
    (hcode : src.reservation_currency_code = dst.reservation_currency_code)
    (hstep : 0 ≤ src.currency_pair_metadata.amount_precision_step)
    (h : m.try_transfer_reservation src_id dst_id x cl = some (true, m')) :
    (∀ req, (m'.reserved_amount_in_amount_currency req).getD 0
        = (m.reserved_amount_in_amount_currency req).getD 0)
    ∧ |((m'.get_reservation src_id).map BalanceReservation.unreserved_amount).getD 0
        + ((m'.get_reservation dst_id).map BalanceReservation.unreserved_amount).getD 0
        - (src.unreserved_amount + dst.unreserved_amount)|
      ≤ 2 * src.currency_pair_metadata.amount_precision_step := by
  simp only [try_transfer_reservation, hsrc, hdst, Option.some_bind] at h
  split at h
  · cases h
  rename_i hguard
  rw [not_or, not_or, not_or] at hguard
  obtain ⟨hcfg, heai, hmeta, _hside⟩ := hguard
  rw [not_not] at hcfg heai hmeta
  have htrans : ∃ m1, m.transfer_amount src_id dst_id
      (src.currency_pair_metadata.round_to_remove_amount_precision_error x) cl
        = some m1 ∧ m1 = m' := by
    split at h
    · simp at h
    · split at h
      · rw [Option.bind_eq_some] at h
        obtain ⟨ab, _hab, h⟩ := h
        split at h
        · simp at h
        · rw [Option.bind_eq_some] at h
          obtain ⟨m1, htr, hsome⟩ := h
          simp only [Option.some.injEq, Prod.mk.injEq, true_and] at hsome
          exact ⟨m1, htr, hsome⟩
      · rw [Option.bind_eq_some] at h
        obtain ⟨m1, htr, hsome⟩ := h
        simp only [Option.some.injEq, Prod.mk.injEq, true_and] at hsome
        exact ⟨m1, htr, hsome⟩
  obtain ⟨m1t, htrans, rfl⟩ := htrans
  simp only [transfer_amount, hsrc, Option.some_bind, Option.bind_eq_some] at htrans
  obtain ⟨step1, hupd1, dstv, hgetd, step2, hupd2, hm'⟩ := htrans
  obtain rfl : step2.1 = m1t := Option.some.inj hm'
  obtain ⟨e1a, e1b, e1c⟩ := update_unreserved_for_transfer_effect m src_id _ cl true 0
    step1.1 step1.2 src hsrc hupd1
  have hgetd' : step1.1.get_reservation dst_id = some dst := by
    rw [e1a dst_id (fun he => hne he.symm), hdst]
  obtain rfl : dstv = dst := Option.some.inj (hgetd.symm.trans hgetd')
  obtain ⟨e2a, e2b, e2c⟩ := update_unreserved_for_transfer_effect step1.1 dst_id _ cl
    false (-step1.2) step2.1 step2.2 dstv hgetd' hupd2
  constructor
  · intro req
    rw [e2b req, e1b req, hcfg, heai, hmeta, hcode]
    by_cases hreq : req = ⟨dstv.configuration_descriptor, dstv.exchange_account_id,
        dstv.currency_pair_metadata.currency_pair, dstv.reservation_currency_code⟩
    · rw [if_pos hreq, if_pos hreq]
      ring
    · rw [if_neg hreq, if_neg hreq]
      ring
  · have hsrcafter : step2.1.get_reservation src_id = step1.1.get_reservation src_id :=
      e2a src_id hne
    set y := src.currency_pair_metadata.round_to_remove_amount_precision_error x with hy
    have hbound : ∀ (o : Option BalanceReservation) (u : Amount)
        (md : CurrencyPairMetadata), 0 ≤ md.amount_precision_step →
        (md.is_amount_within_symbol_margin_error u = true ∧ o = none)
          ∨ (md.is_amount_within_symbol_margin_error u = false
            ∧ ∃ r2, o = some r2 ∧ r2.unreserved_amount = u) →
        |(o.map BalanceReservation.unreserved_amount).getD 0 - u|
          ≤ md.amount_precision_step := by
      intro o u md hmd hcase
      rcases hcase with ⟨hm, ho⟩ | ⟨_, r2, ho, hu⟩
      · subst ho
        simp only [CurrencyPairMetadata.is_amount_within_symbol_margin_error,
          decide_eq_true_eq] at hm
        simpa using hm
      · subst ho
        simpa [hu] using hmd
    have hb1 : |((step2.1.get_reservation src_id).map
          BalanceReservation.unreserved_amount).getD 0 - (src.unreserved_amount - y)|
        ≤ src.currency_pair_metadata.amount_precision_step := by
      rw [hsrcafter]
      exact hbound _ _ _ hstep e1c
    have hb2 : |((step2.1.get_reservation dst_id).map
          BalanceReservation.unreserved_amount).getD 0 - (dstv.unreserved_amount + y)|
        ≤ src.currency_pair_metadata.amount_precision_step := by
      rw [hmeta]
      exact hbound _ _ _ (hmeta ▸ hstep) e2c
    calc |((step2.1.get_reservation src_id).map
            BalanceReservation.unreserved_amount).getD 0
          + ((step2.1.get_reservation dst_id).map
            BalanceReservation.unreserved_amount).getD 0
          - (src.unreserved_amount + dstv.unreserved_amount)|
        = |(((step2.1.get_reservation src_id).map
              BalanceReservation.unreserved_amount).getD 0
            - (src.unreserved_amount - y))
          + (((step2.1.get_reservation dst_id).map
              BalanceReservation.unreserved_amount).getD 0
            - (dstv.unreserved_amount + y))| := by
          ring_nf
      _ ≤ |((step2.1.get_reservation src_id).map
              BalanceReservation.unreserved_amount).getD 0
            - (src.unreserved_amount - y)|
          + |((step2.1.get_reservation dst_id).map
              BalanceReservation.unreserved_amount).getD 0
            - (dstv.unreserved_amount + y)| := abs_add _ _
      _ ≤ 2 * src.currency_pair_metadata.amount_precision_step := by
          linarith

/-- The reservation created by a successful `try_reserve` as it sits in the
store right after the `add_reserved_amount` call (its `unreserved_amount`
was raised from 0 to the requested amount). -/
def reserve_created_reservation (p : ReserveParameters)
    (preset : BalanceReservationPreset) : BalanceReservation :=
  ⟨p.configuration_descriptor, p.exchange_account_id, p.currency_pair_metadata,
    p.order_side, p.price, p.amount,
    preset.taken_free_amount_in_amount_currency_code,
    preset.cost_in_amount_currency_code, preset.reservation_currency_code,
    0 + p.amount, p.amount, []⟩

namespace BalanceReservationManager

theorem add_reserved_amount_true_amount_zero (m : BalanceReservationManager)
    (request : BalanceRequest) (id : ReservationId) (r : BalanceReservation)
    (hr : m.get_reservation id = some r) (hA : r.amount = 0) (diff : Amount) :
    m.add_reserved_amount request id diff true = none := by
  unfold add_reserved_amount
  rw [hr]
  simp [BalanceReservation.get_proportional_cost_amount, hA]

theorem add_reserved_amount_true_eq (m : BalanceReservationManager)
    (request : BalanceRequest) (id : ReservationId) (diff : Amount)
    (r : BalanceReservation) (q : BalanceRequest) (k : Decimal)
    (hr : m.get_reservation id = some r) (hA : ¬r.amount = 0)
    (hlin : ∀ (m2 : BalanceReservationManager) (d2 : Amount),
      m2.add_virtual_balance_by_currency_pair_metadata request
          r.currency_pair_metadata d2 r.price
        = some { m2 with virtual_balance_holder :=
            m2.virtual_balance_holder.add_balance q (d2 * k) }) :
    m.add_reserved_amount request id diff true
      = some { (({ m with virtual_balance_holder :=
            m.virtual_balance_holder.add_balance q (-(r.cost * diff / r.amount) * k) }
              : BalanceReservationManager).storage_set id
            { r with unreserved_amount := r.unreserved_amount + diff }) with
          reserved_amount_in_amount_currency :=
            (m.reserved_amount_in_amount_currency.add_by_request
              ⟨request.configuration_descriptor, request.exchange_account_id,
                request.currency_pair, r.reservation_currency_code⟩ diff) } := by
  unfold add_reserved_amount
  rw [hr]
  simp only [BalanceReservation.get_proportional_cost_amount, if_neg hA]
  rw [hlin]
  rfl

end BalanceReservationManager

namespace BalanceReservationManager

theorem add_reserved_amount_true_inv (m : BalanceReservationManager)
    (request : BalanceRequest) (id : ReservationId) (diff : Amount)
    (r : BalanceReservation) (m3 : BalanceReservationManager)
    (hr : m.get_reservation id = some r)
    (ha : m.add_reserved_amount request id diff true = some m3) :
    ¬r.amount = 0 ∧ ∃ q k,
      (∀ (m2 : BalanceReservationManager) (d2 : Amount),
        m2.add_virtual_balance_by_currency_pair_metadata request
            r.currency_pair_metadata d2 r.price
          = some { m2 with virtual_balance_holder :=
              m2.virtual_balance_holder.add_balance q (d2 * k) })
      ∧ m3 = { (({ m with virtual_balance_holder :=
            m.virtual_balance_holder.add_balance q (-(r.cost * diff / r.amount) * k) }
              : BalanceReservationManager).storage_set id
            { r with unreserved_amount := r.unreserved_amount + diff }) with
          reserved_amount_in_amount_currency :=
            (m.reserved_amount_in_amount_currency.add_by_request
              ⟨request.configuration_descriptor, request.exchange_account_id,
                request.currency_pair, r.reservation_currency_code⟩ diff) } := by
  by_cases hA : r.amount = 0
  · rw [add_reserved_amount_true_amount_zero m request id r hr hA diff] at ha
    cases ha
  · refine ⟨hA, ?_⟩
    unfold add_reserved_amount at ha
    rw [hr] at ha
    simp only [BalanceReservation.get_proportional_cost_amount, if_neg hA] at ha
    cases hv : m.add_virtual_balance_by_currency_pair_metadata request
        r.currency_pair_metadata (-(r.cost * diff / r.amount)) r.price with
    | none =>
      rw [hv] at ha
      cases ha
    | some mv =>
      obtain ⟨q, k, hmv, hlin⟩ := add_virtual_balance_linear _ _ _ _ _ _ hv
      rw [hv] at ha
      subst hmv
      exact ⟨q, k, hlin, (Option.some.inj ha).symm⟩

/-- Inversion of a successful `try_reserve`: the acceptance verdict, the
fresh id, the created reservation, and the pointwise effect on the
reserved-amount tree and the virtual-balance diffs. -/
theorem try_reserve_inv (m : BalanceReservationManager) (p : ReserveParameters)
    (m1 : BalanceReservationManager) (rid : ReservationId)
    (h : m.try_reserve p = some (true, m1, rid)) :
    ∃ preset q k,
      m.can_reserve_core p = some (true, preset)
      ∧ rid = m.reservation_id + 1
      ∧ p.amount ≠ 0
      ∧ (∀ (m2 : BalanceReservationManager) (d2 : Amount),
          m2.add_virtual_balance_by_currency_pair_metadata
            ⟨p.configuration_descriptor, p.exchange_account_id,
              p.currency_pair_metadata.currency_pair, preset.reservation_currency_code⟩
            p.currency_pair_metadata d2 p.price
          = some { m2 with virtual_balance_holder :=
              m2.virtual_balance_holder.add_balance q (d2 * k) })
      ∧ m1.get_reservation rid = some (reserve_created_reservation p preset)
      ∧ m1.exchanges_by_id = m.exchanges_by_id
      ∧ m1.is_call_from_clone = m.is_call_from_clone
      ∧ (∀ req, (m1.reserved_amount_in_amount_currency req).getD 0
          = (m.reserved_amount_in_amount_currency req).getD 0
            + (if req = ⟨p.configuration_descriptor, p.exchange_account_id,
                p.currency_pair_metadata.currency_pair, preset.reservation_currency_code⟩
              then p.amount else 0))
      ∧ (∀ req, (m1.virtual_balance_holder.balance_diffs req).getD 0
          = (m.virtual_balance_holder.balance_diffs req).getD 0
            + (if req = q then
                -(preset.cost_in_amount_currency_code * p.amount / p.amount) * k
              else 0)) := by
  unfold try_reserve at h
  cases hc : m.can_reserve_core p with
  | none => rw [hc] at h; cases h
  | some bp =>
    obtain ⟨b, preset⟩ := bp
    rw [hc] at h
    cases b with
    | false => simp at h
    | true =>
      simp only [] at h
      simp only [BalanceRequest.new_def] at h
      cases ha : (({ m with reservation_id := m.reservation_id + 1 }
            : BalanceReservationManager).storage_add (m.reservation_id + 1)
            (BalanceReservation.new p.configuration_descriptor p.exchange_account_id
              p.currency_pair_metadata p.order_side p.price p.amount
              preset.taken_free_amount_in_amount_currency_code
              preset.cost_in_amount_currency_code
              preset.reservation_currency_code)).add_reserved_amount
          ⟨p.configuration_descriptor, p.exchange_account_id,
            p.currency_pair_metadata.currency_pair, preset.reservation_currency_code⟩
          (m.reservation_id + 1) p.amount true with
      | none => rw [ha] at h; cases h
      | some m3 =>
        rw [ha] at h
        simp only [Option.some.injEq, Prod.mk.injEq, true_and] at h
        obtain ⟨rfl, rfl⟩ := h
        have hget0 := get_reservation_storage_add_self
          ({ m with reservation_id := m.reservation_id + 1 }
            : BalanceReservationManager) (m.reservation_id + 1)
          (BalanceReservation.new p.configuration_descriptor p.exchange_account_id
            p.currency_pair_metadata p.order_side p.price p.amount
            preset.taken_free_amount_in_amount_currency_code
            preset.cost_in_amount_currency_code
            preset.reservation_currency_code)
        obtain ⟨hA, q, k, hlin, hm3⟩ :=
          add_reserved_amount_true_inv _ _ _ _ _ _ hget0 ha
        refine ⟨preset, q, k, rfl, rfl, hA, hlin, ?_, ?_, ?_, ?_, ?_⟩
        · rw [hm3]
          exact get_reservation_storage_set_self _ _ _ _ hget0
        · rw [hm3]
          rfl
        · rw [hm3]
          rfl
        · intro req
          rw [hm3]
          exact ServiceValueTree.add_by_request_getD _ _ _ req
        · intro req
          rw [hm3]
          exact add_balance_getD _ _ _ req


theorem storage_set_vb (m : BalanceReservationManager) (id : ReservationId)
    (r : BalanceReservation) :
    (m.storage_set id r).virtual_balance_holder = m.virtual_balance_holder := rfl

theorem storage_remove_vb (m : BalanceReservationManager) (id : ReservationId) :
    (m.storage_remove id).virtual_balance_holder = m.virtual_balance_holder := rfl

theorem add_reserved_amount_by_reservation_true_eq (m : BalanceReservationManager)
    (request : BalanceRequest) (r : BalanceReservation) (diff : Amount)
    (q : BalanceRequest) (k : Decimal) (hA : ¬r.amount = 0)
    (hlin : ∀ (m2 : BalanceReservationManager) (d2 : Amount),
      m2.add_virtual_balance_by_currency_pair_metadata request
          r.currency_pair_metadata d2 r.price
        = some { m2 with virtual_balance_holder :=
            m2.virtual_balance_holder.add_balance q (d2 * k) }) :
    m.add_reserved_amount_by_reservation request r diff true
      = some { ({ m with virtual_balance_holder :=
            m.virtual_balance_holder.add_balance q (-(r.cost * diff / r.amount) * k) }
              : BalanceReservationManager) with
          reserved_amount_in_amount_currency :=
            (m.reserved_amount_in_amount_currency.add_by_request
              ⟨request.configuration_descriptor, request.exchange_account_id,
                request.currency_pair, r.reservation_currency_code⟩ diff) } := by
  unfold add_reserved_amount_by_reservation
  simp only [BalanceReservation.get_proportional_cost_amount, if_neg hA]
  rw [hlin]
  rfl

/-- Symbolic run of `unreserve(id, r.amount, None)` on a store holding a fresh
reservation `r` (no approved parts booked yet, `unreserved_amount` and
`not_approved_amount` both equal to `amount`) when the amount does not round
to zero: the call succeeds, the reserved-amount tree entry drops by exactly
the reserved amount and the virtual-balance diff regains exactly the
proportional cost of the full amount. -/
theorem unreserve_fresh_eq (m1 : BalanceReservationManager) (rid : ReservationId)
    (r : BalanceReservation) (q : BalanceRequest) (k : Decimal)
    (hget : m1.get_reservation rid = some r)
    (hA : ¬r.amount = 0)
    (hunres : r.unreserved_amount = r.amount)
    (hna : r.not_approved_amount = r.amount)
    (hexn : (m1.exchanges_by_id r.exchange_account_id).isNone = false)
    (hstep : 0 < r.currency_pair_metadata.amount_precision_step)
    (hz : ¬r.currency_pair_metadata.round_to_remove_amount_precision_error r.amount = 0)
    (hlin : ∀ (m2 : BalanceReservationManager) (d2 : Amount),
      m2.add_virtual_balance_by_currency_pair_metadata
        ⟨r.configuration_descriptor, r.exchange_account_id,
          r.currency_pair_metadata.currency_pair, r.reservation_currency_code⟩
        r.currency_pair_metadata d2 r.price
      = some { m2 with virtual_balance_holder :=
          m2.virtual_balance_holder.add_balance q (d2 * k) }) :
    ∃ m2, m1.unreserve rid r.amount none = some m2
      ∧ (∀ req, (m2.reserved_amount_in_amount_currency req).getD 0
          = (m1.reserved_amount_in_amount_currency req).getD 0
            - (if req = ⟨r.configuration_descriptor, r.exchange_account_id,
                r.currency_pair_metadata.currency_pair, r.reservation_currency_code⟩
              then r.amount else 0))
      ∧ (∀ req, (m2.virtual_balance_holder.balance_diffs req).getD 0
          = (m1.virtual_balance_holder.balance_diffs req).getD 0
            + (r.cost * r.amount / r.amount * k)
              * (if req = q then 1 else 0)) := by
  set rd := r.currency_pair_metadata.round_to_remove_amount_precision_error r.amount
    with hrd
  have hmargin : r.currency_pair_metadata.is_amount_within_symbol_margin_error
      (r.amount - rd) = true := round_prec_within_margin r.currency_pair_metadata hstep _
  have e_nap : unreserve_not_approved_part r none rd
      = some ({ r with not_approved_amount := r.not_approved_amount - rd }) := by
    simp only [unreserve_not_approved_part]
    rw [if_neg]
    rintro ⟨h1, h2⟩
    have h1' : r.not_approved_amount - rd < 0 := h1
    rw [hna] at h1'
    rw [hunres] at h2
    linarith
  cases hu : m1.unreserve rid r.amount none with
  | none =>
    exfalso
    simp only [unreserve, hget] at hu
    split at hu
    · cases hu
    · split at hu
      · cases hu
      · split at hu
        · rename_i heq
          rw [e_nap] at heq
          cases heq
        · rename_i r1v heq
          rw [e_nap] at heq
          have hr1 : ({ r with not_approved_amount := r.not_approved_amount - rd }
              : BalanceReservation) = r1v := Option.some.inj heq
          have h1a : r1v.amount = r.amount := by rw [← hr1]
          have h1m : r1v.currency_pair_metadata = r.currency_pair_metadata := by
            rw [← hr1]
          have h1p : r1v.price = r.price := by rw [← hr1]
          have h1req : BalanceRequest.from_reservation r1v
              = (⟨r.configuration_descriptor, r.exchange_account_id,
                  r.currency_pair_metadata.currency_pair,
                  r.reservation_currency_code⟩ : BalanceRequest) := by
            rw [← hr1]
            rfl
          have hget1 : (m1.storage_set rid r1v).get_reservation rid = some r1v :=
            get_reservation_storage_set_self m1 rid r1v r hget
          have hA1 : ¬r1v.amount = 0 := by rw [h1a]; exact hA
          have hlin1 : ∀ (m2 : BalanceReservationManager) (d2 : Amount),
            m2.add_virtual_balance_by_currency_pair_metadata
                (BalanceRequest.from_reservation r1v)
                r1v.currency_pair_metadata d2 r1v.price
              = some { m2 with virtual_balance_holder :=
                  m2.virtual_balance_holder.add_balance q (d2 * k) } := by
            rw [h1req, h1m, h1p]
            exact hlin
          split at hu
          · rename_i heq2
            rw [add_reserved_amount_true_eq (m1.storage_set rid r1v)
              (BalanceRequest.from_reservation r1v) rid (-rd) r1v q k
              hget1 hA1 hlin1] at heq2
            cases heq2
          · rename_i m2v heq2
            rw [add_reserved_amount_true_eq (m1.storage_set rid r1v)
              (BalanceRequest.from_reservation r1v) rid (-rd) r1v q k
              hget1 hA1 hlin1] at heq2
            have hm2 := Option.some.inj heq2
            split at hu
            · rename_i heq3
              rw [← hm2] at heq3
              simp only [get_reservation, storage_set] at heq3
              rw [alist_lookup_update_self _ rid _ r1v
                (alist_lookup_update_self _ rid _ r hget)] at heq3
              cases heq3
            · rename_i r2v heq3
              rw [← hm2] at heq3
              simp only [get_reservation, storage_set] at heq3
              rw [alist_lookup_update_self _ rid _ r1v
                (alist_lookup_update_self _ rid _ r hget)] at heq3
              have hr2 : ({ r1v with unreserved_amount :=
                  r1v.unreserved_amount + -rd } : BalanceReservation) = r2v :=
                Option.some.inj heq3
              split at hu
              · split at hu
                · rename_i hnz
                  have hA2 : ¬r2v.amount = 0 := by
                    rw [show r2v.amount = r.amount from by rw [← hr2, h1a]]
                    exact hA
                  have hlin2 : ∀ (m2 : BalanceReservationManager) (d2 : Amount),
                    m2.add_virtual_balance_by_currency_pair_metadata
                        (BalanceRequest.from_reservation r1v)
                        r2v.currency_pair_metadata d2 r2v.price
                      = some { m2 with virtual_balance_holder :=
                          m2.virtual_balance_holder.add_balance q (d2 * k) } := by
                    rw [h1req,
                      show r2v.currency_pair_metadata = r.currency_pair_metadata
                        from by rw [← hr2, h1m],
                      show r2v.price = r.price from by rw [← hr2, h1p]]
                    exact hlin
                  rw [add_reserved_amount_by_reservation_true_eq _
                    (BalanceRequest.from_reservation r1v) r2v
                    (-r2v.unreserved_amount) q k hA2 hlin2] at hu
                  cases hu
                · cases hu
              · cases hu
  | some m2 =>
    simp only [unreserve, hget] at hu
    split at hu
    · rename_i hcond
      exact absurd hcond.1 hz
    · split at hu
      · rename_i hcond
        rw [hexn] at hcond
        exact Bool.noConfusion hcond
      · split at hu
        · rename_i heq
          rw [e_nap] at heq
          cases heq
        · rename_i r1v heq
          rw [e_nap] at heq
          have hr1 : ({ r with not_approved_amount := r.not_approved_amount - rd }
              : BalanceReservation) = r1v := Option.some.inj heq
          have h1a : r1v.amount = r.amount := by rw [← hr1]
          have h1m : r1v.currency_pair_metadata = r.currency_pair_metadata := by
            rw [← hr1]
          have h1p : r1v.price = r.price := by rw [← hr1]
          have h1c : r1v.cost = r.cost := by rw [← hr1]
          have h1u : r1v.unreserved_amount = r.unreserved_amount := by rw [← hr1]
          have h1code : r1v.reservation_currency_code
              = r.reservation_currency_code := by rw [← hr1]
          have h1req : BalanceRequest.from_reservation r1v
              = (⟨r.configuration_descriptor, r.exchange_account_id,
                  r.currency_pair_metadata.currency_pair,
                  r.reservation_currency_code⟩ : BalanceRequest) := by
            rw [← hr1]
            rfl
          have hget1 : (m1.storage_set rid r1v).get_reservation rid = some r1v :=
            get_reservation_storage_set_self m1 rid r1v r hget
          have hA1 : ¬r1v.amount = 0 := by rw [h1a]; exact hA
          have hlin1 : ∀ (m2 : BalanceReservationManager) (d2 : Amount),
            m2.add_virtual_balance_by_currency_pair_metadata
                (BalanceRequest.from_reservation r1v)
                r1v.currency_pair_metadata d2 r1v.price
              = some { m2 with virtual_balance_holder :=
                  m2.virtual_balance_holder.add_balance q (d2 * k) } := by
            rw [h1req, h1m, h1p]
            exact hlin
          split at hu
          · rename_i heq2
            rw [add_reserved_amount_true_eq (m1.storage_set rid r1v)
              (BalanceRequest.from_reservation r1v) rid (-rd) r1v q k
              hget1 hA1 hlin1] at heq2
            cases heq2
          · rename_i m2v heq2
            rw [add_reserved_amount_true_eq (m1.storage_set rid r1v)
              (BalanceRequest.from_reservation r1v) rid (-rd) r1v q k
              hget1 hA1 hlin1] at heq2
            have hm2 := Option.some.inj heq2
            have hm2res : m2v.reserved_amount_in_amount_currency
                = m1.reserved_amount_in_amount_currency.add_by_request
                  ⟨r.configuration_descriptor, r.exchange_account_id,
                    r.currency_pair_metadata.currency_pair,
                    r.reservation_currency_code⟩ (-rd) := by
              rw [← hm2]
              simp only [storage_set_reserved, h1req, h1code]
            have hm2vb : m2v.virtual_balance_holder
                = m1.virtual_balance_holder.add_balance q
                  (-(r.cost * -rd / r.amount) * k) := by
              rw [← hm2]
              simp only [storage_set_vb, h1c, h1a]
            split at hu
            · rename_i heq3
              rw [← hm2] at heq3
              simp only [get_reservation, storage_set] at heq3
              rw [alist_lookup_update_self _ rid _ r1v
                (alist_lookup_update_self _ rid _ r hget)] at heq3
              cases heq3
            · rename_i r2v heq3
              rw [← hm2] at heq3
              simp only [get_reservation, storage_set] at heq3
              rw [alist_lookup_update_self _ rid _ r1v
                (alist_lookup_update_self _ rid _ r hget)] at heq3
              have hr2 : ({ r1v with unreserved_amount :=
                  r1v.unreserved_amount + -rd } : BalanceReservation) = r2v :=
                Option.some.inj heq3
              have h2u : r2v.unreserved_amount = r.unreserved_amount + -rd := by
                rw [← hr2, h1u]
              have h2a : r2v.amount = r.amount := by rw [← hr2, h1a]
              have h2c : r2v.cost = r.cost := by rw [← hr2, h1c]
              have h2m : r2v.currency_pair_metadata = r.currency_pair_metadata := by
                rw [← hr2, h1m]
              have h2p : r2v.price = r.price := by rw [← hr2, h1p]
              have h2code : r2v.reservation_currency_code
                  = r.reservation_currency_code := by rw [← hr2, h1code]
              split at hu
              · split at hu
                · rename_i hnz
                  have hA2 : ¬r2v.amount = 0 := by rw [h2a]; exact hA
                  have hlin2 : ∀ (m2 : BalanceReservationManager) (d2 : Amount),
                    m2.add_virtual_balance_by_currency_pair_metadata
                        (BalanceRequest.from_reservation r1v)
                        r2v.currency_pair_metadata d2 r2v.price
                      = some { m2 with virtual_balance_holder :=
                          m2.virtual_balance_holder.add_balance q (d2 * k) } := by
                    rw [h1req, h2m, h2p]
                    exact hlin
                  rw [add_reserved_amount_by_reservation_true_eq _
                    (BalanceRequest.from_reservation r1v) r2v
                    (-r2v.unreserved_amount) q k hA2 hlin2] at hu
                  have hfin := Option.some.inj hu
                  refine ⟨m2, rfl, ?_, ?_⟩
                  · intro req
                    rw [← hfin]
                    simp only [storage_remove_reserved, h1req, h2code]
                    rw [hm2res]
                    rw [ServiceValueTree.add_by_request_getD,
                      ServiceValueTree.add_by_request_getD]
                    rw [h2u, hunres]
                    by_cases hreq : req = ⟨r.configuration_descriptor,
                        r.exchange_account_id,
                        r.currency_pair_metadata.currency_pair,
                        r.reservation_currency_code⟩
                    · rw [if_pos hreq, if_pos hreq, if_pos hreq]
                      ring
                    · rw [if_neg hreq, if_neg hreq, if_neg hreq]
                      ring
                  · intro req
                    rw [← hfin]
                    simp only [storage_remove_vb, h2c, h2a, h2u, hunres, hm2vb]
                    rw [add_balance_getD, add_balance_getD]
                    by_cases hreq : req = q
                    · rw [if_pos hreq, if_pos hreq, if_pos hreq]
                      ring
                    · rw [if_neg hreq, if_neg hreq, if_neg hreq]
                      ring
                · rename_i hnz
                  have hzz : r2v.unreserved_amount = 0 := not_not.mp hnz
                  have hrda : rd = r.amount := by
                    have h' := h2u
                    rw [hzz, hunres] at h'
                    linarith
                  have hfin := Option.some.inj hu
                  refine ⟨m2, rfl, ?_, ?_⟩
                  · intro req
                    rw [← hfin]
                    simp only [storage_remove_reserved]
                    rw [hm2res, ServiceValueTree.add_by_request_getD, hrda]
                    by_cases hreq : req = ⟨r.configuration_descriptor,
                        r.exchange_account_id,
                        r.currency_pair_metadata.currency_pair,
                        r.reservation_currency_code⟩
                    · rw [if_pos hreq, if_pos hreq]
                      ring
                    · rw [if_neg hreq, if_neg hreq]
                      ring
                  · intro req
                    rw [← hfin]
                    simp only [storage_remove_vb, hm2vb]
                    rw [add_balance_getD, hrda]
                    by_cases hreq : req = q
                    · rw [if_pos hreq, if_pos hreq]
                      ring
                    · rw [if_neg hreq, if_neg hreq]
                      ring
              · rename_i hcond
                exact absurd (Or.inr (by
                  rw [BalanceReservation.is_margin_def, h2m, h2u, hunres]
                  rw [show r.amount + -rd = r.amount - rd from by ring]
                  exact hmargin)) hcond

end BalanceReservationManager

open BalanceReservationManager in
/-- C1 (amended): if `try_reserve(p)` succeeds returning `true` with fresh id
`rid`, then `unreserve(rid, p.amount, None)` succeeds, and either it restores
the reserved-amount tree and the virtual-balance diffs exactly to their
pre-reserve values (the case where `p.amount` does not round to zero on the
amount grid), or `p.amount` rounds to zero — in which case `|p.amount|` is at
most the symbol margin `ε = amount_precision_step`, the unreserve call is a
no-op, and both quantities are off from their pre-reserve values only by
amounts attributable to that sub-ε reservation.  The original claim is wrong
in the rounding-to-zero case: the virtual balance is then not restored within
ε (see the counterexample). -/
theorem c1_reserve_unreserve_roundtrip (m : BalanceReservationManager)
    (p : ReserveParameters) (m1 : BalanceReservationManager) (rid : ReservationId)
    (hstep : 0 < p.currency_pair_metadata.amount_precision_step)
    (hex : (m.exchanges_by_id p.exchange_account_id).isNone = false)
    (htr : m.try_reserve p = some (true, m1, rid)) :
    ∃ m2, m1.unreserve rid p.amount none = some m2
      ∧ (((∀ req, (m2.reserved_amount_in_amount_currency req).getD 0
            = (m.reserved_amount_in_amount_currency req).getD 0)
          ∧ (∀ req, (m2.virtual_balance_holder.balance_diffs req).getD 0
            = (m.virtual_balance_holder.balance_diffs req).getD 0))
        ∨ (p.currency_pair_metadata.round_to_remove_amount_precision_error p.amount
              = 0
          ∧ |p.amount| ≤ p.currency_pair_metadata.amount_precision_step
          ∧ m2 = m1)) := by
  obtain ⟨preset, q, k, hc, hridv, hA, hlin, hget, hexch, hclone, htree, hvb⟩ :=
    try_reserve_inv m p m1 rid htr
  by_cases hz : p.currency_pair_metadata.round_to_remove_amount_precision_error
      p.amount = 0
  · have heval : m1.unreserve rid p.amount none = some m1 := by
      simp only [unreserve, hget, reserve_created_reservation]
      rw [if_pos ⟨hz, hA⟩]
    have hb : |p.amount| ≤ p.currency_pair_metadata.amount_precision_step := by
      have h0 := round_prec_error p.currency_pair_metadata hstep p.amount
      rw [hz, sub_zero] at h0
      linarith
    exact ⟨m1, heval, Or.inr ⟨hz, hb, rfl⟩⟩
  · set r := reserve_created_reservation p preset with hr
    have hu1 : r.unreserved_amount = r.amount := zero_add p.amount
    have hexn : (m1.exchanges_by_id r.exchange_account_id).isNone = false := by
      rw [hexch]
      exact hex
    obtain ⟨m2, he, ht2, hv2⟩ :=
      unreserve_fresh_eq m1 rid r q k hget hA hu1 rfl hexn hstep hz hlin
    refine ⟨m2, he, Or.inl ⟨?_, ?_⟩⟩
    · intro req
      rw [ht2 req, htree req, hr]
      simp only [reserve_created_reservation]
      ring
    · intro req
      rw [hv2 req, hvb req, hr]
      simp only [reserve_created_reservation]
      by_cases hreq : req = q
      · rw [if_pos hreq, if_pos hreq]
        ring
      · rw [if_neg hreq, if_neg hreq]
        ring

/-- Concrete spot symbol for counterexamples/witnesses: base currency 1,
quote currency 2, pair 10, amounts in base, multiplier 1, precision step
(= symbol margin ε) `1/2`. -/
def metaC1 : CurrencyPairMetadata :=
  ⟨false, 1, 2, 10, none, 1, 1, 1/2⟩

/-- Concrete reserve request: buy `1/8` at price `8` on `metaC1`. -/
def pC1 : ReserveParameters :=
  ⟨0, 0, metaC1, OrderSide.Buy, 8, 1/8⟩

/-- Concrete manager: one exchange (account id 0), leverage 1, raw balance 10
in every currency, empty trees and store. -/
def mC1 : BalanceReservationManager :=
  ⟨fun eai => if eai = 0 then some ⟨fun _ => some 1⟩ else none,
    fun _ => some metaC1,
    ServiceValueTree.new,
    ServiceValueTree.new,
    ⟨fun _ => none, []⟩,
    0,
    ⟨fun _ => some 10, ServiceValueTree.new⟩,
    [],
    false,
    0⟩

open BalanceReservationManager in
/-- C1 counterexample: with symbol margin `ε = 1/2`, reserving `amount = 1/8`
at price 8 succeeds (id 1) and moves the virtual balance of the quote-currency
request by `-1`; the immediate `unreserve(1, 1/8, None)` succeeds but is a
no-op because `1/8` rounds to `0` on the amount grid, so the virtual balance
stays `1` away from its pre-reserve value — farther than `ε`.  This falsifies
the claim that the round trip always restores the virtual balance within ε. -/
theorem c1_counterexample :
    ((mC1.try_reserve pC1).bind (fun res =>
        (res.2.1.unreserve res.2.2 pC1.amount none).map (fun m2 =>
          (res.1, res.2.2,
            (m2.virtual_balance_holder.balance_diffs
                (BalanceRequest.new 0 0 10 2)).getD 0
              - (mC1.virtual_balance_holder.balance_diffs
                  (BalanceRequest.new 0 0 10 2)).getD 0))))
      = some (true, 1, -1)
      ∧ ¬(|(-1 : ℚ)| ≤ pC1.currency_pair_metadata.amount_precision_step) := by
  constructor
  · norm_num [mC1, pC1, metaC1, try_reserve, can_reserve_core,
      get_currency_code_and_reservation_amount, calculate_reservation_cost,
      can_reserve_with_limit, get_available_balance, try_get_available_balance,
      try_get_leverage, VirtualBalanceHolder.get_virtual_balance,
      ServiceValueTree.new, ServiceValueTree.get_by_balance_request,
      ServiceValueTree.add_by_request, CurrencyPairMetadata.get_trade_code,
      CurrencyPairMetadata.currency_pair, CurrencyPairMetadata.conversion_factor,
      CurrencyPairMetadata.convert_amount_from_amount_currency_code,
      CurrencyPairMetadata.convert_amount_into_amount_currency_code,
      CurrencyPairMetadata.round_to_remove_amount_precision_error,
      CurrencyPairMetadata.is_amount_within_symbol_margin_error,
      BalanceRequest.new, BalanceReservation.new, storage_add, storage_set,
      get_reservation, alist_lookup, alist_update, alist_remove,
      add_reserved_amount, BalanceReservation.get_proportional_cost_amount,
      add_virtual_balance_by_currency_pair_metadata,
      VirtualBalanceHolder.add_balance, unreserve, Option.bind, round_eq]
  · norm_num [pC1, metaC1]

/-- The state produced by the successful `try_reserve(pC1)` on `mC1`. -/
def mC1_after : BalanceReservationManager :=
  ⟨fun eai => if eai = 0 then some ⟨fun _ => some 1⟩ else none,
    fun _ => some metaC1,
    ServiceValueTree.new.add_by_request (BalanceRequest.new 0 0 10 2) (1/8),
    ServiceValueTree.new,
    ⟨fun _ => none, []⟩,
    1,
    ⟨fun _ => some 10,
      ServiceValueTree.new.add_by_request (BalanceRequest.new 0 0 10 2) (-1)⟩,
    [(1, ⟨0, 0, metaC1, OrderSide.Buy, 8, 1/8, 0, 1/8, 2, 1/8, 1/8, []⟩)],
    false,
    0⟩

open BalanceReservationManager in
theorem try_reserve_mC1_eval : mC1.try_reserve pC1 = some (true, mC1_after, 1) := by
  norm_num [mC1, pC1, metaC1, mC1_after, try_reserve, can_reserve_core,
    get_currency_code_and_reservation_amount, calculate_reservation_cost,
    can_reserve_with_limit, get_available_balance, try_get_available_balance,
    try_get_leverage, VirtualBalanceHolder.get_virtual_balance,
    ServiceValueTree.new, ServiceValueTree.get_by_balance_request,
    ServiceValueTree.add_by_request, CurrencyPairMetadata.get_trade_code,
    CurrencyPairMetadata.currency_pair, CurrencyPairMetadata.conversion_factor,
    CurrencyPairMetadata.convert_amount_from_amount_currency_code,
    CurrencyPairMetadata.convert_amount_into_amount_currency_code,
    CurrencyPairMetadata.round_to_remove_amount_precision_error,
    CurrencyPairMetadata.is_amount_within_symbol_margin_error,
    BalanceRequest.new, BalanceReservation.new, storage_add, storage_set,
    get_reservation, alist_lookup, alist_update, alist_remove,
    add_reserved_amount, BalanceReservation.get_proportional_cost_amount,
    add_virtual_balance_by_currency_pair_metadata,
    VirtualBalanceHolder.add_balance, round_eq]

open BalanceReservationManager in
/-- Witness for C1 (amended) at the concrete fixture: a successful reserve on
`mC1` followed by the matching unreserve. -/
theorem c1_reserve_unreserve_roundtrip_witness :
    ∃ m2, mC1_after.unreserve 1 pC1.amount none = some m2
      ∧ (((∀ req, (m2.reserved_amount_in_amount_currency req).getD 0
            = (mC1.reserved_amount_in_amount_currency req).getD 0)
          ∧ (∀ req, (m2.virtual_balance_holder.balance_diffs req).getD 0
            = (mC1.virtual_balance_holder.balance_diffs req).getD 0))
        ∨ (pC1.currency_pair_metadata.round_to_remove_amount_precision_error
              pC1.amount = 0
          ∧ |pC1.amount| ≤ pC1.currency_pair_metadata.amount_precision_step
          ∧ m2 = mC1_after)) :=
  c1_reserve_unreserve_roundtrip mC1 pC1 mC1_after 1
    (by norm_num [pC1, metaC1])
    (by norm_num [mC1, pC1])
    try_reserve_mC1_eval

/-- Concrete spot symbol with margin `ε = 1/1000` for the transfer
counterexample. -/
def metaC3 : CurrencyPairMetadata :=
  ⟨false, 1, 2, 10, none, 1, 1, 1/1000⟩

/-- Source reservation: `unreserved_amount = 1/2 + 1/4000`. -/
def srcC3 : BalanceReservation :=
  ⟨0, 0, metaC3, OrderSide.Buy, 1, 1, 0, 1, 2, 2001/4000, 1, []⟩

/-- Destination reservation: `unreserved_amount = 1/2`. -/
def dstC3 : BalanceReservation :=
  ⟨0, 0, metaC3, OrderSide.Buy, 1, 1, 0, 1, 2, 1/2, 1, []⟩

/-- Concrete manager holding `srcC3` (id 1) and `dstC3` (id 2). -/
def mC3 : BalanceReservationManager :=
  ⟨fun _ => none,
    fun _ => none,
    ServiceValueTree.new,
    ServiceValueTree.new,
    ⟨fun _ => none, []⟩,
    2,
    ⟨fun _ => some 0, ServiceValueTree.new⟩,
    [(1, srcC3), (2, dstC3)],
    false,
    0⟩

open BalanceReservationManager in
/-- C3 counterexample: transferring `1/2` from a reservation with
`unreserved_amount = 1/2 + 1/4000` leaves a residual `1/4000` that is within
the symbol margin `ε = 1/1000`, so the source reservation is removed and its
residual vanishes: the post-transfer sum of unreserved amounts is `1`, not
the pre-transfer `1 + 1/4000` — the claimed exact conservation fails (the
loss is bounded by `2ε`, as the amended claim states). -/
theorem c3_counterexample :
    ((mC3.try_transfer_reservation 1 2 (1/2) none).map (fun res =>
        (res.1,
          ((res.2.get_reservation 1).map BalanceReservation.unreserved_amount).getD 0
            + ((res.2.get_reservation 2).map
                BalanceReservation.unreserved_amount).getD 0)))
      = some (true, 1)
      ∧ ((mC3.get_reservation 1).map BalanceReservation.unreserved_amount).getD 0
          + ((mC3.get_reservation 2).map BalanceReservation.unreserved_amount).getD 0
        = 4001/4000
      ∧ (1 : ℚ) ≠ 4001/4000 := by
  refine ⟨?_, ?_, by norm_num⟩
  · norm_num [mC3, srcC3, dstC3, metaC3, try_transfer_reservation, transfer_amount,
      update_unreserved_amount_for_transfer, update_unreserved_tail,
      add_reserved_amount, add_virtual_balance_by_currency_pair_metadata,
      BalanceReservation.get_proportional_cost_amount,
      BalanceReservation.is_amount_within_symbol_margin_error,
      CurrencyPairMetadata.is_amount_within_symbol_margin_error,
      CurrencyPairMetadata.round_to_remove_amount_precision_error,
      CurrencyPairMetadata.conversion_factor, CurrencyPairMetadata.currency_pair,
      CurrencyPairMetadata.convert_amount_from_amount_currency_code,
      CurrencyPairMetadata.get_trade_code, BalanceRequest.from_reservation,
      BalanceRequest.new, VirtualBalanceHolder.add_balance,
      ServiceValueTree.new, ServiceValueTree.add_by_request,
      get_reservation, storage_set, storage_remove, alist_lookup, alist_update,
      alist_remove, Option.bind, round_eq, abs_of_nonneg]
  · norm_num [mC3, srcC3, dstC3, get_reservation, alist_lookup]

/-- The state produced by the successful `try_transfer_reservation(1, 2, 1/2)`
on `mC3`: the source reservation is removed, the destination holds the moved
amount. -/
def mC3_after : BalanceReservationManager :=
  ⟨fun _ => none,
    fun _ => none,
    (ServiceValueTree.new.add_by_request (BalanceRequest.new 0 0 10 2)
        (-(1/2))).add_by_request (BalanceRequest.new 0 0 10 2) (1/2),
    ServiceValueTree.new,
    ⟨fun _ => none, []⟩,
    2,
    ⟨fun _ => some 0,
      (ServiceValueTree.new.add_by_request (BalanceRequest.new 0 0 10 2)
          (1/2)).add_by_request (BalanceRequest.new 0 0 10 2) (-(1/2))⟩,
    [(2, ⟨0, 0, metaC3, OrderSide.Buy, 1, 3/2, 0, 3/2, 2, 1, 3/2, []⟩)],
    false,
    0⟩

open BalanceReservationManager in
theorem try_transfer_mC3_eval :
    mC3.try_transfer_reservation 1 2 (1/2) none = some (true, mC3_after) := by
  norm_num [mC3, mC3_after, srcC3, dstC3, metaC3, try_transfer_reservation,
    transfer_amount, update_unreserved_amount_for_transfer, update_unreserved_tail,
    add_reserved_amount, add_virtual_balance_by_currency_pair_metadata,
    BalanceReservation.get_proportional_cost_amount,
    BalanceReservation.is_amount_within_symbol_margin_error,
    CurrencyPairMetadata.is_amount_within_symbol_margin_error,
    CurrencyPairMetadata.round_to_remove_amount_precision_error,
    CurrencyPairMetadata.conversion_factor, CurrencyPairMetadata.currency_pair,
    CurrencyPairMetadata.convert_amount_from_amount_currency_code,
    CurrencyPairMetadata.get_trade_code, BalanceRequest.from_reservation,
    BalanceRequest.new, VirtualBalanceHolder.add_balance,
    ServiceValueTree.new, ServiceValueTree.add_by_request,
    get_reservation, storage_set, storage_remove, alist_lookup, alist_update,
    alist_remove, Option.bind, round_eq, abs_of_nonneg]

open BalanceReservationManager in
/-- Witness for C3 (amended) at the concrete fixture: a successful transfer of
`1/2` between the two stored reservations. -/
theorem c3_transfer_conservation_witness :
    (∀ req, (mC3_after.reserved_amount_in_amount_currency req).getD 0
        = (mC3.reserved_amount_in_amount_currency req).getD 0)
    ∧ |((mC3_after.get_reservation 1).map BalanceReservation.unreserved_amount).getD 0
        + ((mC3_after.get_reservation 2).map BalanceReservation.unreserved_amount).getD 0
        - (srcC3.unreserved_amount + dstC3.unreserved_amount)|
      ≤ 2 * srcC3.currency_pair_metadata.amount_precision_step :=
  c3_transfer_conservation mC3 1 2 (1/2) none mC3_after srcC3 dstC3
    (by norm_num)
    rfl
    rfl
    rfl
    (by norm_num [srcC3, metaC3])
    try_transfer_mC3_eval

/-- Concrete derivative symbol (balance currency = base) for the preset
witness. -/
def metaC4 : CurrencyPairMetadata :=
  ⟨true, 1, 2, 11, some 1, 1, 1, 1/1000⟩

/-- Concrete derivative reserve request: sell 3 at price 4. -/
def pC4 : ReserveParameters :=
  ⟨0, 0, metaC4, OrderSide.Sell, 4, 3⟩

/-- Concrete manager with leverage 10 configured for every pair of exchange
account 0. -/
def mC4 : BalanceReservationManager :=
  ⟨fun eai => if eai = 0 then some ⟨fun _ => some 10⟩ else none,
    fun _ => some metaC4,
    ServiceValueTree.new,
    ServiceValueTree.new,
    ⟨fun _ => none, []⟩,
    0,
    ⟨fun _ => some 10, ServiceValueTree.new⟩,
    [],
    false,
    0⟩

open BalanceReservationManager in
/-- Witness for C4 at the concrete derivative fixture (leverage 10). -/
theorem c4_reservation_preset_witness :
    ∃ preset, mC4.get_currency_code_and_reservation_amount pC4 = some preset
      ∧ preset.cost_in_amount_currency_code =
          max 0 (pC4.amount - mC4.get_unreserved_position_in_amount_currency_code
              pC4.exchange_account_id pC4.currency_pair_metadata pC4.order_side)
            * pC4.currency_pair_metadata.amount_multiplier / 10
      ∧ preset.taken_free_amount_in_amount_currency_code =
          pC4.amount - max 0 (pC4.amount
            - mC4.get_unreserved_position_in_amount_currency_code
              pC4.exchange_account_id pC4.currency_pair_metadata pC4.order_side) :=
  (c4_reservation_preset mC4 pC4).1 10 rfl rfl

open BalanceReservationManager in
/-- Witness for C5 at the concrete fixture: no amount limit is configured, so
the limit check accepts. -/
theorem c5_limit_check_witness : (mC1.can_reserve_with_limit pC1).1 = true :=
  (c5_limit_check mC1 pC1).1 rfl

open BalanceReservationManager in
/-- Witness for C6 at the concrete fixture `mC3` (no exchange configured, so
no leverage). -/
theorem c6_missing_leverage_witness :
    mC3.try_get_available_balance 0 0 metaC4 OrderSide.Buy 1 false false = none
    ∧ (metaC4.is_derivative = true → metaC4.amount_currency_code = 1 →
        mC3.handle_position_fill_amount_change OrderSide.Buy none 1 1 0 0
          metaC4 1 = none)
    ∧ mC3.handle_position_fill_amount_change_commission 2 1 2 1 1 0 0
        metaC4 = none :=
  c6_missing_leverage mC3 0 0 metaC4 OrderSide.Buy 1 false false none 1 1 2 1 2 1 rfl

open BalanceReservationManager in
/-- Witness for C7 at the concrete fixture: id 5 is absent from `mC1`'s
store. -/
theorem c7_unreserve_missing_reservation_witness :
    (mC1.is_call_from_clone = true ∨ (0 : Amount) = 0 →
      mC1.unreserve 5 0 none = some mC1)
    ∧ (mC1.is_call_from_clone = false → (0 : Amount) ≠ 0 →
      mC1.unreserve 5 0 none = none) :=
  c7_unreserve_missing_reservation mC1 5 0 none rfl

open BalanceReservationManager in
/-- Witness for C9 at the concrete fixture: no amount limit configured, so the
percent query returns `None`. -/
theorem c9_fill_position_percent_witness :
    mC1.get_fill_amount_position_percent 0 0 metaC1 OrderSide.Buy = none :=
  (c9_fill_position_percent mC1 0 0 metaC1 OrderSide.Buy).2.2 ⟨0, none⟩ rfl rfl

/-- Witness for C10 at the concrete blocker: a timed re-block whose new end
time equals the old one resets the flag and the status. -/
theorem c10_reset_discards_unblock_request_witness :
    (timeout_reset_if_exists blockerC8 (BlockType.Timed 5) 0
        9).1.progress_state.is_unblock_requested = false
    ∧ (timeout_reset_if_exists blockerC8 (BlockType.Timed 5) 0
        9).1.progress_state.status ≤ ProgressStatus.ProgressBlocked :=
  (c10_reset_discards_unblock_request blockerC8 5 0 9).1 5 7 rfl (by norm_num)

/-- Witness for C8 (amended) at the concrete blocker: `end_time = now + new_d`
forces the reset. -/
theorem c8_timed_reset_witness :
    timeout_reset_if_exists blockerC8 (BlockType.Timed 5) 0 9 =
      ({ rollback_to_blocked_progress blockerC8 with
          timeout := EbTimeout.InProgress ((0 : ℚ) + 5) 9 }, true)
    ∧ (timeout_reset_if_exists blockerC8 (BlockType.Timed 5) 0
        9).1.progress_state.status ≤ ProgressStatus.ProgressBlocked :=
  (c8_timed_reset blockerC8 5 0 9 5 7 rfl).2 (by norm_num)

/-- Sum of `unreserved_amount` over the approved parts that are not canceled
(the canceled parts' amounts have already been returned to
`not_approved_amount` by `cancel_approved_reservation`). -/
def parts_active_sum (l : List (ClientOrderId × ApprovedPart)) : Amount :=
  (l.map (fun q => if q.2.is_canceled = true then 0 else q.2.unreserved_amount)).sum

/-- Sum of `unreserved_amount` over all approved parts (the reading of the
claim as stated). -/
def parts_all_sum (l : List (ClientOrderId × ApprovedPart)) : Amount :=
  (l.map (fun q => q.2.unreserved_amount)).sum

/-- The per-reservation bookkeeping equation of the spec, with the sum taken
over the non-canceled approved parts. -/
def BalanceReservation.balanced (r : BalanceReservation) : Prop :=
  r.not_approved_amount + parts_active_sum r.approved_parts = r.unreserved_amount

/-- Store-wide invariant: every stored reservation has distinct approved-part
keys and satisfies the bookkeeping equation exactly. -/
def store_balanced (m : BalanceReservationManager) : Prop :=
  ∀ id r, m.get_reservation id = some r →
    (alist_keys r.approved_parts).Nodup ∧ r.balanced

namespace BalanceReservationManager

/-- `try_update_reservation_price(reservation_id, new_price)`: recompute the
rest amount from the non-canceled approved parts, check the available
balance at the new price, then re-point the reservation at the new price,
re-reserve the converted diff and overwrite `not_approved_amount` with the
recomputed rest amount.  `some (b, m')` models the `bool` return with final
state `m'`; `none` models the `expect` panics (missing available balance,
failing `add_reserved_amount`, vanished reservation). -/
def try_update_reservation_price (m : BalanceReservationManager)
    (reservation_id : ReservationId) (new_price : Price) :
    Option (Bool × BalanceReservationManager) :=
  match m.get_reservation reservation_id with
  | none => some (false, m)
  | some reservation =>
    let approved_sum := parts_active_sum reservation.approved_parts
    let new_raw_rest_amount := reservation.amount - approved_sum
    let new_rest_amount_in_reservation_currency :=
      reservation.currency_pair_metadata.convert_amount_from_amount_currency_code
        reservation.reservation_currency_code new_raw_rest_amount new_price
    let not_approved_amount_in_reservation_currency :=
      reservation.convert_in_reservation_currency reservation.not_approved_amount
    let reservation_amount_diff_in_reservation_currency :=
      new_rest_amount_in_reservation_currency
        - not_approved_amount_in_reservation_currency
    match m.try_get_available_balance reservation.configuration_descriptor
        reservation.exchange_account_id reservation.currency_pair_metadata
        reservation.order_side new_price true false with
    | none => none
    | some old_balance =>
      if old_balance - reservation_amount_diff_in_reservation_currency < 0 then
        some (false, m)
      else
        let balance_request := BalanceRequest.from_reservation reservation
        let r1 := { reservation with price := new_price }
        let reservation_amount_diff :=
          r1.currency_pair_metadata.convert_amount_into_amount_currency_code
            r1.reservation_currency_code
            reservation_amount_diff_in_reservation_currency r1.price
        let r2 := { r1 with unreserved_amount :=
          r1.unreserved_amount - reservation_amount_diff }
        let m1 := m.storage_set reservation_id r2
        match m1.add_reserved_amount balance_request reservation_id
            reservation_amount_diff true with
        | none => none
        | some m2 =>
          match m2.get_reservation reservation_id with
          | none => none
          | some r3 =>
            some (true, m2.storage_set reservation_id
              { r3 with not_approved_amount := new_raw_rest_amount })

end BalanceReservationManager

open BalanceReservationManager in
/-- The transfer bucket update addressed by `client_order_id` must neither
target a canceled approved part (the code would decrement the canceled
residual) nor land the part's new amount within the symbol margin (the code
would remove the part together with its residual): either event shifts the
bookkeeping equation. -/
def transfer_bucket_ok (r : BalanceReservation) (new_u : Amount)
    (cl : Option ClientOrderId) : Prop :=
  ∀ c p, cl = some c → alist_lookup r.approved_parts c = some p →
    p.is_canceled = false
    ∧ r.is_amount_within_symbol_margin_error
        (p.unreserved_amount + (new_u - r.unreserved_amount)) = false

/-- A public mutating operation of the manager, as named by the claim. -/
inductive BrmOp where
  | reserve (p : ReserveParameters)
  | approve (id : ReservationId) (cl : ClientOrderId) (x : Amount)
  | cancel (id : ReservationId) (cl : ClientOrderId)
  | unreserveOp (id : ReservationId) (x : Amount) (cl : Option ClientOrderId)
  | transfer (src dst : ReservationId) (x : Amount) (cl : Option ClientOrderId)
  | updatePrice (id : ReservationId) (new_price : Price)

open BalanceReservationManager in
/-- Run one operation (the state component of its result). -/
def apply_op (m : BalanceReservationManager) : BrmOp → Option BalanceReservationManager
  | BrmOp.reserve p => (m.try_reserve p).map (fun res => res.2.1)
  | BrmOp.approve id cl x => m.approve_reservation id cl x
  | BrmOp.cancel id cl => m.cancel_approved_reservation id cl
  | BrmOp.unreserveOp id x cl => m.unreserve id x cl
  | BrmOp.transfer src dst x cl =>
    (m.try_transfer_reservation src dst x cl).map (fun res => res.2)
  | BrmOp.updatePrice id new_price =>
    (m.try_update_reservation_price id new_price).map (fun res => res.2)

open BalanceReservationManager in
/-- The operations excluded from the amended claim, each shown to genuinely
break the bookkeeping equation by a concrete run: an `unreserve` aimed at a
canceled approved part (the code decrements the canceled part's residual,
whose value the cancel already returned to `not_approved_amount`); a
transfer whose bucket update hits a canceled part or lands a part's new
amount within the symbol margin (the part is then removed together with its
residual); and a price update of a reservation whose `unreserved_amount`
differs from its full `amount` (the code overwrites `not_approved_amount`
with `amount - Σ approved`, discarding earlier partial unreserves). -/
def good_op (m : BalanceReservationManager) : BrmOp → Prop
  | BrmOp.unreserveOp id _ (some c) =>
    ∀ r p, m.get_reservation id = some r →
      alist_lookup r.approved_parts c = some p → p.is_canceled = false
  | BrmOp.transfer src dst x cl =>
    ∀ srcR, m.get_reservation src = some srcR →
      transfer_bucket_ok srcR (srcR.unreserved_amount
        - srcR.currency_pair_metadata.round_to_remove_amount_precision_error x) cl
      ∧ (∀ m1cd : BalanceReservationManager × Decimal,
          m.update_unreserved_amount_for_transfer src
            (srcR.unreserved_amount
              - srcR.currency_pair_metadata.round_to_remove_amount_precision_error x)
            cl true 0 = some m1cd →
          ∀ dstR, m1cd.1.get_reservation dst = some dstR →
            transfer_bucket_ok dstR (dstR.unreserved_amount
              + srcR.currency_pair_metadata.round_to_remove_amount_precision_error x)
              cl)
  | BrmOp.updatePrice id _ =>
    ∀ r, m.get_reservation id = some r → r.unreserved_amount = r.amount
  | _ => True

/-- A successful run of a sequence of operations, each allowed by
`good_op`. -/
inductive GoodRun : BalanceReservationManager → List BrmOp →
    BalanceReservationManager → Prop where
  | nil (m : BalanceReservationManager) : GoodRun m [] m
  | cons (m m1 m2 : BalanceReservationManager) (op : BrmOp) (ops : List BrmOp) :
      good_op m op → apply_op m op = some m1 → GoodRun m1 ops m2 →
      GoodRun m (op :: ops) m2

theorem alist_keys_update {κ α : Type} [DecidableEq κ] (l : List (κ × α)) (k : κ)
    (f : α → α) : alist_keys (alist_update l k f) = alist_keys l := by
  induction l with
  | nil => rfl
  | cons hd tl ih =>
    obtain ⟨k0, a0⟩ := hd
    by_cases hk : k0 = k
    · simp only [alist_update, List.map_cons, if_pos hk, alist_keys] at *
      exact congrArg (k0 :: ·) ih
    · simp only [alist_update, List.map_cons, if_neg hk, alist_keys] at *
      exact congrArg (k0 :: ·) ih

theorem alist_lookup_none_not_mem {κ α : Type} [DecidableEq κ] (l : List (κ × α))
    (k : κ) (h : alist_lookup l k = none) : k ∉ alist_keys l := by
  induction l with
  | nil => simp [alist_keys]
  | cons hd tl ih =>
    obtain ⟨k0, a0⟩ := hd
    rw [alist_lookup_cons] at h
    by_cases hk : k0 = k
    · rw [if_pos hk] at h
      cases h
    · rw [if_neg hk] at h
      simp only [alist_keys, List.map_cons, List.mem_cons]
      rintro (hkk | hmem)
      · exact hk hkk.symm
      · exact ih h hmem

theorem alist_not_mem_update_id {κ α : Type} [DecidableEq κ] (l : List (κ × α))
    (k : κ) (f : α → α) (h : k ∉ alist_keys l) : alist_update l k f = l := by
  induction l with
  | nil => rfl
  | cons hd tl ih =>
    obtain ⟨k0, a0⟩ := hd
    simp only [alist_keys, List.map_cons, List.mem_cons, not_or] at h
    rw [alist_update_cons, if_neg (show ¬k0 = k from fun he => h.1 he.symm)]
    have htl := ih (by intro hmem; exact h.2 hmem)
    rw [htl]

theorem parts_active_sum_nil : parts_active_sum [] = 0 := rfl

theorem parts_active_sum_cons (k0 : ClientOrderId) (a0 : ApprovedPart)
    (tl : List (ClientOrderId × ApprovedPart)) :
    parts_active_sum ((k0, a0) :: tl)
      = (if a0.is_canceled = true then 0 else a0.unreserved_amount)
        + parts_active_sum tl := rfl

theorem parts_active_sum_update (l : List (ClientOrderId × ApprovedPart))
    (c : ClientOrderId) (p : ApprovedPart) (f : ApprovedPart → ApprovedPart)
    (hnd : (alist_keys l).Nodup) (hl : alist_lookup l c = some p) :
    parts_active_sum (alist_update l c f)
      = parts_active_sum l
        - (if p.is_canceled = true then 0 else p.unreserved_amount)
        + (if (f p).is_canceled = true then 0 else (f p).unreserved_amount) := by
  induction l with
  | nil => cases hl
  | cons hd tl ih =>
    obtain ⟨k0, a0⟩ := hd
    rw [alist_lookup_cons] at hl
    rw [alist_update_cons]
    by_cases hk : k0 = c
    · rw [if_pos hk] at hl
      obtain rfl := Option.some.inj hl
      have hnm : c ∉ alist_keys tl := hk ▸ (List.nodup_cons.mp hnd).1
      rw [if_pos hk, alist_not_mem_update_id tl c f hnm,
        parts_active_sum_cons, parts_active_sum_cons]
      ring
    · rw [if_neg hk] at hl
      rw [if_neg hk, parts_active_sum_cons, parts_active_sum_cons,
        ih (List.nodup_cons.mp hnd).2 hl]
      ring

namespace BalanceReservationManager

theorem add_virtual_storage (m : BalanceReservationManager) (request : BalanceRequest)
    (md : CurrencyPairMetadata) (d : Amount) (pr : Price)
    (m1 : BalanceReservationManager)
    (h : m.add_virtual_balance_by_currency_pair_metadata request md d pr = some m1) :
    m1.balance_reservation_storage = m.balance_reservation_storage := by
  unfold add_virtual_balance_by_currency_pair_metadata at h
  split at h
  · obtain rfl := Option.some.inj h
    rfl
  · split at h
    · cases h
    · obtain rfl := Option.some.inj h
      rfl

theorem add_reserved_amount_storage (m : BalanceReservationManager)
    (request : BalanceRequest) (id : ReservationId) (diff : Amount) (ub : Bool)
    (m' : BalanceReservationManager)
    (h : m.add_reserved_amount request id diff ub = some m') :
    ∃ r, m.get_reservation id = some r
      ∧ m'.balance_reservation_storage
        = alist_update m.balance_reservation_storage id
            (fun _ => { r with unreserved_amount := r.unreserved_amount + diff }) := by
  unfold add_reserved_amount at h
  split at h
  · cases h
  · rename_i r heq
    refine ⟨r, heq, ?_⟩
    by_cases hub : ub = true
    · simp only [if_pos hub] at h
      cases hcost : r.get_proportional_cost_amount diff with
      | none =>
        simp only [hcost] at h
        cases h
      | some c =>
        simp only [hcost] at h
        cases hav : m.add_virtual_balance_by_currency_pair_metadata request
            r.currency_pair_metadata (-c) r.price with
        | none =>
          simp only [hav] at h
          cases h
        | some m1v =>
          simp only [hav] at h
          have hst := add_virtual_storage _ _ _ _ _ _ hav
          obtain rfl := (Option.some.inj h).symm
          show alist_update m1v.balance_reservation_storage id
              (fun _ => { r with unreserved_amount := r.unreserved_amount + diff })
            = alist_update m.balance_reservation_storage id
              (fun _ => { r with unreserved_amount := r.unreserved_amount + diff })
          rw [hst]
    · simp only [if_neg hub] at h
      obtain rfl := (Option.some.inj h).symm
      rfl

theorem add_reserved_by_reservation_storage (m : BalanceReservationManager)
    (request : BalanceRequest) (r : BalanceReservation) (diff : Amount) (ub : Bool)
    (m' : BalanceReservationManager)
    (h : m.add_reserved_amount_by_reservation request r diff ub = some m') :
    m'.balance_reservation_storage = m.balance_reservation_storage := by
  unfold add_reserved_amount_by_reservation at h
  by_cases hub : ub = true
  · simp only [if_pos hub] at h
    cases hcost : r.get_proportional_cost_amount diff with
    | none =>
      simp only [hcost] at h
      cases h
    | some c =>
      simp only [hcost] at h
      cases hav : m.add_virtual_balance_by_currency_pair_metadata request
          r.currency_pair_metadata (-c) r.price with
      | none =>
        simp only [hav] at h
        cases h
      | some m1v =>
        simp only [hav] at h
        have hst := add_virtual_storage _ _ _ _ _ _ hav
        obtain rfl := (Option.some.inj h).symm
        exact hst
  · simp only [if_neg hub] at h
    obtain rfl := (Option.some.inj h).symm
    rfl

end BalanceReservationManager

namespace BalanceReservationManager

theorem store_balanced_reserve (m : BalanceReservationManager) (p : ReserveParameters)
    (b : Bool) (m1 : BalanceReservationManager) (rid : ReservationId)
    (hm : store_balanced m) (h : m.try_reserve p = some (b, m1, rid)) :
    store_balanced m1 := by
  unfold try_reserve at h
  split at h
  · cases h
  · have hinj := Option.some.inj h
    rw [Prod.mk.injEq, Prod.mk.injEq] at hinj
    obtain ⟨-, rfl, -⟩ := hinj
    exact hm
  · rename_i preset heq
    simp only [] at h
    split at h
    · cases h
    · rename_i m3v heq2
      have hinj := Option.some.inj h
      rw [Prod.mk.injEq, Prod.mk.injEq] at hinj
      obtain ⟨-, rfl, -⟩ := hinj
      obtain ⟨r0, hr0, hst⟩ := add_reserved_amount_storage _ _ _ _ _ _ heq2
      have hr0v : ({ m with reservation_id := m.reservation_id + 1 }.storage_add
          (m.reservation_id + 1)
          (BalanceReservation.new p.configuration_descriptor p.exchange_account_id
            p.currency_pair_metadata p.order_side p.price p.amount
            preset.taken_free_amount_in_amount_currency_code
            preset.cost_in_amount_currency_code
            preset.reservation_currency_code)).get_reservation (m.reservation_id + 1)
          = some (BalanceReservation.new p.configuration_descriptor
            p.exchange_account_id p.currency_pair_metadata p.order_side p.price
            p.amount preset.taken_free_amount_in_amount_currency_code
            preset.cost_in_amount_currency_code preset.reservation_currency_code) :=
        get_reservation_storage_add_self _ _ _
      obtain rfl := Option.some.inj (hr0v.symm.trans hr0)
      intro id' r' hr'
      by_cases hid : id' = m.reservation_id + 1
      · subst hid
        rw [show m3v.get_reservation (m.reservation_id + 1)
            = some { BalanceReservation.new p.configuration_descriptor
                p.exchange_account_id p.currency_pair_metadata p.order_side p.price
                p.amount preset.taken_free_amount_in_amount_currency_code
                preset.cost_in_amount_currency_code preset.reservation_currency_code
              with unreserved_amount :=
                (BalanceReservation.new p.configuration_descriptor
                  p.exchange_account_id p.currency_pair_metadata p.order_side p.price
                  p.amount preset.taken_free_amount_in_amount_currency_code
                  preset.cost_in_amount_currency_code
                  preset.reservation_currency_code).unreserved_amount + p.amount }
          from by
            show alist_lookup m3v.balance_reservation_storage (m.reservation_id + 1) = _
            rw [hst]
            exact alist_lookup_update_self _ (m.reservation_id + 1) _ _ hr0v] at hr'
        obtain rfl := (Option.some.inj hr').symm
        constructor
        · exact List.nodup_nil
        · show p.amount + parts_active_sum [] = 0 + p.amount
          rw [parts_active_sum_nil]
          ring
      · rw [show m3v.get_reservation id' = m.get_reservation id' from by
          show alist_lookup m3v.balance_reservation_storage id'
            = alist_lookup m.balance_reservation_storage id'
          rw [hst, alist_lookup_update_ne _ _ _ _ hid]
          show alist_lookup ((m.reservation_id + 1, _)
              :: alist_remove m.balance_reservation_storage (m.reservation_id + 1)) id'
            = _
          rw [alist_lookup_cons, if_neg (fun he => hid he.symm)]
          exact alist_lookup_remove_ne _ _ _ hid] at hr'
        exact hm id' r' hr'

end BalanceReservationManager

namespace BalanceReservationManager

theorem store_balanced_approve (m : BalanceReservationManager) (id : ReservationId)
    (cl : ClientOrderId) (x : Amount) (m' : BalanceReservationManager)
    (hm : store_balanced m) (h : m.approve_reservation id cl x = some m') :
    store_balanced m' := by
  unfold approve_reservation at h
  split at h
  · obtain rfl := Option.some.inj h
    exact hm
  · rename_i r heq
    split at h
    · obtain rfl := Option.some.inj h
      exact hm
    · rename_i hdup
      simp only [] at h
      split at h
      · cases h
      · obtain rfl := (Option.some.inj h).symm
        intro id' r' hr'
        by_cases hid : id' = id
        · subst hid
          rw [get_reservation_storage_set_self m id' _ r heq] at hr'
          obtain rfl := (Option.some.inj hr').symm
          obtain ⟨hnd, hbal⟩ := hm id' r heq
          constructor
          · have hnone : alist_lookup r.approved_parts cl = none :=
              Option.not_isSome_iff_eq_none.mp hdup
            show (alist_keys ((cl, ApprovedPart.new m.date_time_service_now cl x)
                :: r.approved_parts)).Nodup
            rw [show alist_keys ((cl, ApprovedPart.new m.date_time_service_now cl x)
                :: r.approved_parts) = cl :: alist_keys r.approved_parts from rfl]
            exact List.nodup_cons.mpr ⟨alist_lookup_none_not_mem _ _ hnone, hnd⟩
          · show r.not_approved_amount - x
              + parts_active_sum ((cl, ApprovedPart.new m.date_time_service_now cl x)
                :: r.approved_parts)
              = r.unreserved_amount
            rw [parts_active_sum_cons]
            rw [show (ApprovedPart.new m.date_time_service_now cl x).is_canceled
              = false from rfl]
            rw [if_neg (by simp)]
            rw [show (ApprovedPart.new m.date_time_service_now cl x).unreserved_amount
              = x from rfl]
            have hb := hbal
            unfold BalanceReservation.balanced at hb
            linarith
        · rw [get_reservation_storage_set_ne m id id' _ hid] at hr'
          exact hm id' r' hr'

theorem store_balanced_cancel (m : BalanceReservationManager) (id : ReservationId)
    (cl : ClientOrderId) (m' : BalanceReservationManager)
    (hm : store_balanced m) (h : m.cancel_approved_reservation id cl = some m') :
    store_balanced m' := by
  unfold cancel_approved_reservation at h
  split at h
  · obtain rfl := Option.some.inj h
    exact hm
  · rename_i r heq
    split at h
    · obtain rfl := Option.some.inj h
      exact hm
    · rename_i part hpart
      split at h
      · cases h
      · rename_i hnc
        obtain rfl := (Option.some.inj h).symm
        intro id' r' hr'
        by_cases hid : id' = id
        · subst hid
          rw [get_reservation_storage_set_self m id' _ r heq] at hr'
          obtain rfl := (Option.some.inj hr').symm
          obtain ⟨hnd, hbal⟩ := hm id' r heq
          constructor
          · show (alist_keys (alist_update r.approved_parts cl
              (fun p => { p with is_canceled := true }))).Nodup
            rw [alist_keys_update]
            exact hnd
          · show r.not_approved_amount + part.unreserved_amount
              + parts_active_sum (alist_update r.approved_parts cl
                (fun p => { p with is_canceled := true }))
              = r.unreserved_amount
            rw [parts_active_sum_update r.approved_parts cl part _ hnd hpart]
            rw [if_neg hnc]
            rw [show ({ part with is_canceled := true } : ApprovedPart).is_canceled
              = true from rfl]
            rw [if_pos rfl]
            have hb := hbal
            unfold BalanceReservation.balanced at hb
            linarith
        · rw [get_reservation_storage_set_ne m id id' _ hid] at hr'
          exact hm id' r' hr'

end BalanceReservationManager

namespace BalanceReservationManager

theorem store_balanced_unreserve (m : BalanceReservationManager) (id : ReservationId)
    (x : Amount) (cl : Option ClientOrderId) (m' : BalanceReservationManager)
    (hm : store_balanced m)
    (hgood : ∀ c r p, cl = some c → m.get_reservation id = some r →
      alist_lookup r.approved_parts c = some p → p.is_canceled = false)
    (h : m.unreserve id x cl = some m') : store_balanced m' := by
  unfold unreserve at h
  split at h
  · split at h
    · obtain rfl := Option.some.inj h
      exact hm
    · cases h
  · rename_i r heq
    simp only [] at h
    generalize hrd : r.currency_pair_metadata.round_to_remove_amount_precision_error x
      = rd at h
    split at h
    · obtain rfl := Option.some.inj h
      exact hm
    · split at h
      · obtain rfl := Option.some.inj h
        exact hm
      · split at h
        · cases h
        · rename_i r1v heq1
          obtain ⟨hnd, hbal⟩ := hm id r heq
          unfold BalanceReservation.balanced at hbal
          have hfacts : (alist_keys r1v.approved_parts).Nodup
              ∧ r1v.not_approved_amount + parts_active_sum r1v.approved_parts
                  = r.not_approved_amount + parts_active_sum r.approved_parts - rd
              ∧ r1v.unreserved_amount = r.unreserved_amount := by
            unfold unreserve_not_approved_part at heq1
            split at heq1
            · simp only [] at heq1
              split at heq1
              · cases heq1
              · obtain rfl := (Option.some.inj heq1).symm
                exact ⟨hnd, by ring, rfl⟩
            · rename_i c
              split at heq1
              · obtain rfl := (Option.some.inj heq1).symm
                exact ⟨hnd, by ring, rfl⟩
              · rename_i part hpart
                simp only [] at heq1
                split at heq1
                · cases heq1
                · obtain rfl := (Option.some.inj heq1).symm
                  have hnc : part.is_canceled = false := hgood c r part rfl heq hpart
                  refine ⟨?_, ?_, rfl⟩
                  · show (alist_keys (alist_update r.approved_parts c
                      (fun p => { p with unreserved_amount :=
                        part.unreserved_amount - rd }))).Nodup
                    rw [alist_keys_update]
                    exact hnd
                  · show r.not_approved_amount
                      + parts_active_sum (alist_update r.approved_parts c
                        (fun p => { p with unreserved_amount :=
                          part.unreserved_amount - rd }))
                      = r.not_approved_amount + parts_active_sum r.approved_parts - rd
                    rw [parts_active_sum_update r.approved_parts c part _ hnd hpart]
                    rw [if_neg (by rw [hnc]; exact Bool.false_ne_true),
                      if_neg (by
                        show ¬({ part with unreserved_amount :=
                          part.unreserved_amount - rd } : ApprovedPart).is_canceled
                            = true
                        rw [show ({ part with unreserved_amount :=
                            part.unreserved_amount - rd } : ApprovedPart).is_canceled
                          = part.is_canceled from rfl, hnc]
                        exact Bool.false_ne_true)]
                    rw [show ({ part with unreserved_amount :=
                        part.unreserved_amount - rd } : ApprovedPart).unreserved_amount
                      = part.unreserved_amount - rd from rfl]
                    ring
          split at h
          · cases h
          · rename_i m2v heq2
            obtain ⟨r1b, hr1b, hst2⟩ := add_reserved_amount_storage _ _ _ _ _ _ heq2
            have hset : (m.storage_set id r1v).get_reservation id = some r1v :=
              get_reservation_storage_set_self m id r1v r heq
            obtain rfl := Option.some.inj (hset.symm.trans hr1b)
            have hget2self : m2v.get_reservation id
                = some { r1v with unreserved_amount :=
                    r1v.unreserved_amount + -rd } := by
              show alist_lookup m2v.balance_reservation_storage id = _
              rw [hst2]
              exact alist_lookup_update_self _ id _ r1v hset
            have hget2ne : ∀ id'', id'' ≠ id →
                m2v.get_reservation id'' = m.get_reservation id'' := by
              intro id'' hne
              show alist_lookup m2v.balance_reservation_storage id''
                = alist_lookup m.balance_reservation_storage id''
              rw [hst2, alist_lookup_update_ne _ _ _ _ hne]
              show alist_lookup (alist_update m.balance_reservation_storage id
                (fun _ => r1v)) id'' = _
              rw [alist_lookup_update_ne _ _ _ _ hne]
            have hr2good : (alist_keys ({ r1v with unreserved_amount :=
                  r1v.unreserved_amount + -rd }
                    : BalanceReservation).approved_parts).Nodup
                ∧ ({ r1v with unreserved_amount := r1v.unreserved_amount + -rd }
                    : BalanceReservation).balanced := by
              refine ⟨hfacts.1, ?_⟩
              unfold BalanceReservation.balanced
              show r1v.not_approved_amount + parts_active_sum r1v.approved_parts
                = r1v.unreserved_amount + -rd
              rw [hfacts.2.1, hfacts.2.2]
              linarith
            split at h
            · rename_i heq3
              rw [hget2self] at heq3
              cases heq3
            · rename_i r2v heq3
              obtain rfl := Option.some.inj (hget2self.symm.trans heq3)
              split at h
              · split at h
                · have hst3 := add_reserved_by_reservation_storage _ _ _ _ _ _ h
                  intro id' r' hr'
                  have hmg : m'.get_reservation id'
                      = (m2v.storage_remove id).get_reservation id' := by
                    show alist_lookup m'.balance_reservation_storage id' = _
                    rw [hst3]
                    rfl
                  rw [hmg] at hr'
                  by_cases hid' : id' = id
                  · subst hid'
                    rw [get_reservation_storage_remove_self] at hr'
                    cases hr'
                  · rw [get_reservation_storage_remove_ne _ _ _ hid',
                      hget2ne id' hid'] at hr'
                    exact hm id' r' hr'
                · obtain rfl := (Option.some.inj h).symm
                  intro id' r' hr'
                  by_cases hid' : id' = id
                  · subst hid'
                    rw [get_reservation_storage_remove_self] at hr'
                    cases hr'
                  · rw [get_reservation_storage_remove_ne _ _ _ hid',
                      hget2ne id' hid'] at hr'
                    exact hm id' r' hr'
              · obtain rfl := (Option.some.inj h).symm
                intro id' r' hr'
                by_cases hid' : id' = id
                · subst hid'
                  rw [hget2self] at hr'
                  obtain rfl := (Option.some.inj hr').symm
                  exact hr2good
                · rw [hget2ne id' hid'] at hr'
                  exact hm id' r' hr'

end BalanceReservationManager

namespace BalanceReservationManager

theorem update_unreserved_amount_for_transfer_bucket (m : BalanceReservationManager)
    (id : ReservationId) (new_u : Amount) (cl : Option ClientOrderId) (is_src : Bool)
    (tcd : Decimal) (m' : BalanceReservationManager) (cd : Decimal)
    (r : BalanceReservation) (hr : m.get_reservation id = some r)
    (hnd : (alist_keys r.approved_parts).Nodup)
    (hgood : transfer_bucket_ok r new_u cl)
    (h : m.update_unreserved_amount_for_transfer id new_u cl is_src tcd
      = some (m', cd)) :
    ∃ r1, (alist_keys r1.approved_parts).Nodup
      ∧ r1.not_approved_amount + parts_active_sum r1.approved_parts
          = r.not_approved_amount + parts_active_sum r.approved_parts
            + (new_u - r.unreserved_amount)
      ∧ r1.unreserved_amount = r.unreserved_amount
      ∧ m.update_unreserved_tail id new_u (new_u - r.unreserved_amount) is_src tcd r1
          = some (m', cd) := by
  simp only [update_unreserved_amount_for_transfer, hr] at h
  split at h
  · cases h
  · cases cl with
    | none =>
      simp only [] at h
      refine ⟨_, ?_, ?_, ?_, h⟩
      · exact hnd
      · show r.not_approved_amount + (new_u - r.unreserved_amount)
            + parts_active_sum r.approved_parts
          = r.not_approved_amount + parts_active_sum r.approved_parts
            + (new_u - r.unreserved_amount)
        ring
      · rfl
    | some cl =>
      simp only [] at h
      cases hpart : alist_lookup r.approved_parts cl with
      | none =>
        rw [hpart] at h
        simp only [] at h
        split at h
        · cases h
        · rename_i r1v heq
          split at heq
          · cases heq
          · obtain rfl := Option.some.inj heq
            refine ⟨_, ?_, ?_, ?_, h⟩
            · show (alist_keys ((cl, ApprovedPart.new m.date_time_service_now cl
                  (new_u - r.unreserved_amount)) :: r.approved_parts)).Nodup
              rw [show alist_keys ((cl, ApprovedPart.new m.date_time_service_now cl
                    (new_u - r.unreserved_amount)) :: r.approved_parts)
                  = cl :: alist_keys r.approved_parts from rfl]
              exact List.nodup_cons.mpr ⟨alist_lookup_none_not_mem _ _ hpart, hnd⟩
            · show r.not_approved_amount + parts_active_sum ((cl,
                  ApprovedPart.new m.date_time_service_now cl
                    (new_u - r.unreserved_amount)) :: r.approved_parts)
                = r.not_approved_amount + parts_active_sum r.approved_parts
                  + (new_u - r.unreserved_amount)
              rw [parts_active_sum_cons]
              rw [show (ApprovedPart.new m.date_time_service_now cl
                  (new_u - r.unreserved_amount)).is_canceled = false from rfl]
              rw [if_neg (by simp)]
              rw [show (ApprovedPart.new m.date_time_service_now cl
                  (new_u - r.unreserved_amount)).unreserved_amount
                = new_u - r.unreserved_amount from rfl]
              ring
            · rfl
      | some approved_part =>
        rw [hpart] at h
        simp only [] at h
        obtain ⟨hnc, hnm⟩ := hgood cl approved_part rfl hpart
        split at h
        · cases h
        · rename_i r1v heq
          split at heq
          · rename_i hcond
            exact absurd hcond (by rw [hnm]; exact Bool.false_ne_true)
          · split at heq
            · cases heq
            · obtain rfl := Option.some.inj heq
              refine ⟨_, ?_, ?_, ?_, h⟩
              · show (alist_keys (alist_update r.approved_parts cl
                    (fun p => { p with
                      unreserved_amount := approved_part.unreserved_amount
                        + (new_u - r.unreserved_amount),
                      amount := p.amount + (new_u - r.unreserved_amount) }))).Nodup
                rw [alist_keys_update]
                exact hnd
              · show r.not_approved_amount
                  + parts_active_sum (alist_update r.approved_parts cl
                    (fun p => { p with
                      unreserved_amount := approved_part.unreserved_amount
                        + (new_u - r.unreserved_amount),
                      amount := p.amount + (new_u - r.unreserved_amount) }))
                  = r.not_approved_amount + parts_active_sum r.approved_parts
                    + (new_u - r.unreserved_amount)
                rw [parts_active_sum_update r.approved_parts cl approved_part _
                  hnd hpart]
                simp only [hnc, Bool.false_eq_true, if_false]
                ring
              · rfl

theorem store_balanced_update_transfer (m : BalanceReservationManager)
    (id : ReservationId) (new_u : Amount) (cl : Option ClientOrderId) (is_src : Bool)
    (tcd : Decimal) (m' : BalanceReservationManager) (cd : Decimal)
    (hm : store_balanced m)
    (hgood : ∀ r, m.get_reservation id = some r → transfer_bucket_ok r new_u cl)
    (h : m.update_unreserved_amount_for_transfer id new_u cl is_src tcd
      = some (m', cd)) : store_balanced m' := by
  cases hr : m.get_reservation id with
  | none =>
    simp only [update_unreserved_amount_for_transfer, hr] at h
    cases h
  | some r =>
    obtain ⟨hnd, hbal⟩ := hm id r hr
    obtain ⟨r1, hnd1, hsum1, hu1, htail⟩ :=
      update_unreserved_amount_for_transfer_bucket m id new_u cl is_src tcd m' cd r
        hr hnd (hgood r hr) h
    obtain ⟨h1, h2, h3⟩ := update_unreserved_tail_inv m id new_u
      (new_u - r.unreserved_amount) is_src tcd r r1 m' cd hr htail
    intro id' r' hr'
    by_cases hid : id' = id
    · subst hid
      rcases h3 with ⟨-, hnone⟩ | ⟨-, r2, hr2, hu2, hna2, hparts2⟩
      · rw [hnone] at hr'
        cases hr'
      · rw [hr2] at hr'
        obtain rfl := (Option.some.inj hr').symm
        refine ⟨?_, ?_⟩
        · rw [hparts2]
          exact hnd1
        · unfold BalanceReservation.balanced
          rw [hparts2, hna2, hu2, hu1]
          have hb := hbal
          unfold BalanceReservation.balanced at hb
          linarith [hsum1]
    · rw [h1 id' hid] at hr'
      exact hm id' r' hr'

theorem store_balanced_transfer_amount (m : BalanceReservationManager)
    (src dst : ReservationId) (amt : Amount) (cl : Option ClientOrderId)
    (m' : BalanceReservationManager) (hm : store_balanced m)
    (hgsrc : ∀ srcR, m.get_reservation src = some srcR →
      transfer_bucket_ok srcR (srcR.unreserved_amount - amt) cl)
    (hgdst : ∀ srcR, m.get_reservation src = some srcR →
      ∀ m1cd : BalanceReservationManager × Decimal,
        m.update_unreserved_amount_for_transfer src
          (srcR.unreserved_amount - amt) cl true 0 = some m1cd →
        ∀ dstR, m1cd.1.get_reservation dst = some dstR →
          transfer_bucket_ok dstR (dstR.unreserved_amount + amt) cl)
    (h : m.transfer_amount src dst amt cl = some m') : store_balanced m' := by
  simp only [transfer_amount, Option.bind_eq_some] at h
  obtain ⟨srcR, hsrcR, h⟩ := h
  obtain ⟨step1, hstep1, h⟩ := h
  obtain ⟨dstR, hdstR, h⟩ := h
  obtain ⟨step2, hstep2, h⟩ := h
  obtain rfl := Option.some.inj h
  have hm1 : store_balanced step1.1 :=
    store_balanced_update_transfer m src (srcR.unreserved_amount - amt) cl true 0
      step1.1 step1.2 hm
      (fun r hrr => by
        obtain rfl := Option.some.inj (hsrcR.symm.trans hrr)
        exact hgsrc _ hsrcR)
      hstep1
  exact store_balanced_update_transfer step1.1 dst (dstR.unreserved_amount + amt) cl
    false (-step1.2) step2.1 step2.2 hm1
    (fun r hrr => by
      obtain rfl := Option.some.inj (hdstR.symm.trans hrr)
      exact hgdst srcR hsrcR step1 hstep1 _ hdstR)
    hstep2

theorem store_balanced_transfer (m : BalanceReservationManager)
    (src dst : ReservationId) (x : Amount) (cl : Option ClientOrderId) (b : Bool)
    (m' : BalanceReservationManager) (hm : store_balanced m)
    (hg : ∀ srcR, m.get_reservation src = some srcR →
      transfer_bucket_ok srcR (srcR.unreserved_amount
        - srcR.currency_pair_metadata.round_to_remove_amount_precision_error x) cl
      ∧ (∀ m1cd : BalanceReservationManager × Decimal,
          m.update_unreserved_amount_for_transfer src
            (srcR.unreserved_amount
              - srcR.currency_pair_metadata.round_to_remove_amount_precision_error x)
            cl true 0 = some m1cd →
          ∀ dstR, m1cd.1.get_reservation dst = some dstR →
            transfer_bucket_ok dstR (dstR.unreserved_amount
              + srcR.currency_pair_metadata.round_to_remove_amount_precision_error x)
              cl))
    (h : m.try_transfer_reservation src dst x cl = some (b, m')) :
    store_balanced m' := by
  simp only [try_transfer_reservation, Option.bind_eq_some] at h
  obtain ⟨srcR, hsrcR, h⟩ := h
  obtain ⟨dstR0, hdstR0, h⟩ := h
  split at h
  · cases h
  · split at h
    · have hinj := Option.some.inj h
      rw [Prod.mk.injEq] at hinj
      obtain ⟨-, rfl⟩ := hinj
      exact hm
    · split at h
      · simp only [Option.bind_eq_some] at h
        obtain ⟨ab, hab, h⟩ := h
        split at h
        · have hinj := Option.some.inj h
          rw [Prod.mk.injEq] at hinj
          obtain ⟨-, rfl⟩ := hinj
          exact hm
        · simp only [Option.bind_eq_some] at h
          obtain ⟨m1f, htr, h⟩ := h
          have hinj := Option.some.inj h
          rw [Prod.mk.injEq] at hinj
          obtain ⟨-, rfl⟩ := hinj
          exact store_balanced_transfer_amount m src dst _ cl m1f hm
            (fun sR hsR => by
              obtain rfl := Option.some.inj (hsrcR.symm.trans hsR)
              exact (hg _ hsrcR).1)
            (fun sR hsR m1cd hstep dR hdR => by
              obtain rfl := Option.some.inj (hsrcR.symm.trans hsR)
              exact (hg _ hsrcR).2 m1cd hstep dR hdR)
            htr
      · simp only [Option.bind_eq_some] at h
        obtain ⟨m1f, htr, h⟩ := h
        have hinj := Option.some.inj h
        rw [Prod.mk.injEq] at hinj
        obtain ⟨-, rfl⟩ := hinj
        exact store_balanced_transfer_amount m src dst _ cl m1f hm
          (fun sR hsR => by
            obtain rfl := Option.some.inj (hsrcR.symm.trans hsR)
            exact (hg _ hsrcR).1)
          (fun sR hsR m1cd hstep dR hdR => by
            obtain rfl := Option.some.inj (hsrcR.symm.trans hsR)
            exact (hg _ hsrcR).2 m1cd hstep dR hdR)
          htr

theorem store_balanced_update_price (m : BalanceReservationManager)
    (id : ReservationId) (np : Price) (b : Bool) (m' : BalanceReservationManager)
    (hm : store_balanced m)
    (hg : ∀ r, m.get_reservation id = some r → r.unreserved_amount = r.amount)
    (h : m.try_update_reservation_price id np = some (b, m')) :
    store_balanced m' := by
  unfold try_update_reservation_price at h
  split at h
  · have hinj := Option.some.inj h
    rw [Prod.mk.injEq] at hinj
    obtain ⟨-, rfl⟩ := hinj
    exact hm
  · rename_i r heq
    obtain ⟨hnd, hbal⟩ := hm id r heq
    simp only [] at h
    split at h
    · cases h
    · rename_i ob hab
      split at h
      · have hinj := Option.some.inj h
        rw [Prod.mk.injEq] at hinj
        obtain ⟨-, rfl⟩ := hinj
        exact hm
      · split at h
        · cases h
        · rename_i m2v heq2
          obtain ⟨r2b, hr2b, hst2⟩ := add_reserved_amount_storage _ _ _ _ _ _ heq2
          have hr2c := hr2b
          rw [get_reservation_storage_set_self m id _ r heq] at hr2c
          obtain rfl := (Option.some.inj hr2c).symm
          split at h
          · rename_i heq3
            rw [show m2v.get_reservation id
                = alist_lookup m2v.balance_reservation_storage id from rfl, hst2,
              alist_lookup_update_self _ id _ _ hr2b] at heq3
            cases heq3
          · rename_i r3v heq3
            have tmp := heq3
            rw [show m2v.get_reservation id
                = alist_lookup m2v.balance_reservation_storage id from rfl, hst2,
              alist_lookup_update_self _ id _ _ hr2b] at tmp
            have hr3 := Option.some.inj tmp
            have hr3parts : r3v.approved_parts = r.approved_parts := by
              rw [← hr3]
            have hr3u : r3v.unreserved_amount = r.unreserved_amount := by
              rw [← hr3]
              simp only []
              ring
            have hinj := Option.some.inj h
            rw [Prod.mk.injEq] at hinj
            obtain ⟨-, rfl⟩ := hinj
            intro id' r' hr'
            by_cases hid : id' = id
            · rw [hid] at hr'
              rw [get_reservation_storage_set_self m2v id _ r3v heq3] at hr'
              obtain rfl := (Option.some.inj hr').symm
              refine ⟨?_, ?_⟩
              · show (alist_keys r3v.approved_parts).Nodup
                rw [hr3parts]
                exact hnd
              · unfold BalanceReservation.balanced
                show r.amount - parts_active_sum r.approved_parts
                    + parts_active_sum r3v.approved_parts
                  = r3v.unreserved_amount
                rw [hr3parts, hr3u, ← hg r heq]
                ring
            · rw [get_reservation_storage_set_ne m2v id id' _ hid] at hr'
              rw [show m2v.get_reservation id'
                  = alist_lookup m2v.balance_reservation_storage id' from rfl, hst2,
                alist_lookup_update_ne _ _ _ _ hid] at hr'
              exact hm id' r'
                ((get_reservation_storage_set_ne m id id' _ hid).symm.trans hr')

end BalanceReservationManager

open BalanceReservationManager in
theorem store_balanced_apply_op (m : BalanceReservationManager) (op : BrmOp)
    (m' : BalanceReservationManager) (hm : store_balanced m) (hg : good_op m op)
    (h : apply_op m op = some m') : store_balanced m' := by
  cases op with
  | reserve p =>
    simp only [apply_op] at h
    cases htr : m.try_reserve p with
    | none =>
      rw [htr] at h
      cases h
    | some res =>
      obtain ⟨b, m1, rid⟩ := res
      rw [htr] at h
      obtain rfl := Option.some.inj h
      exact store_balanced_reserve m p b m1 rid hm htr
  | approve id cl x =>
    exact store_balanced_approve m id cl x m' hm h
  | cancel id cl =>
    exact store_balanced_cancel m id cl m' hm h
  | unreserveOp id x cl =>
    cases cl with
    | none =>
      exact store_balanced_unreserve m id x none m' hm
        (fun c r p hceq _ _ => Option.noConfusion hceq) h
    | some c0 =>
      exact store_balanced_unreserve m id x (some c0) m' hm
        (fun c r p hceq hr hp => by
          obtain rfl := Option.some.inj hceq
          exact hg r p hr hp) h
  | transfer src dst x cl =>
    simp only [apply_op] at h
    cases htr : m.try_transfer_reservation src dst x cl with
    | none =>
      rw [htr] at h
      cases h
    | some res =>
      obtain ⟨b, mres⟩ := res
      rw [htr] at h
      obtain rfl := Option.some.inj h
      exact store_balanced_transfer m src dst x cl b mres hm hg htr
  | updatePrice id np =>
    simp only [apply_op] at h
    cases htr : m.try_update_reservation_price id np with
    | none =>
      rw [htr] at h
      cases h
    | some res =>
      obtain ⟨b, mres⟩ := res
      rw [htr] at h
      obtain rfl := Option.some.inj h
      exact store_balanced_update_price m id np b mres hm hg htr

open BalanceReservationManager in
/-- C2 (amended): starting from a store in which every reservation satisfies
`not_approved_amount + Σ (non-canceled approved parts).unreserved_amount =
unreserved_amount` (with distinct approved-part keys), every successful
sequence of the six public operations named by the claim — `try_reserve`,
`approve_reservation`, `cancel_approved_reservation`, `unreserve`,
`try_transfer_reservation` and `try_update_reservation_price` — preserves
that equation exactly for every reservation in the store, provided each
operation satisfies `good_op`: no `unreserve` and no transfer bucket update
aimed at an already-canceled approved part, no transfer bucket update that
lands a part's new amount within the symbol margin (the code removes the
part together with its residual), and no price update of a reservation
whose `unreserved_amount` differs from its `amount`.  The claim as stated
(sum over *all* approved parts, up to ε) is false:
`cancel_approved_reservation` keeps the canceled part and also returns its
amount to `not_approved_amount`, an error far beyond ε (see the
counterexample).  Each `good_op` side condition is itself forced by a
concrete drifting run: `c2_unreserve_canceled_drift`,
`c2_transfer_canceled_drift`, `c2_transfer_margin_drift` and
`c2_update_price_drift`. -/
theorem c2_invariant_preserved (m : BalanceReservationManager) (ops : List BrmOp)
    (m' : BalanceReservationManager) (hm : store_balanced m)
    (h : GoodRun m ops m') : store_balanced m' := by
  revert hm
  induction h with
  | nil m0 =>
    intro hm
    exact hm
  | cons m0 m1 m2 op ops hg ha hrun ih =>
    intro hm
    exact ih (store_balanced_apply_op m0 op m1 hm hg ha)

/-- Concrete reserve request for the C2 counterexample: buy `1/2` at price 8
on the `ε = 1/1000` symbol. -/
def pC2 : ReserveParameters :=
  ⟨0, 0, metaC3, OrderSide.Buy, 8, 1/2⟩

/-- Concrete manager for the C2 counterexample. -/
def mC2 : BalanceReservationManager :=
  ⟨fun eai => if eai = 0 then some ⟨fun _ => some 1⟩ else none,
    fun _ => some metaC3,
    ServiceValueTree.new,
    ServiceValueTree.new,
    ⟨fun _ => none, []⟩,
    0,
    ⟨fun _ => some 10, ServiceValueTree.new⟩,
    [],
    false,
    0⟩

open BalanceReservationManager in
/-- C2 counterexample: reserve `1/2`, approve the full amount as client order
7, then cancel it.  The cancel returns the approved amount to
`not_approved_amount` but keeps the canceled part in `approved_parts`, so
with the sum taken over *all* approved parts (the claim as stated) the
bookkeeping equation is off by `1/2`, far beyond the symbol margin
`ε = 1/1000`. -/
theorem c2_counterexample :
    ((mC2.try_reserve pC2).bind (fun res =>
        (res.2.1.approve_reservation res.2.2 7 (1/2)).bind (fun ma =>
          (ma.cancel_approved_reservation res.2.2 7).map (fun mc =>
            (res.1,
              (mc.get_reservation res.2.2).map (fun r =>
                r.not_approved_amount + parts_all_sum r.approved_parts
                  - r.unreserved_amount))))))
      = some (true, some (1/2))
      ∧ ¬(|(1/2 : ℚ)| ≤ pC2.currency_pair_metadata.amount_precision_step) := by
  constructor
  · norm_num [mC2, pC2, metaC3, try_reserve, can_reserve_core,
      get_currency_code_and_reservation_amount, calculate_reservation_cost,
      can_reserve_with_limit, get_available_balance, try_get_available_balance,
      try_get_leverage, VirtualBalanceHolder.get_virtual_balance,
      ServiceValueTree.new, ServiceValueTree.get_by_balance_request,
      ServiceValueTree.add_by_request, CurrencyPairMetadata.get_trade_code,
      CurrencyPairMetadata.currency_pair, CurrencyPairMetadata.conversion_factor,
      CurrencyPairMetadata.convert_amount_from_amount_currency_code,
      CurrencyPairMetadata.convert_amount_into_amount_currency_code,
      CurrencyPairMetadata.round_to_remove_amount_precision_error,
      CurrencyPairMetadata.is_amount_within_symbol_margin_error,
      BalanceRequest.new, BalanceReservation.new, storage_add, storage_set,
      get_reservation, alist_lookup, alist_update, alist_remove,
      add_reserved_amount, BalanceReservation.get_proportional_cost_amount,
      add_virtual_balance_by_currency_pair_metadata,
      VirtualBalanceHolder.add_balance, approve_reservation,
      cancel_approved_reservation, ApprovedPart.new, parts_all_sum,
      BalanceReservation.is_amount_within_symbol_margin_error,
      Option.bind, round_eq, abs_of_nonneg]
  · norm_num [pC2, metaC3, abs_of_nonneg]

/-- Reservation with one canceled approved part holding residual `1/2`; the
bookkeeping equation over the non-canceled parts holds (`1 + 0 = 1`). -/
def rUc : BalanceReservation :=
  ⟨0, 0, metaC3, OrderSide.Buy, 1, 1, 0, 1, 2, 1, 1, [(7, ⟨0, 7, 1/2, 1/2, true⟩)]⟩

/-- Manager holding `rUc` under id 1, with an exchange configured so that
`unreserve` takes its real path. -/
def mUc : BalanceReservationManager :=
  ⟨fun eai => if eai = 0 then some ⟨fun _ => some 1⟩ else none,
    fun _ => none,
    ServiceValueTree.new,
    ServiceValueTree.new,
    ⟨fun _ => none, []⟩,
    1,
    ⟨fun _ => some 10, ServiceValueTree.new⟩,
    [(1, rUc)],
    false,
    0⟩

open BalanceReservationManager in
/-- Forcing run for the canceled-part `unreserve` exclusion of the amended
C2: from the balanced store `mUc`, unreserving `1/4` against the canceled
approved part 7 decrements the canceled residual (whose value the cancel
already returned to `not_approved_amount`), leaving the bookkeeping
equation off by `1/4`, far beyond `ε = 1/1000`. -/
theorem c2_unreserve_canceled_drift :
    store_balanced mUc
    ∧ (alist_lookup rUc.approved_parts 7).map ApprovedPart.is_canceled = some true
    ∧ ((mUc.unreserve 1 (1/4) (some 7)).bind (fun m1 =>
        (m1.get_reservation 1).map (fun r =>
          r.not_approved_amount + parts_active_sum r.approved_parts
            - r.unreserved_amount)))
      = some (1/4)
    ∧ ¬(|(1/4 : ℚ)| ≤ metaC3.amount_precision_step) := by
  refine ⟨?_, rfl, ?_, ?_⟩
  · intro id r h
    simp only [mUc, get_reservation, alist_lookup] at h
    split at h
    · obtain rfl := Option.some.inj h
      refine ⟨?_, ?_⟩
      · simp [rUc, alist_keys]
      · norm_num [rUc, BalanceReservation.balanced, parts_active_sum_cons,
          parts_active_sum_nil]
    · exact Option.noConfusion h
  · norm_num [mUc, rUc, metaC3, unreserve, unreserve_not_approved_part,
      add_reserved_amount, add_virtual_balance_by_currency_pair_metadata,
      BalanceReservation.get_proportional_cost_amount,
      BalanceReservation.is_amount_within_symbol_margin_error,
      CurrencyPairMetadata.is_amount_within_symbol_margin_error,
      CurrencyPairMetadata.round_to_remove_amount_precision_error,
      CurrencyPairMetadata.conversion_factor, CurrencyPairMetadata.currency_pair,
      CurrencyPairMetadata.convert_amount_from_amount_currency_code,
      CurrencyPairMetadata.get_trade_code, BalanceRequest.from_reservation,
      BalanceRequest.new, VirtualBalanceHolder.add_balance,
      ServiceValueTree.new, ServiceValueTree.add_by_request,
      get_reservation, storage_set, storage_remove, alist_lookup, alist_update,
      alist_remove, parts_active_sum_cons, parts_active_sum_nil,
      Option.bind, round_eq, abs_of_nonneg]
  · norm_num [metaC3, abs_neg, abs_of_nonneg]

/-- Balanced reservation with `unreserved_amount = 1/2` strictly below its
`amount = 1` (half of it was already unreserved). -/
def rPup : BalanceReservation :=
  ⟨0, 0, metaC3, OrderSide.Buy, 1, 1, 0, 1, 2, 1/2, 1/2, []⟩

/-- Manager holding `rPup` under id 1, with an exchange (leverage 1) and a
raw balance of 10 so that the available-balance check of
`try_update_reservation_price` passes. -/
def mPup : BalanceReservationManager :=
  ⟨fun eai => if eai = 0 then some ⟨fun _ => some 1⟩ else none,
    fun _ => none,
    ServiceValueTree.new,
    ServiceValueTree.new,
    ⟨fun _ => none, []⟩,
    1,
    ⟨fun _ => some 10, ServiceValueTree.new⟩,
    [(1, rPup)],
    false,
    0⟩

open BalanceReservationManager in
/-- Forcing run for the price-update exclusion of the amended C2: on the
balanced reservation `rPup` whose `unreserved_amount` (`1/2`) differs from
its `amount` (`1`), `try_update_reservation_price` succeeds and overwrites
`not_approved_amount` with `amount - Σ (non-canceled parts) = 1` while only
re-reserving the converted diff, leaving the bookkeeping equation off by
`1/2`, far beyond `ε = 1/1000`. -/
theorem c2_update_price_drift :
    store_balanced mPup
    ∧ rPup.unreserved_amount ≠ rPup.amount
    ∧ ((mPup.try_update_reservation_price 1 1).bind (fun res =>
        (res.2.get_reservation 1).map (fun r =>
          (res.1,
            r.not_approved_amount + parts_active_sum r.approved_parts
              - r.unreserved_amount))))
      = some (true, 1/2)
    ∧ ¬(|(1/2 : ℚ)| ≤ metaC3.amount_precision_step) := by
  refine ⟨?_, ?_, ?_, ?_⟩
  · intro id r h
    simp only [mPup, get_reservation, alist_lookup] at h
    split at h
    · obtain rfl := Option.some.inj h
      refine ⟨?_, ?_⟩
      · simp [rPup, alist_keys]
      · norm_num [rPup, BalanceReservation.balanced, parts_active_sum_nil]
    · exact Option.noConfusion h
  · norm_num [rPup]
  · norm_num [mPup, rPup, metaC3, try_update_reservation_price,
      try_get_available_balance, try_get_leverage,
      VirtualBalanceHolder.get_virtual_balance,
      ServiceValueTree.get_by_balance_request,
      add_reserved_amount, add_virtual_balance_by_currency_pair_metadata,
      BalanceReservation.get_proportional_cost_amount,
      BalanceReservation.convert_in_reservation_currency,
      BalanceReservation.is_amount_within_symbol_margin_error,
      CurrencyPairMetadata.is_amount_within_symbol_margin_error,
      CurrencyPairMetadata.round_to_remove_amount_precision_error,
      CurrencyPairMetadata.conversion_factor, CurrencyPairMetadata.currency_pair,
      CurrencyPairMetadata.convert_amount_from_amount_currency_code,
      CurrencyPairMetadata.convert_amount_into_amount_currency_code,
      CurrencyPairMetadata.get_trade_code, BalanceRequest.from_reservation,
      BalanceRequest.new, VirtualBalanceHolder.add_balance,
      ServiceValueTree.new, ServiceValueTree.add_by_request,
      get_reservation, storage_set, storage_remove, alist_lookup, alist_update,
      alist_remove, parts_active_sum_cons, parts_active_sum_nil,
      Option.bind, round_eq, abs_of_nonneg]
  · norm_num [metaC3, abs_neg, abs_of_nonneg]

/-- Source reservation with two active approved parts of `501/1000` each;
balanced: `0 + 1002/1000 = 501/500`. -/
def srcTm : BalanceReservation :=
  ⟨0, 0, metaC3, OrderSide.Buy, 1, 2, 0, 2, 2, 501/500, 0,
    [(7, ⟨0, 7, 501/1000, 501/1000, false⟩), (8, ⟨0, 8, 501/1000, 501/1000, false⟩)]⟩

/-- Destination reservation for the margin-removal transfers. -/
def dstTm : BalanceReservation :=
  ⟨0, 0, metaC3, OrderSide.Buy, 1, 1, 0, 1, 2, 1, 1, []⟩

/-- Manager holding `srcTm` (id 1) and `dstTm` (id 2). -/
def mTm : BalanceReservationManager :=
  ⟨fun _ => none,
    fun _ => none,
    ServiceValueTree.new,
    ServiceValueTree.new,
    ⟨fun _ => none, []⟩,
    2,
    ⟨fun _ => some 0, ServiceValueTree.new⟩,
    [(1, srcTm), (2, dstTm)],
    false,
    0⟩

set_option maxHeartbeats 3200000 in
open BalanceReservationManager in
/-- Forcing run for the margin-removal transfer exclusion of the amended C2:
each transfer of `1/2` against a part holding `501/1000` leaves the part at
`1/1000`, within the symbol margin, so the code removes the part together
with its residual; after two such transfers the source's bookkeeping
equation is off by `-(1/500)`, beyond `ε = 1/1000` — so even the original
up-to-ε reading cannot keep these transfers. -/
theorem c2_transfer_margin_drift :
    store_balanced mTm
    ∧ ((mTm.try_transfer_reservation 1 2 (1/2) (some 7)).bind (fun res1 =>
        (res1.2.try_transfer_reservation 1 2 (1/2) (some 8)).bind (fun res2 =>
          (res2.2.get_reservation 1).map (fun r =>
            (res1.1, res2.1,
              r.not_approved_amount + parts_active_sum r.approved_parts
                - r.unreserved_amount)))))
      = some (true, true, -(1/500))
    ∧ ¬(|(-(1/500) : ℚ)| ≤ metaC3.amount_precision_step) := by
  refine ⟨?_, ?_, ?_⟩
  · intro id r h
    simp only [mTm, get_reservation, alist_lookup] at h
    split at h
    · obtain rfl := Option.some.inj h
      refine ⟨?_, ?_⟩
      · simp [srcTm, alist_keys]
      · norm_num [srcTm, BalanceReservation.balanced, parts_active_sum_cons,
          parts_active_sum_nil]
    · split at h
      · obtain rfl := Option.some.inj h
        refine ⟨?_, ?_⟩
        · simp [dstTm, alist_keys]
        · norm_num [dstTm, BalanceReservation.balanced, parts_active_sum_nil]
      · exact Option.noConfusion h
  · norm_num [mTm, srcTm, dstTm, metaC3, try_transfer_reservation,
      transfer_amount, update_unreserved_amount_for_transfer, update_unreserved_tail,
      add_reserved_amount, add_virtual_balance_by_currency_pair_metadata,
      BalanceReservation.get_proportional_cost_amount,
      BalanceReservation.is_amount_within_symbol_margin_error,
      CurrencyPairMetadata.is_amount_within_symbol_margin_error,
      CurrencyPairMetadata.round_to_remove_amount_precision_error,
      CurrencyPairMetadata.conversion_factor, CurrencyPairMetadata.currency_pair,
      CurrencyPairMetadata.convert_amount_from_amount_currency_code,
      CurrencyPairMetadata.get_trade_code, BalanceRequest.from_reservation,
      BalanceRequest.new, VirtualBalanceHolder.add_balance, ApprovedPart.new,
      ServiceValueTree.new, ServiceValueTree.add_by_request,
      get_reservation, storage_set, storage_remove, alist_lookup, alist_update,
      alist_remove, parts_active_sum_cons, parts_active_sum_nil,
      Option.bind, round_eq, abs_of_nonneg]
  · norm_num [metaC3, abs_neg, abs_of_nonneg]

/-- Source reservation with one canceled approved part holding residual
`1/2`; balanced over the non-canceled parts (`1 + 0 = 1`). -/
def srcTc : BalanceReservation :=
  ⟨0, 0, metaC3, OrderSide.Buy, 1, 1, 0, 1, 2, 1, 1, [(7, ⟨0, 7, 1/2, 1/2, true⟩)]⟩

/-- Destination reservation for the canceled-part transfer. -/
def dstTc : BalanceReservation :=
  ⟨0, 0, metaC3, OrderSide.Buy, 1, 1, 0, 1, 2, 1, 1, []⟩

/-- Manager holding `srcTc` (id 1) and `dstTc` (id 2). -/
def mTc : BalanceReservationManager :=
  ⟨fun _ => none,
    fun _ => none,
    ServiceValueTree.new,
    ServiceValueTree.new,
    ⟨fun _ => none, []⟩,
    2,
    ⟨fun _ => some 0, ServiceValueTree.new⟩,
    [(1, srcTc), (2, dstTc)],
    false,
    0⟩

open BalanceReservationManager in
/-- Forcing run for the canceled-part transfer exclusion of the amended C2:
transferring `1/4` addressed at the canceled approved part 7 decrements the
canceled residual on the source side, leaving the source's bookkeeping
equation off by `1/4`, far beyond `ε = 1/1000`. -/
theorem c2_transfer_canceled_drift :
    store_balanced mTc
    ∧ (alist_lookup srcTc.approved_parts 7).map ApprovedPart.is_canceled = some true
    ∧ ((mTc.try_transfer_reservation 1 2 (1/4) (some 7)).bind (fun res =>
        (res.2.get_reservation 1).map (fun r =>
          (res.1,
            r.not_approved_amount + parts_active_sum r.approved_parts
              - r.unreserved_amount))))
      = some (true, 1/4)
    ∧ ¬(|(1/4 : ℚ)| ≤ metaC3.amount_precision_step) := by
  refine ⟨?_, rfl, ?_, ?_⟩
  · intro id r h
    simp only [mTc, get_reservation, alist_lookup] at h
    split at h
    · obtain rfl := Option.some.inj h
      refine ⟨?_, ?_⟩
      · simp [srcTc, alist_keys]
      · norm_num [srcTc, BalanceReservation.balanced, parts_active_sum_cons,
          parts_active_sum_nil]
    · split at h
      · obtain rfl := Option.some.inj h
        refine ⟨?_, ?_⟩
        · simp [dstTc, alist_keys]
        · norm_num [dstTc, BalanceReservation.balanced, parts_active_sum_nil]
      · exact Option.noConfusion h
  · norm_num [mTc, srcTc, dstTc, metaC3, try_transfer_reservation,
      transfer_amount, update_unreserved_amount_for_transfer, update_unreserved_tail,
      add_reserved_amount, add_virtual_balance_by_currency_pair_metadata,
      BalanceReservation.get_proportional_cost_amount,
      BalanceReservation.is_amount_within_symbol_margin_error,
      CurrencyPairMetadata.is_amount_within_symbol_margin_error,
      CurrencyPairMetadata.round_to_remove_amount_precision_error,
      CurrencyPairMetadata.conversion_factor, CurrencyPairMetadata.currency_pair,
      CurrencyPairMetadata.convert_amount_from_amount_currency_code,
      CurrencyPairMetadata.get_trade_code, BalanceRequest.from_reservation,
      BalanceRequest.new, VirtualBalanceHolder.add_balance, ApprovedPart.new,
      ServiceValueTree.new, ServiceValueTree.add_by_request,
      get_reservation, storage_set, storage_remove, alist_lookup, alist_update,
      alist_remove, parts_active_sum_cons, parts_active_sum_nil,
      Option.bind, round_eq, abs_of_nonneg]
  · norm_num [metaC3, abs_neg, abs_of_nonneg]

open BalanceReservationManager in
/-- Witness for C2 (amended): the empty store is balanced and stays balanced
across the concrete successful reserve. -/
theorem c2_invariant_preserved_witness : store_balanced mC1_after :=
  c2_invariant_preserved mC1 [BrmOp.reserve pC1] mC1_after
    (fun _ r hr => Option.noConfusion hr)
    (GoodRun.cons mC1 mC1_after mC1_after (BrmOp.reserve pC1) []
      trivial
      (by simp only [apply_op, try_reserve_mC1_eval, Option.map_some'])
      (GoodRun.nil mC1_after))
